import Mathlib

/-!
mini-k8s-manager: cluster actuation state machine and Docker provisioning engine.

A shallow embedding of `pkg/api/v1alpha1`, `pkg/providers` and `pkg/controllers`.

* Go errors are values of `GoError`; a Go function returning `error` returns an
  `Outcome`, which also records a run-time panic.
* The Docker daemon and the Kubernetes object store are external collaborators.
  They are modelled as explicit state (`Runtime`, `Store`) threaded through the
  code, together with an environment (`Env`, `StoreEnv`) that decides which calls
  fail: a call either fails with the error the environment chose, leaving the
  state untouched, or takes effect. The daemon keeps a log of the calls it has
  served, so that which calls an operation issues, and in which order, can be
  stated.
* Standard-library and daemon behaviour the code relies on but does not define
  (`net.ParseCIDR`, `strings.ToUpper`, `fmt.Sscanf`, identifier generation, the
  daemon's name filter) are fields of `Env`.
-/

namespace MiniK8s

/-! ## Go values -/

/-- Go `error` values: `errors.New`, an API-server "not found" status error, and
`fmt.Errorf("<ctx>: %w", inner)`. -/
inductive GoError where
  | new (msg : String)
  | notFound (msg : String)
  | wrapf (ctx : String) (inner : GoError)
  deriving DecidableEq, Repr

/-- The `Error()` method: the message text of an error. -/
def GoError.Error : GoError → String
  | .new m => m
  | .notFound m => m
  | .wrapf c e => c ++ ": " ++ e.Error

/-- Result of a Go call that returns `(value, error)`: a value with a nil error, a
non-nil error, a run-time panic, or a loop that never exits. -/
inductive Outcome (α : Type) where
  | ok (a : α)
  | err (e : GoError)
  | panic (msg : String)
  | diverge
  deriving DecidableEq, Repr

/-- Conversion to a 32-bit signed integer (two's complement wrap-around). -/
def wrapInt32 (x : Int) : Int := (x + 2147483648) % 4294967296 - 2147483648

/-- Conversion to a 64-bit signed integer (two's complement wrap-around). -/
def wrapInt64 (x : Int) : Int :=
  (x + 9223372036854775808) % 18446744073709551616 - 9223372036854775808

/-! ## pkg/api/v1alpha1 -/

def ClusterPhasePending : String := "Pending"
def ClusterPhaseProvisioning : String := "Provisioning"
def ClusterPhaseRunning : String := "Running"
def ClusterPhaseUpdating : String := "Updating"
def ClusterPhaseFailed : String := "Failed"
def ClusterPhaseDeleting : String := "Deleting"

/-- Hardware configuration of a node (`cluster_types.go`). -/
structure MachineConfig where
  Memory : String
  CPUCount : Int
  deriving DecidableEq, Repr

structure ControlPlaneConfig where
  Count : Int
  MachineConfig : MachineConfig
  deriving DecidableEq, Repr

structure WorkerConfig where
  Count : Int
  MachineConfig : MachineConfig
  deriving DecidableEq, Repr

structure ClusterSpec where
  KubernetesVersion : String
  ControlPlane : ControlPlaneConfig
  Workers : WorkerConfig
  deriving DecidableEq, Repr

/-- The fields of `metav1.Condition`. -/
structure Condition where
  CondType : String
  Status : String
  Reason : String
  Message : String
  deriving DecidableEq, Repr

structure ClusterStatus where
  Phase : String
  Message : String
  Conditions : List Condition
  ControlPlaneReady : Bool
  WorkersReady : Int
  deriving DecidableEq, Repr

/-- The zero value `ClusterStatus{}`. -/
def ClusterStatus.zero : ClusterStatus :=
  { Phase := "", Message := "", Conditions := [], ControlPlaneReady := false, WorkersReady := 0 }

/-- The fields of `metav1.ObjectMeta` the code reads or writes. A time is a number
of ticks; tick `0` is the zero time. -/
structure ObjectMeta where
  Name : String
  Namespace : String
  Finalizers : List String
  DeletionTimestamp : Option Nat
  deriving DecidableEq, Repr

/-- The method `(*metav1.Time).IsZero`: a nil pointer or the zero time. -/
def IsZero : Option Nat → Bool
  | none => true
  | some t => t == 0

structure Cluster where
  ObjectMeta : ObjectMeta
  Spec : ClusterSpec
  Status : ClusterStatus
  deriving DecidableEq, Repr

/-- The struct `NetworkConfig` of `provider_types.go`. -/
structure NetworkConfig where
  CIDR : String
  SubnetMask : Int
  ExposedPorts : List Int
  EnableIPv6 : Bool
  DNSNameserver : String
  deriving DecidableEq, Repr

structure ResourceLimit where
  Default : String
  Min : String
  Max : String
  deriving DecidableEq, Repr

structure ResourceLimitsConfig where
  CPU : ResourceLimit
  Memory : ResourceLimit
  Storage : ResourceLimit
  deriving DecidableEq, Repr

structure DockerProviderConfigSpec where
  Network : NetworkConfig
  ResourceLimits : ResourceLimitsConfig
  deriving DecidableEq, Repr

structure DockerProviderConfig where
  ObjectMeta : ObjectMeta
  Spec : DockerProviderConfigSpec
  deriving DecidableEq, Repr

/-! ## pkg/api/v1alpha1: provider configs in memory -/

/-- The backing arrays of the `[]int32` slices in memory, by address. -/
structure Heap where
  arrays : List (List Int)
  deriving DecidableEq, Repr

/-- A `[]int32` value whose length and capacity are those of its backing array:
nil, or the address of the array. -/
abbrev Slice := Option Nat

/-- The elements of a slice. -/
def Heap.read (h : Heap) : Slice → List Int
  | none => []
  | some a => h.arrays.getD a []

/-- The built-in `len`. -/
def Heap.len (h : Heap) (s : Slice) : Nat := (h.read s).length

/-- The built-in `make([]int32, n)`: a fresh array of `n` zeros. -/
def Heap.make (h : Heap) (n : Nat) : Heap × Slice :=
  ({ arrays := h.arrays ++ [List.replicate n 0] }, some h.arrays.length)

/-- The built-in `copy(dst, src)`: the first `min (len dst) (len src)` elements of
`dst` are overwritten with those of `src`. -/
def Heap.copy (h : Heap) (dst src : Slice) : Heap :=
  match dst with
  | none => h
  | some a =>
    let n := min (h.len dst) (h.len src)
    { arrays := h.arrays.set a ((h.read src).take n ++ (h.read dst).drop n) }

/-- The struct `NetworkConfig` as it lies in memory: `ExposedPorts` is a slice. -/
structure NetworkConfigMem where
  CIDR : String
  SubnetMask : Int
  ExposedPorts : Slice
  EnableIPv6 : Bool
  DNSNameserver : String
  deriving DecidableEq, Repr

structure DockerProviderConfigSpecMem where
  Network : NetworkConfigMem
  ResourceLimits : ResourceLimitsConfig
  deriving DecidableEq, Repr

/-- The struct behind a `*DockerProviderConfig`. The metadata is kept as a value:
`ObjectMeta.DeepCopyInto` of the API machinery copies whatever it refers to. -/
structure DockerProviderConfigMem where
  ObjectMeta : ObjectMeta
  Spec : DockerProviderConfigSpecMem
  deriving DecidableEq, Repr

/-- Assignment to `result.Spec.Network`. -/
def DockerProviderConfigMem.setNetwork (c : DockerProviderConfigMem) (n : NetworkConfigMem) :
    DockerProviderConfigMem :=
  { c with Spec := { c.Spec with Network := n } }

/-- Assignment to `result.Spec.ResourceLimits`. -/
def DockerProviderConfigMem.setResourceLimits (c : DockerProviderConfigMem)
    (r : ResourceLimitsConfig) : DockerProviderConfigMem :=
  { c with Spec := { c.Spec with ResourceLimits := r } }

/-- The methods `DeepCopy` and `DeepCopyInto` on a config that is not nil: the
struct is copied, which shares the array of `ExposedPorts`; then, unless the slice
is nil, a fresh array is made for the copy and filled from the original. The
assignments of the scalar fields and of the resource limits repeat the copy of
the struct. -/
def DeepCopy (h : Heap) (d : DockerProviderConfigMem) : Heap × DockerProviderConfigMem :=
  let out := d
  if d.Spec.Network.ExposedPorts ≠ none then
    let (h1, ports) := h.make (h.len d.Spec.Network.ExposedPorts)
    let h2 := h1.copy ports d.Spec.Network.ExposedPorts
    (h2, out.setNetwork { out.Spec.Network with ExposedPorts := ports })
  else (h, out)

/-- The statement `if other.Spec.Network.CIDR != "" \x7b ... \x7d` of `MergeWith`. -/
def mergeCIDR (other result : DockerProviderConfigMem) : DockerProviderConfigMem :=
  if other.Spec.Network.CIDR ≠ "" then
    result.setNetwork { result.Spec.Network with CIDR := other.Spec.Network.CIDR }
  else result

/-- The statement `if other.Spec.Network.SubnetMask != 0` of `MergeWith`. -/
def mergeSubnetMask (other result : DockerProviderConfigMem) : DockerProviderConfigMem :=
  if other.Spec.Network.SubnetMask ≠ 0 then
    result.setNetwork { result.Spec.Network with SubnetMask := other.Spec.Network.SubnetMask }
  else result

/-- The statement `if len(other.Spec.Network.ExposedPorts) > 0` of `MergeWith`: a
fresh array is made for the result and filled from the array of `other`. -/
def mergeExposedPorts (h : Heap) (other result : DockerProviderConfigMem) :
    Heap × DockerProviderConfigMem :=
  if h.len other.Spec.Network.ExposedPorts > 0 then
    let (h1, ports) := h.make (h.len other.Spec.Network.ExposedPorts)
    let h2 := h1.copy ports other.Spec.Network.ExposedPorts
    (h2, result.setNetwork { result.Spec.Network with ExposedPorts := ports })
  else (h, result)

/-- The statement `if other.Spec.Network.DNSNameserver != ""` of `MergeWith`. -/
def mergeDNSNameserver (other result : DockerProviderConfigMem) : DockerProviderConfigMem :=
  if other.Spec.Network.DNSNameserver ≠ "" then
    result.setNetwork
      { result.Spec.Network with DNSNameserver := other.Spec.Network.DNSNameserver }
  else result

/-- The statement `if other.Spec.ResourceLimits.CPU.Default != ""` of `MergeWith`. -/
def mergeCPU (other result : DockerProviderConfigMem) : DockerProviderConfigMem :=
  if other.Spec.ResourceLimits.CPU.Default ≠ "" then
    result.setResourceLimits
      { result.Spec.ResourceLimits with CPU := other.Spec.ResourceLimits.CPU }
  else result

/-- The statement `if other.Spec.ResourceLimits.Memory.Default != ""` of `MergeWith`. -/
def mergeMemory (other result : DockerProviderConfigMem) : DockerProviderConfigMem :=
  if other.Spec.ResourceLimits.Memory.Default ≠ "" then
    result.setResourceLimits
      { result.Spec.ResourceLimits with Memory := other.Spec.ResourceLimits.Memory }
  else result

/-- The statement `if other.Spec.ResourceLimits.Storage.Default != ""` of `MergeWith`. -/
def mergeStorage (other result : DockerProviderConfigMem) : DockerProviderConfigMem :=
  if other.Spec.ResourceLimits.Storage.Default ≠ "" then
    result.setResourceLimits
      { result.Spec.ResourceLimits with Storage := other.Spec.ResourceLimits.Storage }
  else result

/-- The method `MergeWith`, on two configs that are not nil: the deep copy of `d`,
then its seven conditional assignments, in their order. -/
def MergeWith (h : Heap) (d other : DockerProviderConfigMem) :
    Heap × DockerProviderConfigMem :=
  let (h1, result) := DeepCopy h d
  let result := mergeCIDR other result
  let result := mergeSubnetMask other result
  let (h2, result) := mergeExposedPorts h1 other result
  let result := mergeDNSNameserver other result
  let result := mergeCPU other result
  let result := mergeMemory other result
  let result := mergeStorage other result
  (h2, result)

/-! ## The container runtime (Docker daemon) -/

/-- A container held by the daemon: what `ContainerList` reports of it and the
settings it was created with. -/
structure Container where
  ID : String
  Names : List String
  Image : String
  Hostname : String
  Labels : List (String × String)
  State : String
  Privileged : Bool
  Memory : Int
  NanoCPUs : Int
  NetworkName : String
  NetworkID : String
  deriving DecidableEq, Repr

/-- A network held by the daemon. -/
structure Network where
  ID : String
  Name : String
  Labels : List (String × String)
  Driver : String
  Subnet : String
  Gateway : String
  EnableIPv6 : Bool
  deriving DecidableEq, Repr

/-- A `filters.Args` value with one entry: `label=<key>=<value>` or `name=<n>`. -/
inductive Filter where
  | label (key value : String)
  | name (n : String)
  deriving DecidableEq, Repr

/-- The calls of the Docker client the provider issues. -/
inductive DockerCall where
  | ContainerList (all : Bool) (f : Filter)
  | NetworkList (f : Filter)
  | NetworkCreate (name : String)
  | NetworkRemove (id : String)
  | ImagePull (ref : String)
  | ContainerCreate (name : String)
  | ContainerStart (id : String)
  | ContainerStop (id : String)
  | ContainerRemove (id : String)
  deriving DecidableEq, Repr

/-- Result of `net.ParseCIDR`: the network address and mask, as byte lists. -/
structure IPNet where
  IP : List Nat
  Mask : List Nat
  deriving DecidableEq, Repr

/-- The environment of the provider: what the code does not define itself.
`dockerFault n c` is the error, if any, with which the daemon answers call `c`
when it is the `n`-th call it serves; `newID n` is the identifier the daemon gives
the `n`-th resource it creates; `nameMatch pat name` is the daemon's `name`
filter; the remaining fields are Go standard-library functions. -/
structure Env where
  dockerFault : Nat → DockerCall → Option GoError
  newID : Nat → String
  nameMatch : String → String → Bool
  ParseCIDR : String → Option IPNet
  ToUpper : String → String
  SscanInt : String → Option Int

/-- State of the daemon: its containers and networks, the number of calls it has
served, the number of resources it has created, and the calls it has served, in
order. -/
structure Runtime where
  containers : List Container
  networks : List Network
  clock : Nat
  created : Nat
  calls : List DockerCall
  deriving DecidableEq, Repr

/-- The daemon has served one more call. -/
def Runtime.serve (rt : Runtime) (c : DockerCall) : Runtime :=
  { rt with clock := rt.clock + 1, calls := rt.calls ++ [c] }

/-- Map lookup `m[key]` on a label map: the empty string when the key is absent. -/
def labelOf (labels : List (String × String)) (key : String) : String :=
  (labels.lookup key).getD ""

/-- Does a label map satisfy a filter on labels. -/
def hasLabel (labels : List (String × String)) (key value : String) : Bool :=
  labels.lookup key == some value

def Container.matchesFilter (env : Env) (c : Container) : Filter → Bool
  | .label k v => hasLabel c.Labels k v
  | .name n => c.Names.any (env.nameMatch n)

def Network.matchesFilter (env : Env) (n : Network) : Filter → Bool
  | .label k v => hasLabel n.Labels k v
  | .name pat => env.nameMatch pat n.Name

/-- The call `client.ContainerList` with `ListOptions{All, Filters}`. -/
def ContainerList (env : Env) (rt : Runtime) (all : Bool) (f : Filter) :
    Runtime × Except GoError (List Container) :=
  match env.dockerFault rt.clock (.ContainerList all f) with
  | some e => (rt.serve (.ContainerList all f), .error e)
  | none =>
    (rt.serve (.ContainerList all f), .ok (rt.containers.filter
      (fun c => (all || c.State == "running") && c.matchesFilter env f)))

/-- The call `client.NetworkList` with `ListOptions{Filters}`. -/
def NetworkList (env : Env) (rt : Runtime) (f : Filter) :
    Runtime × Except GoError (List Network) :=
  match env.dockerFault rt.clock (.NetworkList f) with
  | some e => (rt.serve (.NetworkList f), .error e)
  | none =>
    (rt.serve (.NetworkList f), .ok (rt.networks.filter (fun n => n.matchesFilter env f)))

/-- The fields of `network.CreateOptions`. -/
structure NetworkCreateOptions where
  Driver : String
  IPAMDriver : String
  Subnet : String
  Gateway : String
  EnableIPv6 : Bool
  Internal : Bool
  Attachable : Bool
  Ingress : Bool
  Labels : List (String × String)
  deriving DecidableEq, Repr

/-- The call `client.NetworkCreate`: the new network carries the labels of the
options and gets a fresh identifier, which is returned. -/
def NetworkCreate (env : Env) (rt : Runtime) (name : String) (opts : NetworkCreateOptions) :
    Runtime × Except GoError String :=
  match env.dockerFault rt.clock (.NetworkCreate name) with
  | some e => (rt.serve (.NetworkCreate name), .error e)
  | none =>
    let id := env.newID rt.created
    let net : Network :=
      { ID := id, Name := name, Labels := opts.Labels, Driver := opts.Driver,
        Subnet := opts.Subnet, Gateway := opts.Gateway, EnableIPv6 := opts.EnableIPv6 }
    ({ rt.serve (.NetworkCreate name) with
        networks := rt.networks ++ [net], created := rt.created + 1 }, .ok id)

/-- The call `client.NetworkRemove`. -/
def NetworkRemove (env : Env) (rt : Runtime) (id : String) : Runtime × Except GoError Unit :=
  match env.dockerFault rt.clock (.NetworkRemove id) with
  | some e => (rt.serve (.NetworkRemove id), .error e)
  | none =>
    ({ rt.serve (.NetworkRemove id) with
        networks := rt.networks.filter (fun n => n.ID != id) }, .ok ())

/-- The call `client.ImagePull`; images are not part of the state. -/
def ImagePull (env : Env) (rt : Runtime) (ref : String) : Runtime × Except GoError Unit :=
  match env.dockerFault rt.clock (.ImagePull ref) with
  | some e => (rt.serve (.ImagePull ref), .error e)
  | none => (rt.serve (.ImagePull ref), .ok ())

/-- The arguments of `client.ContainerCreate` the provider sets: `container.Config`,
`container.HostConfig`, the endpoint of `network.NetworkingConfig`. -/
structure ContainerCreateArgs where
  Image : String
  Hostname : String
  Labels : List (String × String)
  Privileged : Bool
  Memory : Int
  NanoCPUs : Int
  NetworkName : String
  NetworkID : String
  deriving DecidableEq, Repr

/-- The call `client.ContainerCreate`: the new container is in state `created`
and gets a fresh identifier, which is returned. -/
def ContainerCreate (env : Env) (rt : Runtime) (args : ContainerCreateArgs) (name : String) :
    Runtime × Except GoError String :=
  match env.dockerFault rt.clock (.ContainerCreate name) with
  | some e => (rt.serve (.ContainerCreate name), .error e)
  | none =>
    let id := env.newID rt.created
    let cont : Container :=
      { ID := id, Names := ["/" ++ name], Image := args.Image, Hostname := args.Hostname,
        Labels := args.Labels, State := "created", Privileged := args.Privileged,
        Memory := args.Memory, NanoCPUs := args.NanoCPUs, NetworkName := args.NetworkName,
        NetworkID := args.NetworkID }
    ({ rt.serve (.ContainerCreate name) with
        containers := rt.containers ++ [cont], created := rt.created + 1 }, .ok id)

/-- Set the state of every container with the given identifier. -/
def setState (id state : String) (cs : List Container) : List Container :=
  cs.map (fun c => if c.ID == id then { c with State := state } else c)

/-- The call `client.ContainerStart`. -/
def ContainerStart (env : Env) (rt : Runtime) (id : String) : Runtime × Except GoError Unit :=
  match env.dockerFault rt.clock (.ContainerStart id) with
  | some e => (rt.serve (.ContainerStart id), .error e)
  | none =>
    ({ rt.serve (.ContainerStart id) with
        containers := setState id "running" rt.containers }, .ok ())

/-- The call `client.ContainerStop`. -/
def ContainerStop (env : Env) (rt : Runtime) (id : String) : Runtime × Except GoError Unit :=
  match env.dockerFault rt.clock (.ContainerStop id) with
  | some e => (rt.serve (.ContainerStop id), .error e)
  | none =>
    ({ rt.serve (.ContainerStop id) with
        containers := setState id "exited" rt.containers }, .ok ())

/-- The call `client.ContainerRemove`. -/
def ContainerRemove (env : Env) (rt : Runtime) (id : String) : Runtime × Except GoError Unit :=
  match env.dockerFault rt.clock (.ContainerRemove id) with
  | some e => (rt.serve (.ContainerRemove id), .error e)
  | none =>
    ({ rt.serve (.ContainerRemove id) with
        containers := rt.containers.filter (fun c => c.ID != id) }, .ok ())

/-! ## pkg/providers: errors and the Docker provider -/

def ErrClusterExists : GoError := .new "cluster already exists"
def ErrClusterNotFound : GoError := .new "cluster not found"
def ErrInvalidConfig : GoError := .new "invalid cluster configuration"
def ErrProviderNotReady : GoError := .new "provider not ready"

/-- The method `ValidateClusterSpec` of `BaseProvider`, on the spec pointer
(`none` is nil). The first component is the spec behind the pointer when the
method returns; the body has no assignment through the pointer. -/
def ValidateClusterSpec (spec : Option ClusterSpec) : Option ClusterSpec × Outcome Unit :=
  match spec with
  | none => (spec, .err ErrInvalidConfig)
  | some s =>
    if s.KubernetesVersion = "" then
      (spec, .err (.new "kubernetes version is required"))
    else if s.ControlPlane.Count < 1 then
      (spec, .err (.new "at least one control plane node is required"))
    else if s.Workers.Count < 0 then
      (spec, .err (.new "worker count cannot be negative"))
    else (spec, .ok ())

/-- The struct `DockerProvider`; its Docker client is the `Runtime` the methods
are run on. -/
structure DockerProvider where
  config : DockerProviderConfig
  deriving DecidableEq, Repr

def getClusterNetworkName (cluster : Cluster) : String :=
  "cluster-" ++ cluster.ObjectMeta.Name ++ "-net"

def getNodeName (cluster : Cluster) (role : String) (index : Int) : String :=
  "cluster-" ++ cluster.ObjectMeta.Name ++ "-" ++ role ++ "-" ++ toString index

/-- The filter `label=cluster=<name>`. -/
def getClusterFilters (cluster : Cluster) : Filter :=
  .label "cluster" cluster.ObjectMeta.Name

/-- The function `strings.HasSuffix`. -/
def HasSuffix (s suffix : String) : Bool := suffix.data.isSuffixOf s.data

/-- The function `strings.TrimSuffix`. -/
def TrimSuffix (s suffix : String) : String :=
  if HasSuffix s suffix then String.mk (s.data.take (s.data.length - suffix.data.length))
  else s

/-- Conversion of a memory string to bytes. `env.SscanInt value` is what
`fmt.Sscanf(value, "%d", &bytes)` stores in the `int64`, if it stores anything. -/
def parseMemory (env : Env) (memory : String) : Int :=
  let memory := env.ToUpper memory
  let multiplier : Option Int :=
    if HasSuffix memory "KI" then some 1024
    else if HasSuffix memory "MI" then some (1024 * 1024)
    else if HasSuffix memory "GI" then some (1024 * 1024 * 1024)
    else none
  match multiplier with
  | none => 0
  | some multiplier =>
    let value := TrimSuffix (TrimSuffix memory "I") "KMG"
    let bytes := (env.SscanInt value).getD 0
    wrapInt64 (bytes * multiplier)

/-- The method `net.IP.To4`: the 4-byte form of an address, if it has one. -/
def To4 (ip : List Nat) : Option (List Nat) :=
  if ip.length = 4 then some ip
  else if ip.length = 16 ∧ (ip.take 10).all (fun b => b == 0) ∧ ip.getD 10 0 = 255
      ∧ ip.getD 11 0 = 255 then some (ip.drop 12)
  else none

/-- The method `net.IP.String` on a 4-byte address: dotted decimal. -/
def ipString (ip : List Nat) : String := String.intercalate "." (ip.map toString)

/-- The gateway of a CIDR: the network address with its last byte incremented
(`ip[3]++` on a byte). Indexing the nil slice `To4` returns for an address
without a 4-byte form panics. -/
def getNetworkGateway (env : Env) (cidr : String) : Outcome String :=
  match env.ParseCIDR cidr with
  | none => .ok ""
  | some ipNet =>
    match To4 ipNet.IP with
    | none => .panic "index out of range [3] with length 0"
    | some ip => .ok (ipString (ip.set 3 ((ip.getD 3 0 + 1) % 256)))

def createNetwork (env : Env) (p : DockerProvider) (cluster : Cluster) (rt : Runtime) :
    Runtime × Outcome String :=
  let networkName := getClusterNetworkName cluster
  match NetworkList env rt (.name networkName) with
  | (rt1, .error e) => (rt1, .err (.wrapf "failed to list networks" e))
  | (rt1, .ok (n :: _)) => (rt1, .ok n.ID)
  | (rt1, .ok []) =>
    match getNetworkGateway env p.config.Spec.Network.CIDR with
    | .ok gateway =>
      let networkCreateOpts : NetworkCreateOptions :=
        { Driver := "bridge", IPAMDriver := "default",
          Subnet := p.config.Spec.Network.CIDR, Gateway := gateway,
          EnableIPv6 := p.config.Spec.Network.EnableIPv6,
          Internal := false, Attachable := false, Ingress := false, Labels := [] }
      match NetworkCreate env rt1 networkName networkCreateOpts with
      | (rt2, .error e) => (rt2, .err (.wrapf "failed to create network" e))
      | (rt2, .ok id) => (rt2, .ok id)
    | .err e => (rt1, .err e)
    | .panic m => (rt1, .panic m)
    | .diverge => (rt1, .diverge)

def createNode (env : Env) (cluster : Cluster) (nodeName role networkID : String)
    (machineConfig : MachineConfig) (rt : Runtime) : Runtime × Outcome Unit :=
  let imageRef := "kindest/node:" ++ cluster.Spec.KubernetesVersion
  match ImagePull env rt imageRef with
  | (rt1, .error e) => (rt1, .err (.wrapf "failed to pull node image" e))
  | (rt1, .ok _) =>
    let args : ContainerCreateArgs :=
      { Image := "kindest/node:" ++ cluster.Spec.KubernetesVersion,
        Hostname := nodeName,
        Labels := [("cluster", cluster.ObjectMeta.Name), ("role", role)],
        Privileged := true,
        Memory := parseMemory env machineConfig.Memory,
        NanoCPUs := wrapInt32 (machineConfig.CPUCount * 1000000000),
        NetworkName := getClusterNetworkName cluster,
        NetworkID := networkID }
    match ContainerCreate env rt1 args nodeName with
    | (rt2, .error e) => (rt2, .err (.wrapf "failed to create container" e))
    | (rt2, .ok id) =>
      match ContainerStart env rt2 id with
      | (rt3, .error e) => (rt3, .err (.wrapf "failed to start container" e))
      | (rt3, .ok _) => (rt3, .ok ())

/-- The first loop of `DeleteCluster`: stop, then force-remove, each listed
container. The log line slices `cont.ID[:12]`, which panics on an identifier
shorter than 12 bytes. -/
def stopAndRemove (env : Env) : List Container → Runtime → Runtime × Outcome Unit
  | [], rt => (rt, .ok ())
  | cont :: rest, rt =>
    if cont.ID.utf8ByteSize < 12 then
      (rt, .panic "slice bounds out of range [:12]")
    else
      match ContainerStop env rt cont.ID with
      | (rt1, .error e) => (rt1, .err (.wrapf ("failed to stop container " ++ cont.ID) e))
      | (rt1, .ok _) =>
        match ContainerRemove env rt1 cont.ID with
        | (rt2, .error e) => (rt2, .err (.wrapf ("failed to remove container " ++ cont.ID) e))
        | (rt2, .ok _) => stopAndRemove env rest rt2

/-- The second loop of `DeleteCluster`: remove each listed network. -/
def removeNetworks (env : Env) : List Network → Runtime → Runtime × Outcome Unit
  | [], rt => (rt, .ok ())
  | net :: rest, rt =>
    match NetworkRemove env rt net.ID with
    | (rt1, .error e) => (rt1, .err (.wrapf ("failed to remove network " ++ net.ID) e))
    | (rt1, .ok _) => removeNetworks env rest rt1

def DeleteCluster (env : Env) (cluster : Cluster) (rt : Runtime) : Runtime × Outcome Unit :=
  match ContainerList env rt true (getClusterFilters cluster) with
  | (rt1, .error e) => (rt1, .err (.wrapf "failed to list containers" e))
  | (rt1, .ok containers) =>
    match stopAndRemove env containers rt1 with
    | (rt2, .ok _) =>
      match NetworkList env rt2 (getClusterFilters cluster) with
      | (rt3, .error e) => (rt3, .err (.wrapf "failed to list networks" e))
      | (rt3, .ok networks) => removeNetworks env networks rt3
    | (rt2, o) => (rt2, o)

def clusterExists (env : Env) (cluster : Cluster) (rt : Runtime) :
    Runtime × Except GoError Bool :=
  match ContainerList env rt true (getClusterFilters cluster) with
  | (rt1, .error e) => (rt1, .error (.wrapf "failed to list containers" e))
  | (rt1, .ok containers) => (rt1, .ok (decide (containers.length > 0)))

/-- One of the two node loops of `CreateCluster`: nodes `i`, `i+1`, ... of the given
role, `n` of them; `what` is the word the error message uses for the role. On a
failure the cluster is deleted, the result of the deletion is dropped, and the
node's error is returned wrapped. -/
def createNodes (env : Env) (cluster : Cluster) (role what networkID : String)
    (machineConfig : MachineConfig) : Nat → Int → Runtime → Runtime × Outcome Unit
  | 0, _, rt => (rt, .ok ())
  | n + 1, i, rt =>
    let nodeName := getNodeName cluster role i
    match createNode env cluster nodeName role networkID machineConfig rt with
    | (rt1, .ok _) => createNodes env cluster role what networkID machineConfig n (i + 1) rt1
    | (rt1, .err e) =>
      match DeleteCluster env cluster rt1 with
      | (rt2, .panic m) => (rt2, .panic m)
      | (rt2, .diverge) => (rt2, .diverge)
      | (rt2, _) => (rt2, .err (.wrapf ("failed to create " ++ what ++ " " ++ nodeName) e))
    | (rt1, o) => (rt1, o)

def CreateCluster (env : Env) (p : DockerProvider) (cluster : Cluster) (rt : Runtime) :
    Runtime × Outcome Unit :=
  match clusterExists env cluster rt with
  | (rt1, .error e) => (rt1, .err (.wrapf "failed to check if cluster exists" e))
  | (rt1, .ok true) => (rt1, .err ErrClusterExists)
  | (rt1, .ok false) =>
    match createNetwork env p cluster rt1 with
    | (rt2, .err e) => (rt2, .err (.wrapf "failed to create network" e))
    | (rt2, .panic m) => (rt2, .panic m)
    | (rt2, .diverge) => (rt2, .diverge)
    | (rt2, .ok networkID) =>
      match createNodes env cluster "control-plane" "control plane node" networkID
          cluster.Spec.ControlPlane.MachineConfig cluster.Spec.ControlPlane.Count.toNat 0 rt2 with
      | (rt3, .ok _) =>
        createNodes env cluster "worker" "worker node" networkID
          cluster.Spec.Workers.MachineConfig cluster.Spec.Workers.Count.toNat 0 rt3
      | (rt3, o) => (rt3, o)

/-- The counters of the loop of `GetClusterStatus`. -/
structure Tally where
  controlPlaneCount : Int
  workerCount : Int
  allRunning : Bool
  deriving DecidableEq, Repr

/-- One iteration of the loop of `GetClusterStatus`; the counters are `int32`. -/
def tallyStep (t : Tally) (cont : Container) : Tally :=
  if cont.State != "running" then { t with allRunning := false }
  else if labelOf cont.Labels "role" = "control-plane" then
    { t with controlPlaneCount := wrapInt32 (t.controlPlaneCount + 1) }
  else if labelOf cont.Labels "role" = "worker" then
    { t with workerCount := wrapInt32 (t.workerCount + 1) }
  else t

/-- The status `GetClusterStatus` computes from the listed containers. -/
def statusOf (containers : List Container) (spec : ClusterSpec) : ClusterStatus :=
  let t := containers.foldl tallyStep
    { controlPlaneCount := 0, workerCount := 0, allRunning := true }
  let phase :=
    if containers.length = 0 then "NotFound"
    else if !t.allRunning then "Starting"
    else if t.controlPlaneCount = spec.ControlPlane.Count ∧ t.workerCount = spec.Workers.Count
    then "Running"
    else "Pending"
  { ClusterStatus.zero with
    Phase := phase
    ControlPlaneReady := decide (t.controlPlaneCount = spec.ControlPlane.Count)
    WorkersReady := t.workerCount }

def GetClusterStatus (env : Env) (cluster : Cluster) (rt : Runtime) :
    Runtime × Outcome ClusterStatus :=
  match ContainerList env rt true (getClusterFilters cluster) with
  | (rt1, .error e) => (rt1, .err (.wrapf "failed to list containers" e))
  | (rt1, .ok containers) => (rt1, .ok (statusOf containers cluster.Spec))

/-- The fields of `container.Resources` the provider sets. -/
structure Resources where
  Memory : Int
  CPUQuota : Int
  CPUPeriod : Int
  deriving DecidableEq, Repr

/-- The method `getResourceAllocation`. The product `config.CPUCount * 100000` is
taken in `int32` and converted to `int64` afterwards. -/
def getResourceAllocation (env : Env) (config : MachineConfig) : Resources :=
  let memoryBytes := parseMemory env config.Memory
  { Memory := memoryBytes
    CPUQuota := wrapInt32 (config.CPUCount * 100000)
    CPUPeriod := 100000 }

/-- The scale-up loop of `UpdateCluster`: `n` more workers from index `i`. -/
def scaleUp (env : Env) (cluster : Cluster) (networkID : String) :
    Nat → Int → Runtime → Runtime × Outcome Unit
  | 0, _, rt => (rt, .ok ())
  | n + 1, i, rt =>
    let nodeName := getNodeName cluster "worker" i
    match createNode env cluster nodeName "worker" networkID
        cluster.Spec.Workers.MachineConfig rt with
    | (rt1, .ok _) => scaleUp env cluster networkID n (i + 1) rt1
    | (rt1, .err e) => (rt1, .err (.wrapf ("failed to create worker node " ++ nodeName) e))
    | (rt1, o) => (rt1, o)

/-- The scale-down loop of `UpdateCluster`: `n` iterations from index `i` down. -/
def scaleDown (env : Env) (cluster : Cluster) : Nat → Int → Runtime → Runtime × Outcome Unit
  | 0, _, rt => (rt, .ok ())
  | n + 1, i, rt =>
    let nodeName := getNodeName cluster "worker" i
    match ContainerList env rt true (.name nodeName) with
    | (rt1, .error e) => (rt1, .err (.wrapf "failed to list containers" e))
    | (rt1, .ok []) => scaleDown env cluster n (i - 1) rt1
    | (rt1, .ok (c :: _)) =>
      match ContainerStop env rt1 c.ID with
      | (rt2, .error e) => (rt2, .err (.wrapf ("failed to stop container " ++ nodeName) e))
      | (rt2, .ok _) =>
        match ContainerRemove env rt2 c.ID with
        | (rt3, .error e) => (rt3, .err (.wrapf ("failed to remove container " ++ nodeName) e))
        | (rt3, .ok _) => scaleDown env cluster n (i - 1) rt3

/-- The method `UpdateCluster`. The counters of its loops are `int32`. The
scale-down loop `for i := current - 1; i >= desired; i--` has no exit by its
condition when `desired` is the least `int32`; that case is rendered as `diverge`
without running the iterations. -/
def UpdateCluster (env : Env) (cluster : Cluster) (rt : Runtime) : Runtime × Outcome Unit :=
  match clusterExists env cluster rt with
  | (rt1, .error e) => (rt1, .err (.wrapf "failed to check cluster existence" e))
  | (rt1, .ok false) => (rt1, .err ErrClusterNotFound)
  | (rt1, .ok true) =>
    match GetClusterStatus env cluster rt1 with
    | (rt2, .ok status) =>
      let currentWorkers := status.WorkersReady
      let desiredWorkers := cluster.Spec.Workers.Count
      if currentWorkers = desiredWorkers then (rt2, .ok ())
      else
        match NetworkList env rt2 (.name (getClusterNetworkName cluster)) with
        | (rt3, .error e) => (rt3, .err (.wrapf "failed to get cluster network" e))
        | (rt3, .ok []) => (rt3, .err (.new "failed to get cluster network: %!w(<nil>)"))
        | (rt3, .ok (net :: _)) =>
          if desiredWorkers > currentWorkers then
            scaleUp env cluster net.ID (desiredWorkers - currentWorkers).toNat currentWorkers rt3
          else if desiredWorkers = -2147483648 then (rt3, .diverge)
          else
            scaleDown env cluster (currentWorkers - desiredWorkers).toNat
              (wrapInt32 (currentWorkers - 1)) rt3
    | (rt2, .err e) => (rt2, .err (.wrapf "failed to get cluster status" e))
    | (rt2, .panic m) => (rt2, .panic m)
    | (rt2, .diverge) => (rt2, .diverge)

/-- The interface `Provider`, over the state `σ` its implementation acts on. -/
structure Provider (σ : Type) where
  CreateCluster : Cluster → σ → σ × Outcome Unit
  DeleteCluster : Cluster → σ → σ × Outcome Unit
  GetClusterStatus : Cluster → σ → σ × Outcome ClusterStatus
  UpdateCluster : Cluster → σ → σ × Outcome Unit

/-- The Docker provider as a `Provider` acting on the daemon. -/
def dockerProvider (env : Env) (p : DockerProvider) : Provider Runtime :=
  { CreateCluster := CreateCluster env p
    DeleteCluster := DeleteCluster env
    GetClusterStatus := GetClusterStatus env
    UpdateCluster := UpdateCluster env }

/-! ## The object store (Kubernetes API server) -/

/-- The key `types.NamespacedName` of an object. -/
structure NamespacedName where
  Namespace : String
  Name : String
  deriving DecidableEq, Repr

/-- The calls of the controller-runtime client the reconciler issues. -/
inductive StoreCall where
  | Get (key : NamespacedName)
  | Update (key : NamespacedName)
  | StatusUpdate (key : NamespacedName)
  deriving DecidableEq, Repr

/-- The environment of the reconciler: `storeFault n c` is the error, if any, with
which the store answers call `c` when it is the `n`-th call it serves. -/
structure StoreEnv where
  storeFault : Nat → StoreCall → Option GoError

/-- State of the store: the persisted objects and the number of calls served. -/
structure Store where
  objects : List Cluster
  clock : Nat
  deriving DecidableEq, Repr

def Cluster.key (c : Cluster) : NamespacedName :=
  { Namespace := c.ObjectMeta.Namespace, Name := c.ObjectMeta.Name }

def Store.tick (s : Store) : Store := { s with clock := s.clock + 1 }

/-- The persisted object with the given key. -/
def Store.find (s : Store) (key : NamespacedName) : Option Cluster :=
  s.objects.find? (fun c => c.key == key)

/-- Replace the persisted object that has the key of `c` by `c`. -/
def Store.put (s : Store) (c : Cluster) : Store :=
  { s with objects := s.objects.map (fun o => if o.key == c.key then c else o) }

/-- The call `r.Get`. -/
def Store.Get (senv : StoreEnv) (s : Store) (key : NamespacedName) :
    Store × Except GoError Cluster :=
  match senv.storeFault s.clock (.Get key) with
  | some e => (s.tick, .error e)
  | none =>
    match s.find key with
    | none => (s.tick, .error (.notFound ("cluster not found: " ++ key.Name)))
    | some c => (s.tick, .ok c)

/-- Remove the persisted object with the given key. -/
def Store.remove (s : Store) (key : NamespacedName) : Store :=
  { s with objects := s.objects.filter (fun o => !(o.key == key)) }

/-- What the store does with an object it has accepted: an object that carries a
deletion marker and has no finalizer left is purged, any other object replaces
the persisted one. -/
def Store.commit (s : Store) (new : Cluster) : Store :=
  if !IsZero new.ObjectMeta.DeletionTimestamp && new.ObjectMeta.Finalizers.isEmpty then
    s.remove new.key
  else s.put new

/-- The call `r.Update`. The type `Cluster` has a status subresource
(`+kubebuilder:subresource:status`): the store keeps the persisted status and
takes everything else from `obj`. An object written with a deletion marker and
without a finalizer is purged from the store. The stored object is written back
into the caller's object. -/
def Store.Update (senv : StoreEnv) (s : Store) (obj : Cluster) :
    Store × Except GoError Cluster :=
  match senv.storeFault s.clock (.Update obj.key) with
  | some e => (s.tick, .error e)
  | none =>
    match s.find obj.key with
    | none => (s.tick, .error (.notFound ("cluster not found: " ++ obj.key.Name)))
    | some stored =>
      let new : Cluster := { obj with Status := stored.Status }
      ((s.commit new).tick, .ok new)

/-- The call `r.Status().Update`: the store takes the status from `obj` and keeps
everything else of the persisted object. -/
def Store.StatusUpdate (senv : StoreEnv) (s : Store) (obj : Cluster) :
    Store × Except GoError Cluster :=
  match senv.storeFault s.clock (.StatusUpdate obj.key) with
  | some e => (s.tick, .error e)
  | none =>
    match s.find obj.key with
    | none => (s.tick, .error (.notFound ("cluster not found: " ++ obj.key.Name)))
    | some stored =>
      let new : Cluster := { stored with Status := obj.Status }
      ((s.put new).tick, .ok new)

/-- The function `apierrors.IsNotFound`, which looks through wrapping. -/
def IsNotFound : GoError → Bool
  | .new _ => false
  | .notFound _ => true
  | .wrapf _ e => IsNotFound e

/-! ## pkg/controllers: the reconciler -/

/-- What one invocation of `Reconcile` does to its collaborators, in order: the
provider methods it invokes and the store writes it issues, each with the object
passed. -/
inductive Event where
  | CreateCluster (cluster : Cluster)
  | DeleteCluster (cluster : Cluster)
  | GetClusterStatus (cluster : Cluster)
  | UpdateCluster (cluster : Cluster)
  | Update (obj : Cluster)
  | StatusUpdate (obj : Cluster)
  deriving DecidableEq, Repr

/-- Is the event the invocation of a provider method. -/
def Event.isProviderCall : Event → Bool
  | .CreateCluster _ => true
  | .DeleteCluster _ => true
  | .GetClusterStatus _ => true
  | .UpdateCluster _ => true
  | .Update _ => false
  | .StatusUpdate _ => false

/-- Is the event a write to the store. -/
def Event.isWrite : Event → Bool
  | .Update _ => true
  | .StatusUpdate _ => true
  | _ => false

/-- What the reconciler acts on: the store, the state behind the provider, and the
log of the events so far. -/
structure World (σ : Type) where
  store : Store
  provider : σ
  trace : List Event

/-- The struct `ctrl.Result`. -/
structure CtrlResult where
  Requeue : Bool := false
  RequeueAfter : Int := 0
  deriving DecidableEq, Repr

def clusterFinalizer : String := "cluster.mini-k8s.io/finalizer"

def containsString : List String → String → Bool
  | [], _ => false
  | item :: rest, s => if item = s then true else containsString rest s

def removeString : List String → String → List String
  | [], _ => []
  | item :: rest, s => if item ≠ s then item :: removeString rest s else removeString rest s

section Reconciler

variable {σ : Type}

def World.Get (senv : StoreEnv) (w : World σ) (key : NamespacedName) :
    World σ × Except GoError Cluster :=
  let (s, r) := w.store.Get senv key
  ({ w with store := s }, r)

def World.Update (senv : StoreEnv) (w : World σ) (obj : Cluster) :
    World σ × Except GoError Cluster :=
  let (s, r) := w.store.Update senv obj
  ({ w with store := s, trace := w.trace ++ [.Update obj] }, r)

def World.StatusUpdate (senv : StoreEnv) (w : World σ) (obj : Cluster) :
    World σ × Except GoError Cluster :=
  let (s, r) := w.store.StatusUpdate senv obj
  ({ w with store := s, trace := w.trace ++ [.StatusUpdate obj] }, r)

def World.CreateCluster (prov : Provider σ) (w : World σ) (cluster : Cluster) :
    World σ × Outcome Unit :=
  let (p, r) := prov.CreateCluster cluster w.provider
  ({ w with provider := p, trace := w.trace ++ [.CreateCluster cluster] }, r)

def World.DeleteCluster (prov : Provider σ) (w : World σ) (cluster : Cluster) :
    World σ × Outcome Unit :=
  let (p, r) := prov.DeleteCluster cluster w.provider
  ({ w with provider := p, trace := w.trace ++ [.DeleteCluster cluster] }, r)

def World.GetClusterStatus (prov : Provider σ) (w : World σ) (cluster : Cluster) :
    World σ × Outcome ClusterStatus :=
  let (p, r) := prov.GetClusterStatus cluster w.provider
  ({ w with provider := p, trace := w.trace ++ [.GetClusterStatus cluster] }, r)

def handleDeletion (senv : StoreEnv) (prov : Provider σ) (cluster : Cluster) (w : World σ) :
    World σ × Outcome CtrlResult :=
  if containsString cluster.ObjectMeta.Finalizers clusterFinalizer then
    match w.DeleteCluster prov cluster with
    | (w1, .ok _) =>
      let cluster := { cluster with ObjectMeta := { cluster.ObjectMeta with
        Finalizers := removeString cluster.ObjectMeta.Finalizers clusterFinalizer } }
      match w1.Update senv cluster with
      | (w2, .error e) => (w2, .err e)
      | (w2, .ok _) => (w2, .ok {})
    | (w1, .err e) => (w1, .err e)
    | (w1, .panic m) => (w1, .panic m)
    | (w1, .diverge) => (w1, .diverge)
  else (w, .ok {})

def handlePendingPhase (senv : StoreEnv) (cluster : Cluster) (w : World σ) :
    World σ × Outcome CtrlResult :=
  let cluster := { cluster with Status := { cluster.Status with Phase := ClusterPhaseProvisioning } }
  match w.StatusUpdate senv cluster with
  | (w1, .error e) => (w1, .err e)
  | (w1, .ok _) => (w1, .ok { Requeue := true })

def handleProvisioningPhase (senv : StoreEnv) (prov : Provider σ) (cluster : Cluster)
    (w : World σ) : World σ × Outcome CtrlResult :=
  match w.CreateCluster prov cluster with
  | (w1, .err e) =>
    let cluster := { cluster with Status := { cluster.Status with
      Phase := ClusterPhaseFailed, Message := "Failed to create cluster: " ++ e.Error } }
    match w1.StatusUpdate senv cluster with
    | (w2, .error updateErr) => (w2, .err updateErr)
    | (w2, .ok _) => (w2, .err e)
  | (w1, .ok _) =>
    let cluster := { cluster with Status := { cluster.Status with Phase := ClusterPhaseRunning } }
    match w1.StatusUpdate senv cluster with
    | (w2, .error e) => (w2, .err e)
    | (w2, .ok _) => (w2, .ok {})
  | (w1, .panic m) => (w1, .panic m)
  | (w1, .diverge) => (w1, .diverge)

def handleRunningPhase (senv : StoreEnv) (prov : Provider σ) (cluster : Cluster)
    (w : World σ) : World σ × Outcome CtrlResult :=
  match w.GetClusterStatus prov cluster with
  | (w1, .err e) => (w1, .err e)
  | (w1, .ok status) =>
    let cluster := { cluster with Status := status }
    match w1.StatusUpdate senv cluster with
    | (w2, .error e) => (w2, .err e)
    | (w2, .ok _) => (w2, .ok { RequeueAfter := 30 })
  | (w1, .panic m) => (w1, .panic m)
  | (w1, .diverge) => (w1, .diverge)

def handleFailedPhase (w : World σ) : World σ × Outcome CtrlResult :=
  (w, .ok { RequeueAfter := 300 })

/-- The part of `Reconcile` after the finalizer has been ensured: the deletion
check, then the switch on the phase. -/
def dispatch (senv : StoreEnv) (prov : Provider σ) (cluster : Cluster) (w : World σ) :
    World σ × Outcome CtrlResult :=
  if !IsZero cluster.ObjectMeta.DeletionTimestamp then
    handleDeletion senv prov cluster w
  else if cluster.Status.Phase = ClusterPhasePending then
    handlePendingPhase senv cluster w
  else if cluster.Status.Phase = ClusterPhaseProvisioning then
    handleProvisioningPhase senv prov cluster w
  else if cluster.Status.Phase = ClusterPhaseRunning then
    handleRunningPhase senv prov cluster w
  else if cluster.Status.Phase = ClusterPhaseFailed then
    handleFailedPhase w
  else (w, .ok {})

/-- The part of `Reconcile` after the phase has been initialised: add the
finalizer if it is not present, then go on. -/
def ensureFinalizer (senv : StoreEnv) (prov : Provider σ) (cluster : Cluster) (w : World σ) :
    World σ × Outcome CtrlResult :=
  if !containsString cluster.ObjectMeta.Finalizers clusterFinalizer then
    let cluster := { cluster with ObjectMeta := { cluster.ObjectMeta with
      Finalizers := cluster.ObjectMeta.Finalizers ++ [clusterFinalizer] } }
    match w.Update senv cluster with
    | (w1, .error e) => (w1, .err e)
    | (w1, .ok cluster) => dispatch senv prov cluster w1
  else dispatch senv prov cluster w

/-- The part of `Reconcile` after the object has been read: initialise the phase
if it is not set, then go on. -/
def initPhase (senv : StoreEnv) (prov : Provider σ) (cluster : Cluster) (w : World σ) :
    World σ × Outcome CtrlResult :=
  if cluster.Status.Phase = "" then
    let cluster := { cluster with Status := { cluster.Status with Phase := ClusterPhasePending } }
    match w.StatusUpdate senv cluster with
    | (w1, .error e) => (w1, .err e)
    | (w1, .ok cluster) => ensureFinalizer senv prov cluster w1
  else ensureFinalizer senv prov cluster w

def Reconcile (senv : StoreEnv) (prov : Provider σ) (req : NamespacedName) (w : World σ) :
    World σ × Outcome CtrlResult :=
  match w.Get senv req with
  | (w1, .error e) => if IsNotFound e then (w1, .ok {}) else (w1, .err e)
  | (w1, .ok cluster) => initPhase senv prov cluster w1

end Reconciler

/-! ## Reference definitions and concrete inputs -/

/-- The containers of the runtime labelled `cluster=<name>`. -/
def clusterContainers (cluster : Cluster) (rt : Runtime) : List Container :=
  rt.containers.filter (fun c => hasLabel c.Labels "cluster" cluster.ObjectMeta.Name)

/-- The networks of the runtime named `cluster-<name>-net`. -/
def clusterNetworks (cluster : Cluster) (rt : Runtime) : List Network :=
  rt.networks.filter (fun n => n.Name == getClusterNetworkName cluster)

/-- Does a list of containers hold one labelled `cluster=<name>`. -/
def HasCluster (name : String) (cs : List Container) : Prop :=
  ∃ c ∈ cs, hasLabel c.Labels "cluster" name = true

/-- Decimal digits at the head of a string, read as a number. -/
def leadingDigits (s : String) : Option Int :=
  let ds := s.data.takeWhile Char.isDigit
  if ds = [] then none else some (ds.foldl (fun a c => a * 10 + ((c.toNat - 48 : Nat) : Int)) 0)

/-- An environment in which no call to the daemon fails. -/
def quietEnv : Env :=
  { dockerFault := fun _ _ => none
    newID := fun n => "5f2d8c1a9b3e" ++ toString n
    nameMatch := fun pat name => pat == name || "/" ++ pat == name
    ParseCIDR := fun s =>
      if s = "10.10.0.0/16" then some { IP := [10, 10, 0, 0], Mask := [255, 255, 0, 0] }
      else none
    ToUpper := fun s => String.mk (s.data.map Char.toUpper)
    SscanInt := leadingDigits }

/-- The provider `main.go` builds. -/
def mainProvider : DockerProvider :=
  { config :=
      { ObjectMeta := { Name := "", Namespace := "", Finalizers := [], DeletionTimestamp := none }
        Spec :=
          { Network := { CIDR := "10.10.0.0/16", SubnetMask := 24, ExposedPorts := [6443],
                         EnableIPv6 := false, DNSNameserver := "8.8.8.8" }
            ResourceLimits :=
              { CPU := { Default := "", Min := "", Max := "" }
                Memory := { Default := "", Min := "", Max := "" }
                Storage := { Default := "", Min := "", Max := "" } } } } }

/-- The cluster of the provider tests: one control-plane node, two workers. -/
def testCluster : Cluster :=
  { ObjectMeta := { Name := "test-docker-cluster", Namespace := "default", Finalizers := [],
                    DeletionTimestamp := none }
    Spec :=
      { KubernetesVersion := "v1.27.3"
        ControlPlane := { Count := 1, MachineConfig := { Memory := "2Gi", CPUCount := 2 } }
        Workers := { Count := 2, MachineConfig := { Memory := "4Gi", CPUCount := 2 } } }
    Status := ClusterStatus.zero }

/-- A daemon that holds nothing. -/
def emptyRuntime : Runtime :=
  { containers := [], networks := [], clock := 0, created := 0, calls := [] }

/-- An environment in which the daemon refuses to create the container of the
second worker of the test cluster; every other call succeeds. -/
def workerFailsEnv : Env :=
  { quietEnv with
    dockerFault := fun _ c =>
      if c = .ContainerCreate "cluster-test-docker-cluster-worker-1" then
        some (.new "no space left on device")
      else none }

/-- The number of containers in state `running` that carry the label `role=<role>`. -/
def runningWithRole (role : String) (containers : List Container) : Nat :=
  containers.countP (fun c => c.State == "running" && hasLabel c.Labels "role" role)

/-- The classification of §4.2 of the specification, in its words: no container
gives `NotFound`; a container that is not running gives `Starting`; running counts
equal to the counts of the spec give `Running`; anything else gives `Pending`. -/
def classify (containers : List Container) (spec : ClusterSpec) : ClusterStatus :=
  { Phase :=
      if containers = [] then "NotFound"
      else if containers.any (fun c => c.State != "running") then "Starting"
      else if (runningWithRole "control-plane" containers : Int) = spec.ControlPlane.Count
          ∧ (runningWithRole "worker" containers : Int) = spec.Workers.Count then "Running"
      else "Pending"
    Message := ""
    Conditions := []
    ControlPlaneReady :=
      decide ((runningWithRole "control-plane" containers : Int) = spec.ControlPlane.Count)
    WorkersReady := runningWithRole "worker" containers }

/-- The struct `MockProvider`: each method is an optional function. -/
structure MockProvider where
  CreateClusterFunc : Option (Cluster → Outcome Unit) := none
  DeleteClusterFunc : Option (Cluster → Outcome Unit) := none
  GetClusterStatusFunc : Option (Cluster → Outcome ClusterStatus) := none
  UpdateClusterFunc : Option (Cluster → Outcome Unit) := none

def MockProvider.CreateCluster (m : MockProvider) (cluster : Cluster) : Outcome Unit :=
  match m.CreateClusterFunc with
  | some f => f cluster
  | none => .ok ()

def MockProvider.DeleteCluster (m : MockProvider) (cluster : Cluster) : Outcome Unit :=
  match m.DeleteClusterFunc with
  | some f => f cluster
  | none => .ok ()

def MockProvider.GetClusterStatus (m : MockProvider) (cluster : Cluster) :
    Outcome ClusterStatus :=
  match m.GetClusterStatusFunc with
  | some f => f cluster
  | none => .ok { ClusterStatus.zero with
      Phase := ClusterPhaseRunning, ControlPlaneReady := true,
      WorkersReady := cluster.Spec.Workers.Count }

def MockProvider.UpdateCluster (m : MockProvider) (cluster : Cluster) : Outcome Unit :=
  match m.UpdateClusterFunc with
  | some f => f cluster
  | none => .ok ()

/-- The mock as a `Provider`; it has no state. -/
def mockProvider (m : MockProvider) : Provider Unit :=
  { CreateCluster := fun c s => (s, m.CreateCluster c)
    DeleteCluster := fun c s => (s, m.DeleteCluster c)
    GetClusterStatus := fun c s => (s, m.GetClusterStatus c)
    UpdateCluster := fun c s => (s, m.UpdateCluster c) }

/-- The events an invocation has added to the log. -/
def newEvents {σ : Type} (before after : World σ) : List Event :=
  after.trace.drop before.trace.length

/-- The cluster `Reconcile` holds once it has made sure the finalizer is present. -/
def withFinalizer (c : Cluster) : Cluster :=
  if containsString c.ObjectMeta.Finalizers clusterFinalizer then c
  else { c with ObjectMeta := { c.ObjectMeta with
    Finalizers := c.ObjectMeta.Finalizers ++ [clusterFinalizer] } }

/-- Is the event an invocation of the provider's `CreateCluster`. -/
def Event.isCreateCluster : Event → Bool
  | .CreateCluster _ => true
  | _ => false

/-- The status `handleProvisioningPhase` writes after a failed creation. -/
def failedStatus (st : ClusterStatus) (e : GoError) : ClusterStatus :=
  { st with Phase := ClusterPhaseFailed, Message := "Failed to create cluster: " ++ e.Error }

/-- A status with its phase replaced. -/
def withPhase (st : ClusterStatus) (phase : String) : ClusterStatus :=
  { st with Phase := phase }

/-- An object store in which no call fails. -/
def quietStore : StoreEnv := { storeFault := fun _ _ => none }

/-- The key of the test cluster. -/
def testKey : NamespacedName := { Namespace := "default", Name := "test-docker-cluster" }

/-- The world in which the store holds the one object `c` and the provider is in
state `s`. -/
def worldOf {σ : Type} (c : Cluster) (s : σ) : World σ :=
  { store := { objects := [c], clock := 0 }, provider := s, trace := [] }

/-- The test cluster with a metadata and a status of its own. -/
def testClusterWith (finalizers : List String) (deletion : Option Nat) (phase : String) :
    Cluster :=
  { ObjectMeta := { Name := "test-docker-cluster", Namespace := "default",
                    Finalizers := finalizers, DeletionTimestamp := deletion }
    Spec := testCluster.Spec
    Status := { ClusterStatus.zero with Phase := phase } }

/-- The test cluster persisted in phase Running, under deletion, with the token
and the finalizer of another controller. -/
def deletingCluster : Cluster :=
  testClusterWith [clusterFinalizer, "example.com/other"] (some 1) "Running"

/-- The store of the world holds, under the key, an object with the finalizer. -/
def KeepsToken {σ : Type} (req : NamespacedName) (w : World σ) : Prop :=
  ∃ c, w.store.find req = some c ∧
    containsString c.ObjectMeta.Finalizers clusterFinalizer = true

/-- The cluster `handleDeletion` writes back: the finalizer taken out. -/
def withoutFinalizer (c : Cluster) : Cluster :=
  { c with ObjectMeta := { c.ObjectMeta with
    Finalizers := removeString c.ObjectMeta.Finalizers clusterFinalizer } }

/-- The six phases `cluster_phases.go` and the validation marker of
`ClusterStatus.Phase` enumerate. -/
def enumeratedPhases : List String :=
  [ClusterPhasePending, ClusterPhaseProvisioning, ClusterPhaseRunning, ClusterPhaseUpdating,
    ClusterPhaseFailed, ClusterPhaseDeleting]

/-- The daemon after the test cluster has been created on an empty daemon. -/
def createdRuntime : Runtime :=
  (CreateCluster quietEnv mainProvider testCluster emptyRuntime).1

/-- The daemon `createdRuntime` after the container of the second worker has
been removed out of band. -/
def degradedRuntime : Runtime :=
  { createdRuntime with
    containers := createdRuntime.containers.filter
      (fun c => c.Names != ["/cluster-test-docker-cluster-worker-1"]) }

/-- The daemon `createdRuntime` after the second worker has exited. -/
def stoppedRuntime : Runtime :=
  { createdRuntime with
    containers := createdRuntime.containers.map
      (fun c => if c.Names = ["/cluster-test-docker-cluster-worker-1"]
        then { c with State := "exited" } else c) }

/-- An environment in which the daemon cannot be reached: every call fails. -/
def deadEnv : Env :=
  { quietEnv with dockerFault := fun _ _ => some (.new "cannot connect to the Docker daemon") }

/-- A mock whose `CreateCluster` fails. -/
def createFailsMock : MockProvider :=
  { CreateClusterFunc := some (fun _ => .err (.new "image not found")) }

/-- A mock whose `DeleteCluster` fails. -/
def deleteFailsMock : MockProvider :=
  { DeleteClusterFunc := some (fun _ => .err (.new "container is busy")) }

/-- A mock whose `GetClusterStatus` fails. -/
def statusFailsMock : MockProvider :=
  { GetClusterStatusFunc := some (fun _ => .err (.new "cannot connect to the Docker daemon")) }

/-- A cluster persisted in phase Running whose status record is out of date. -/
def staleCluster : Cluster :=
  { ObjectMeta := { Name := "test-docker-cluster", Namespace := "default",
                    Finalizers := [clusterFinalizer], DeletionTimestamp := none }
    Spec := testCluster.Spec
    Status := { Phase := ClusterPhaseRunning, Message := "stale",
                Conditions := [{ CondType := "Ready", Status := "False", Reason := "Old",
                                 Message := "old" }],
                ControlPlaneReady := false, WorkersReady := 7 } }

/-- The networks of the runtime that carry the label `cluster=<name>`. -/
def labelledNetworks (cluster : Cluster) (rt : Runtime) : List Network :=
  rt.networks.filter (fun n => hasLabel n.Labels "cluster" cluster.ObjectMeta.Name)

/-- The test cluster with other counts, another version and other machines. -/
def resizedCluster (controlPlanes workers : Int) : Cluster :=
  { testCluster with
    Spec :=
      { KubernetesVersion := "v1.28.0"
        ControlPlane :=
          { Count := controlPlanes, MachineConfig := { Memory := "8Gi", CPUCount := 4 } }
        Workers := { Count := workers, MachineConfig := { Memory := "1Gi", CPUCount := 1 } } } }

/-- The multiplier the specification gives for the unit letter of a suffix:
`K` for 1024, `M` for 1024², `G` for 1024³. -/
def unitMultiplier (letter : Char) : Int :=
  if letter = 'K' then 1024
  else if letter = 'M' then 1024 * 1024
  else if letter = 'G' then 1024 * 1024 * 1024
  else 0

/-- Has the container the name `nm`; the daemon reports the names of containers
with a leading slash. -/
def Container.isNamed (x : Container) (nm : String) : Bool := x.Names.contains ("/" ++ nm)

/-- The indices `i, i-1, ...`, `n` of them. -/
def descFrom : Int → Nat → List Int
  | _, 0 => []
  | i, n + 1 => i :: descFrom (i - 1) n

/-- The indices `c-1, c-2, ..., d` of a scale-down from `c` workers to `d`. -/
def descending (c d : Nat) : List Int := descFrom ((c : Int) - 1) (c - d)

/-- The calls of a scale-down for index `i`, in the words of the specification:
the worker named for the index is looked up; if it is there it is stopped and then
removed, if it is absent the index is skipped. -/
def removalCalls (cluster : Cluster) (containers : List Container) (i : Int) :
    List DockerCall :=
  .ContainerList true (.name (getNodeName cluster "worker" i)) ::
    match containers.find? (fun x => x.isNamed (getNodeName cluster "worker" i)) with
    | none => []
    | some x => [.ContainerStop x.ID, .ContainerRemove x.ID]

/-- Invariants of the containers of a daemon: identifiers are unique, names are
unique, and a container has one name, reported with a leading slash. -/
@[reducible]
def WellFormed (containers : List Container) : Prop :=
  (containers.map (fun x => x.ID)).Nodup ∧ (containers.map (fun x => x.Names)).Nodup
    ∧ ∀ x ∈ containers, x.Names.map (fun s => s.data.head?) = [some '/']

/-- The daemon after `CreateCluster` of the test cluster with three workers. -/
def threeWorkersRuntime : Runtime :=
  (CreateCluster quietEnv mainProvider (resizedCluster 1 3) emptyRuntime).1

/-- Does the list hold the pattern as a contiguous part. -/
def containsPart (pat : List Char) : List Char → Bool
  | [] => pat.isPrefixOf []
  | c :: cs => pat.isPrefixOf (c :: cs) || containsPart pat cs

/-- An environment with the name filter of the Docker daemon, which reports every
resource whose name contains the pattern; no call fails. -/
def partialMatchEnv : Env :=
  { quietEnv with nameMatch := fun pat name => containsPart pat.data name.data }

/-- A second cluster, whose name ends in `cluster-` and the name of the test
cluster. -/
def shadowCluster : Cluster :=
  { ObjectMeta := { Name := "staging-cluster-test-docker-cluster", Namespace := "default",
                    Finalizers := [], DeletionTimestamp := none }
    Spec := testCluster.Spec
    Status := ClusterStatus.zero }

/-- A daemon that holds the shadow cluster and the test cluster, after the first
worker of the test cluster has been removed out of band. -/
def sharedRuntime : Runtime :=
  let rt := (CreateCluster partialMatchEnv mainProvider testCluster
    (CreateCluster partialMatchEnv mainProvider shadowCluster emptyRuntime).1).1
  { rt with
    containers := rt.containers.filter
      (fun c => c.Names != ["/cluster-test-docker-cluster-worker-0"]) }

/-- A cluster persisted in phase Failed, with the message of a failed creation. -/
def failedCluster : Cluster :=
  { ObjectMeta := { Name := "test-docker-cluster", Namespace := "default",
                    Finalizers := [clusterFinalizer], DeletionTimestamp := none }
    Spec := testCluster.Spec
    Status := { ClusterStatus.zero with
                Phase := ClusterPhaseFailed
                Message := "Failed to create cluster: image not found" } }

/-- The conditions the specification puts on a cluster spec. -/
@[reducible]
def validSpec (spec : ClusterSpec) : Prop :=
  spec.KubernetesVersion ≠ "" ∧ 1 ≤ spec.ControlPlane.Count ∧ 0 ≤ spec.Workers.Count

/-- An environment in which `net.ParseCIDR` also parses the IPv6 CIDR `fd00::/64`,
to its 16-byte address and mask; no call fails. -/
def ipv6Env : Env :=
  { quietEnv with
    ParseCIDR := fun s =>
      if s = "fd00::/64" then
        some { IP := [253, 0, 0, 0, 0, 0, 0, 0, 0, 0, 0, 0, 0, 0, 0, 0]
               Mask := [255, 255, 255, 255, 255, 255, 255, 255, 0, 0, 0, 0, 0, 0, 0, 0] }
      else quietEnv.ParseCIDR s }

/-- A provider configured with an IPv6 CIDR. -/
def ipv6Provider : DockerProvider :=
  { config :=
      { ObjectMeta := mainProvider.config.ObjectMeta
        Spec :=
          { Network := { CIDR := "fd00::/64", SubnetMask := 24, ExposedPorts := [6443],
                         EnableIPv6 := true, DNSNameserver := "8.8.8.8" }
            ResourceLimits := mainProvider.config.Spec.ResourceLimits } } }

/-- A daemon that lists, for the test cluster, a container whose identifier has
eight characters. -/
def shortIDRuntime : Runtime :=
  { containers :=
      [{ ID := "5f2d8c1a", Names := ["/cluster-test-docker-cluster-worker-0"],
         Image := "kindest/node:v1.27.3", Hostname := "cluster-test-docker-cluster-worker-0",
         Labels := [("cluster", "test-docker-cluster"), ("role", "worker")],
         State := "running", Privileged := true, Memory := 4294967296,
         NanoCPUs := 2000000000, NetworkName := "cluster-test-docker-cluster-net",
         NetworkID := "5f2d8c1a9b3e0" }]
    networks := [], clock := 0, created := 1, calls := [] }

/-- The test cluster under another name. -/
def namedCluster (name : String) : Cluster :=
  { ObjectMeta := { Name := name, Namespace := "default", Finalizers := [],
                    DeletionTimestamp := none }
    Spec := testCluster.Spec
    Status := ClusterStatus.zero }

/-- The IPv4 address `a.b.c.d` as a number. -/
def ipv4Number (a b c d : Nat) : Nat := ((a * 256 + b) * 256 + c) * 256 + d

/-- The four bytes of a 32-bit address, most significant first. -/
def ipv4Bytes (x : Nat) : List Nat :=
  [x / 16777216 % 256, x / 65536 % 256, x / 256 % 256, x % 256]

/-- The network address of the subnet `a.b.c.d/n`: the address with its `32 - n`
host bits cleared. -/
def networkAddress (a b c d n : Nat) : Nat :=
  ipv4Number a b c d / 2 ^ (32 - n) * 2 ^ (32 - n)

/-- Does an address lie in the subnet `a.b.c.d/n`. -/
@[reducible]
def inCIDR (x a b c d n : Nat) : Prop :=
  networkAddress a b c d n ≤ x ∧ x < networkAddress a b c d n + 2 ^ (32 - n)

/-- What `net.ParseCIDR` returns for the text of the IPv4 CIDR `a.b.c.d/n`: the
network address and the mask, both as four bytes. -/
def ipv4Net (a b c d n : Nat) : IPNet :=
  { IP := ipv4Bytes (networkAddress a b c d n)
    Mask := ipv4Bytes (4294967296 - 2 ^ (32 - n)) }

/-- An environment in which `net.ParseCIDR` parses a few IPv4 CIDRs; no call
fails. -/
def cidrEnv : Env :=
  { quietEnv with
    ParseCIDR := fun s =>
      if s = "10.10.0.0/24" then some (ipv4Net 10 10 0 0 24)
      else if s = "172.20.0.0/16" then some (ipv4Net 172 20 0 0 16)
      else if s = "192.168.1.77/26" then some (ipv4Net 192 168 1 77 26)
      else if s = "10.10.0.4/32" then some (ipv4Net 10 10 0 4 32)
      else if s = "10.10.0.255/32" then some (ipv4Net 10 10 0 255 32)
      else none }

/-- An object store that refuses every update of an object (not of its status);
reads and status updates succeed. -/
def updateRefusedStore : StoreEnv :=
  { storeFault := fun _ call =>
      match call with
      | .Update _ => some (.new "the object has been modified")
      | _ => none }

/-- The world after `n` successive invocations of `Reconcile` for the same request. -/
def reconciled {σ : Type} (senv : StoreEnv) (prov : Provider σ) (req : NamespacedName) :
    Nat → World σ → World σ
  | 0, w => w
  | n + 1, w => (Reconcile senv prov req (reconciled senv prov req n w)).1

/-- The network config a config in memory stands for. -/
def NetworkConfigMem.value (h : Heap) (n : NetworkConfigMem) : NetworkConfig :=
  { CIDR := n.CIDR, SubnetMask := n.SubnetMask, ExposedPorts := h.read n.ExposedPorts,
    EnableIPv6 := n.EnableIPv6, DNSNameserver := n.DNSNameserver }

/-- The config a config in memory stands for. -/
def DockerProviderConfigMem.value (h : Heap) (c : DockerProviderConfigMem) :
    DockerProviderConfig :=
  { ObjectMeta := c.ObjectMeta
    Spec := { Network := c.Spec.Network.value h, ResourceLimits := c.Spec.ResourceLimits } }

/-- The slice of the config refers to an array of the heap. -/
@[reducible]
def DockerProviderConfigMem.Valid (h : Heap) (c : DockerProviderConfigMem) : Prop :=
  ∀ a, c.Spec.Network.ExposedPorts = some a → a < h.arrays.length

/-- The merge of two configs in the words of the specification: each of the CIDR,
the subnet mask, the name server, the port list and the three resource limits is
the one of `other` when that is set, and the one of `d` otherwise; the metadata
and the IPv6 flag are those of `d`. -/
def mergedConfig (d other : DockerProviderConfig) : DockerProviderConfig :=
  { ObjectMeta := d.ObjectMeta
    Spec :=
      { Network :=
          { CIDR := if other.Spec.Network.CIDR ≠ "" then other.Spec.Network.CIDR
              else d.Spec.Network.CIDR
            SubnetMask := if other.Spec.Network.SubnetMask ≠ 0 then other.Spec.Network.SubnetMask
              else d.Spec.Network.SubnetMask
            ExposedPorts := if other.Spec.Network.ExposedPorts ≠ []
              then other.Spec.Network.ExposedPorts else d.Spec.Network.ExposedPorts
            EnableIPv6 := d.Spec.Network.EnableIPv6
            DNSNameserver := if other.Spec.Network.DNSNameserver ≠ ""
              then other.Spec.Network.DNSNameserver else d.Spec.Network.DNSNameserver }
        ResourceLimits :=
          { CPU := if other.Spec.ResourceLimits.CPU.Default ≠ ""
              then other.Spec.ResourceLimits.CPU else d.Spec.ResourceLimits.CPU
            Memory := if other.Spec.ResourceLimits.Memory.Default ≠ ""
              then other.Spec.ResourceLimits.Memory else d.Spec.ResourceLimits.Memory
            Storage := if other.Spec.ResourceLimits.Storage.Default ≠ ""
              then other.Spec.ResourceLimits.Storage else d.Spec.ResourceLimits.Storage } } }

/-- The heap of the merge test: the array behind the ports of `testConfigMem`. -/
def testHeap : Heap := { arrays := [[80, 443, 6443]] }

/-- The config `defaultConfig` of the merge test; its port slice is nil. -/
def defaultConfigMem : DockerProviderConfigMem :=
  { ObjectMeta := { Name := "", Namespace := "", Finalizers := [], DeletionTimestamp := none }
    Spec :=
      { Network :=
          { CIDR := "10.0.0.0/16", SubnetMask := 24, ExposedPorts := none,
            EnableIPv6 := false, DNSNameserver := "8.8.8.8" }
        ResourceLimits :=
          { CPU := { Default := "1", Min := "0.5", Max := "2" }
            Memory := { Default := "", Min := "", Max := "" }
            Storage := { Default := "", Min := "", Max := "" } } } }

/-- The config `config` of the merge test, named `test-docker-config`. -/
def testConfigMem : DockerProviderConfigMem :=
  { ObjectMeta :=
      { Name := "test-docker-config", Namespace := "default", Finalizers := [],
        DeletionTimestamp := none }
    Spec :=
      { Network :=
          { CIDR := "172.20.0.0/16", SubnetMask := 24, ExposedPorts := some 0,
            EnableIPv6 := false, DNSNameserver := "8.8.8.8" }
        ResourceLimits :=
          { CPU := { Default := "2", Min := "1", Max := "4" }
            Memory := { Default := "2Gi", Min := "1Gi", Max := "8Gi" }
            Storage := { Default := "20Gi", Min := "10Gi", Max := "100Gi" } } } }

/-- The daemon after `CreateCluster` of the test cluster with eleven workers,
under the name filter of the Docker daemon, and after the worker of index 1 has
been removed out of band: the workers left are those of index 0 and 2 to 10. -/
def gapRuntime : Runtime :=
  let rt := (CreateCluster partialMatchEnv mainProvider (resizedCluster 1 11) emptyRuntime).1
  { rt with
    containers := rt.containers.filter
      (fun c => c.Names != ["/cluster-test-docker-cluster-worker-1"]) }

/-! # Theorems -/

/-! ## Existence of a cluster in the runtime -/

theorem HasCluster_append_left {name : String} {cs : List Container} (extra : List Container)
    (h : HasCluster name cs) : HasCluster name (cs ++ extra) := by
  obtain ⟨c, hc, hl⟩ := h
  exact ⟨c, List.mem_append_left _ hc, hl⟩

theorem HasCluster_setState {name : String} {cs : List Container} (id state : String)
    (h : HasCluster name cs) : HasCluster name (setState id state cs) := by
  obtain ⟨c, hc, hl⟩ := h
  refine ⟨if c.ID == id then { c with State := state } else c, ?_, ?_⟩
  · exact List.mem_map.mpr ⟨c, hc, rfl⟩
  · split <;> simpa using hl

theorem HasCluster_iff_clusterContainers (cluster : Cluster) (rt : Runtime) :
    HasCluster cluster.ObjectMeta.Name rt.containers ↔ clusterContainers cluster rt ≠ [] := by
  unfold HasCluster clusterContainers
  constructor
  · rintro ⟨c, hc, hl⟩ hnil
    have : c ∈ rt.containers.filter
        (fun c => hasLabel c.Labels "cluster" cluster.ObjectMeta.Name) :=
      List.mem_filter.mpr ⟨hc, hl⟩
    rw [hnil] at this
    exact List.not_mem_nil _ this
  · intro hne
    obtain ⟨c, hc⟩ := List.exists_mem_of_ne_nil _ hne
    exact ⟨c, (List.mem_filter.mp hc).1, (List.mem_filter.mp hc).2⟩

/-- A node that was created successfully is in the runtime, labelled with its cluster. -/
theorem createNode_ok_hasCluster (env : Env) (cluster : Cluster)
    (nodeName role networkID : String) (mc : MachineConfig) (rt : Runtime)
    (h : (createNode env cluster nodeName role networkID mc rt).2 = .ok ()) :
    HasCluster cluster.ObjectMeta.Name
      (createNode env cluster nodeName role networkID mc rt).1.containers := by
  revert h
  cases h1 : env.dockerFault rt.clock
      (.ImagePull ("kindest/node:" ++ cluster.Spec.KubernetesVersion)) with
  | some e => simp [createNode, ImagePull, h1]
  | none =>
    cases h2 : env.dockerFault (rt.clock + 1) (.ContainerCreate nodeName) with
    | some e => simp [createNode, ImagePull, h1, ContainerCreate, Runtime.serve, h2]
    | none =>
      cases h3 : env.dockerFault (rt.clock + 1 + 1) (.ContainerStart (env.newID rt.created)) with
      | some e =>
        simp [createNode, ImagePull, h1, ContainerCreate, Runtime.serve, h2, ContainerStart, h3]
      | none =>
        simp only [createNode, ImagePull, h1, ContainerCreate, Runtime.serve, h2,
          ContainerStart, h3]
        intro _
        apply HasCluster_setState
        refine ⟨_, List.mem_append_right _ (List.mem_singleton.mpr rfl), ?_⟩
        simp [hasLabel, List.lookup]

theorem createNodes_ok_hasCluster (env : Env) (cluster : Cluster) (role what networkID : String)
    (mc : MachineConfig) (n : Nat) (i : Int) (rt : Runtime)
    (hok : (createNodes env cluster role what networkID mc n i rt).2 = .ok ())
    (h : 0 < n ∨ HasCluster cluster.ObjectMeta.Name rt.containers) :
    HasCluster cluster.ObjectMeta.Name
      (createNodes env cluster role what networkID mc n i rt).1.containers := by
  induction n generalizing i rt with
  | zero =>
    rcases h with h | h
    · exact absurd h (Nat.lt_irrefl 0)
    · simpa [createNodes] using h
  | succ n ih =>
    have hnode := createNode_ok_hasCluster env cluster (getNodeName cluster role i) role
      networkID mc rt
    rcases hc : createNode env cluster (getNodeName cluster role i) role networkID mc rt
      with ⟨rt1, o⟩
    rw [hc] at hnode
    cases o with
    | ok u =>
      simp only [createNodes, hc] at hok ⊢
      exact ih (i + 1) rt1 hok (Or.inr (hnode rfl))
    | err e =>
      simp only [createNodes, hc] at hok
      rcases hd : DeleteCluster env cluster rt1 with ⟨rt2, o2⟩
      rw [hd] at hok
      cases o2 <;> simp at hok
    | panic m => simp [createNodes, hc] at hok
    | diverge => simp [createNodes, hc] at hok

/-- After a successful `CreateCluster` with at least one control-plane node the
runtime holds a container labelled with the cluster. -/
theorem CreateCluster_ok_hasCluster (env : Env) (p : DockerProvider) (cluster : Cluster)
    (rt : Runtime) (hok : (CreateCluster env p cluster rt).2 = .ok ())
    (hcount : 1 ≤ cluster.Spec.ControlPlane.Count) :
    HasCluster cluster.ObjectMeta.Name (CreateCluster env p cluster rt).1.containers := by
  unfold CreateCluster at hok ⊢
  rcases he : clusterExists env cluster rt with ⟨rt1, r⟩
  rw [he] at hok
  rcases r with e | b
  · simp at hok
  cases b
  swap
  · simp at hok
  simp only at hok ⊢
  rcases hn : createNetwork env p cluster rt1 with ⟨rt2, o⟩
  rw [hn] at hok
  cases o with
  | err e => simp at hok
  | panic m => simp at hok
  | diverge => simp at hok
  | ok networkID =>
    simp only at hok ⊢
    have hcp := createNodes_ok_hasCluster env cluster "control-plane" "control plane node"
      networkID cluster.Spec.ControlPlane.MachineConfig cluster.Spec.ControlPlane.Count.toNat 0 rt2
    rcases hc : createNodes env cluster "control-plane" "control plane node" networkID
      cluster.Spec.ControlPlane.MachineConfig cluster.Spec.ControlPlane.Count.toNat 0 rt2
      with ⟨rt3, o3⟩
    rw [hc] at hok hcp
    cases o3 with
    | err e => simp at hok
    | panic m => simp at hok
    | diverge => simp at hok
    | ok u =>
      simp only at hok ⊢
      refine createNodes_ok_hasCluster env cluster "worker" "worker node" networkID _ _ 0 rt3 hok
        (Or.inr (hcp rfl (Or.inl ?_)))
      omega

/-- A successful listing by the cluster's label returns the cluster's containers. -/
theorem ContainerList_cluster (env : Env) (cluster : Cluster) (rt : Runtime)
    (hlist : env.dockerFault rt.clock (.ContainerList true (getClusterFilters cluster)) = none) :
    ContainerList env rt true (getClusterFilters cluster)
      = (rt.serve (.ContainerList true (getClusterFilters cluster)),
          .ok (clusterContainers cluster rt)) := by
  unfold ContainerList
  rw [hlist]
  simp [clusterContainers, Container.matchesFilter, getClusterFilters]

/-- When the runtime holds a container labelled with the cluster and the listing
succeeds, `CreateCluster` returns `ErrClusterExists` and the daemon has only
served one more call. -/
theorem CreateCluster_of_hasCluster (env : Env) (p : DockerProvider) (cluster : Cluster)
    (rt : Runtime)
    (hlist : env.dockerFault rt.clock (.ContainerList true (getClusterFilters cluster)) = none)
    (h : HasCluster cluster.ObjectMeta.Name rt.containers) :
    CreateCluster env p cluster rt
      = (rt.serve (.ContainerList true (getClusterFilters cluster)), .err ErrClusterExists) := by
  have hne := (HasCluster_iff_clusterContainers cluster rt).mp h
  have hpos : (clusterContainers cluster rt).length > 0 := List.length_pos.mpr hne
  simp only [CreateCluster, clusterExists, ContainerList_cluster env cluster rt hlist]
  simp [hpos]

/-- Claim C1. Idempotent create: over a runtime whose listing by label succeeds and
returns exactly the containers carrying the label, whenever a container labelled
`cluster=<name>` exists, in particular in the runtime a successful `CreateCluster`
of a cluster with `controlPlane.count >= 1` has just returned, `CreateCluster`
returns `ErrClusterExists` and mutates nothing: the containers, the networks and
the count of created resources are unchanged, only the count of served calls grows. -/
theorem CreateCluster_idempotent (env : Env) (p : DockerProvider) (cluster : Cluster)
    (rt : Runtime)
    (hlist : env.dockerFault rt.clock (.ContainerList true (getClusterFilters cluster)) = none)
    (h : clusterContainers cluster rt ≠ [] ∨
      ∃ rt0, CreateCluster env p cluster rt0 = (rt, .ok ()) ∧
        1 ≤ cluster.Spec.ControlPlane.Count) :
    (CreateCluster env p cluster rt).2 = .err ErrClusterExists ∧
    (CreateCluster env p cluster rt).1.containers = rt.containers ∧
    (CreateCluster env p cluster rt).1.networks = rt.networks ∧
    (CreateCluster env p cluster rt).1.created = rt.created ∧
    clusterContainers cluster rt ≠ [] := by
  have hex : HasCluster cluster.ObjectMeta.Name rt.containers := by
    rcases h with h | ⟨rt0, h0, hcount⟩
    · exact (HasCluster_iff_clusterContainers cluster rt).mpr h
    · have := CreateCluster_ok_hasCluster env p cluster rt0 (by rw [h0]) hcount
      rwa [h0] at this
  rw [CreateCluster_of_hasCluster env p cluster rt hlist hex]
  exact ⟨rfl, rfl, rfl, rfl, (HasCluster_iff_clusterContainers cluster rt).mp hex⟩

/-- Claim C1 at the cluster of the provider tests: the second `CreateCluster`. -/
theorem CreateCluster_idempotent_witness :
    (CreateCluster quietEnv mainProvider testCluster
        (CreateCluster quietEnv mainProvider testCluster emptyRuntime).1).2
      = .err ErrClusterExists ∧
    (CreateCluster quietEnv mainProvider testCluster
        (CreateCluster quietEnv mainProvider testCluster emptyRuntime).1).1.containers
      = (CreateCluster quietEnv mainProvider testCluster emptyRuntime).1.containers ∧
    (CreateCluster quietEnv mainProvider testCluster
        (CreateCluster quietEnv mainProvider testCluster emptyRuntime).1).1.networks
      = (CreateCluster quietEnv mainProvider testCluster emptyRuntime).1.networks ∧
    (CreateCluster quietEnv mainProvider testCluster
        (CreateCluster quietEnv mainProvider testCluster emptyRuntime).1).1.created
      = (CreateCluster quietEnv mainProvider testCluster emptyRuntime).1.created ∧
    clusterContainers testCluster
      (CreateCluster quietEnv mainProvider testCluster emptyRuntime).1 ≠ [] :=
  CreateCluster_idempotent quietEnv mainProvider testCluster
    (CreateCluster quietEnv mainProvider testCluster emptyRuntime).1 rfl
    (Or.inr ⟨emptyRuntime, Prod.ext rfl (by decide), by decide⟩)

/-! ## Rollback of a failed creation -/

/-- Claim C2 at a failing input. The test cluster is created on an empty daemon and
the container of its last node cannot be created. `CreateCluster` returns the
wrapped error and has removed the containers of the nodes created before, but the
network `cluster-test-docker-cluster-net` is still there: it was created without
labels, and `DeleteCluster` lists the networks to remove by label. -/
theorem CreateCluster_rollback_keeps_network :
    (CreateCluster workerFailsEnv mainProvider testCluster emptyRuntime).2
      = .err (.wrapf "failed to create worker node cluster-test-docker-cluster-worker-1"
          (.wrapf "failed to create container" (.new "no space left on device"))) ∧
    clusterContainers testCluster
      (CreateCluster workerFailsEnv mainProvider testCluster emptyRuntime).1 = [] ∧
    (clusterNetworks testCluster
      (CreateCluster workerFailsEnv mainProvider testCluster emptyRuntime).1).map
        (fun n => (n.Name, n.Labels)) = [("cluster-test-docker-cluster-net", [])] := by
  decide

/-! ## Status classification -/

theorem labelOf_eq_iff (labels : List (String × String)) (key value : String)
    (hv : value ≠ "") :
    labelOf labels key = value ↔ hasLabel labels key value = true := by
  unfold labelOf hasLabel
  cases h : labels.lookup key with
  | none => simp; exact fun h => hv h.symm
  | some v => simp

theorem wrapInt32_succ (x : Int) (h0 : 0 ≤ x) (h1 : x + 1 < 2147483648) :
    wrapInt32 (x + 1) = x + 1 := by
  unfold wrapInt32; omega

/-- The loop of `GetClusterStatus` counts the running containers of each role, as
long as the `int32` counters cannot overflow. -/
theorem foldl_tallyStep (cs : List Container) (t : Tally)
    (hcp : 0 ≤ t.controlPlaneCount) (hwk : 0 ≤ t.workerCount)
    (hcpb : t.controlPlaneCount + cs.length < 2147483648)
    (hwkb : t.workerCount + cs.length < 2147483648) :
    cs.foldl tallyStep t =
      { controlPlaneCount := t.controlPlaneCount + runningWithRole "control-plane" cs
        workerCount := t.workerCount + runningWithRole "worker" cs
        allRunning := t.allRunning && cs.all (fun c => c.State == "running") } := by
  induction cs generalizing t with
  | nil => simp [runningWithRole]
  | cons c cs ih =>
    simp only [List.foldl_cons, List.length_cons] at hcpb hwkb ⊢
    push_cast at hcpb hwkb
    by_cases hrun : c.State = "running"
    · by_cases hc : labelOf c.Labels "role" = "control-plane"
      · have hc' := (labelOf_eq_iff _ _ _ (by decide)).mp hc
        have hw' : hasLabel c.Labels "role" "worker" = false := by
          cases hh : hasLabel c.Labels "role" "worker" with
          | false => rfl
          | true =>
            have := (labelOf_eq_iff _ _ _ (by decide)).mpr hh
            rw [hc] at this; exact absurd this (by decide)
        have hstep : tallyStep t c =
            { t with controlPlaneCount := t.controlPlaneCount + 1 } := by
          simp [tallyStep, hrun, hc, wrapInt32_succ _ hcp (by omega)]
        rw [hstep, ih _ (by simp; omega) (by simpa using hwk) (by simp; omega) (by simp; omega)]
        simp [runningWithRole, List.countP_cons, hrun, hc', hw']
        omega
      · have hc' : hasLabel c.Labels "role" "control-plane" = false := by
          cases hh : hasLabel c.Labels "role" "control-plane" with
          | false => rfl
          | true => exact absurd ((labelOf_eq_iff _ _ _ (by decide)).mpr hh) hc
        by_cases hw : labelOf c.Labels "role" = "worker"
        · have hw' := (labelOf_eq_iff _ _ _ (by decide)).mp hw
          have hstep : tallyStep t c = { t with workerCount := t.workerCount + 1 } := by
            simp [tallyStep, hrun, hw, wrapInt32_succ _ hwk (by omega)]
          rw [hstep, ih _ (by simpa using hcp) (by simp; omega) (by simp; omega)
            (by simp; omega)]
          simp [runningWithRole, List.countP_cons, hrun, hc', hw']
          omega
        · have hw' : hasLabel c.Labels "role" "worker" = false := by
            cases hh : hasLabel c.Labels "role" "worker" with
            | false => rfl
            | true => exact absurd ((labelOf_eq_iff _ _ _ (by decide)).mpr hh) hw
          have hstep : tallyStep t c = t := by
            simp [tallyStep, hrun, hc, hw]
          rw [hstep, ih _ hcp hwk (by omega) (by omega)]
          simp [runningWithRole, List.countP_cons, hrun, hc', hw']
    · have hstep : tallyStep t c = { t with allRunning := false } := by
        simp [tallyStep, hrun]
      rw [hstep, ih _ (by simpa using hcp) (by simpa using hwk) (by simp; omega)
        (by simp; omega)]
      simp [runningWithRole, List.countP_cons, hrun]

theorem any_not_running (cs : List Container) :
    cs.any (fun c => c.State != "running") = !cs.all (fun c => c.State == "running") := by
  induction cs with
  | nil => rfl
  | cons c cs ih =>
    simp only [List.any_cons, List.all_cons, ih]
    cases hc : (c.State == "running") <;> simp [bne, hc]

/-- The status computed by the code is the reference classification. -/
theorem statusOf_eq_classify (containers : List Container) (spec : ClusterSpec)
    (hlen : containers.length < 2147483648) :
    statusOf containers spec = classify containers spec := by
  have hfold := foldl_tallyStep containers
    { controlPlaneCount := 0, workerCount := 0, allRunning := true }
    (le_refl _) (le_refl _) (by simpa using hlen) (by simpa using hlen)
  unfold statusOf classify
  rw [hfold, any_not_running]
  cases containers with
  | nil => simp [ClusterStatus.zero, runningWithRole]
  | cons c cs =>
    cases hall : (c :: cs).all (fun c => c.State == "running") <;>
      simp [ClusterStatus.zero]

/-- With the listing answered and the counters in range, `GetClusterStatus` returns
the reference classification and the daemon has only served one more call. -/
theorem GetClusterStatus_of_list (env : Env) (cluster : Cluster) (rt : Runtime)
    (hlist : env.dockerFault rt.clock (.ContainerList true (getClusterFilters cluster)) = none)
    (hlen : (clusterContainers cluster rt).length < 2147483648) :
    GetClusterStatus env cluster rt
      = (rt.serve (.ContainerList true (getClusterFilters cluster)),
          .ok (classify (clusterContainers cluster rt) cluster.Spec)) := by
  unfold GetClusterStatus
  rw [ContainerList_cluster env cluster rt hlist]
  simp only [statusOf_eq_classify _ _ hlen]

/-- Claim C3. When the listing succeeds, `GetClusterStatus` returns the reference
classification of the containers labelled with the cluster: the phase by the
precedence `NotFound`, `Starting`, `Running`, `Pending`, `controlPlaneReady` the
comparison of the running control-plane count with the spec, `workersReady` the
running worker count; the daemon has only served one more call. The number of
labelled containers is within the range of the `int32` counters of the code. -/
theorem GetClusterStatus_eq_classify (env : Env) (cluster : Cluster) (rt : Runtime)
    (hlist : env.dockerFault rt.clock (.ContainerList true (getClusterFilters cluster)) = none)
    (hlen : (clusterContainers cluster rt).length < 2147483648) :
    GetClusterStatus env cluster rt
      = (rt.serve (.ContainerList true (getClusterFilters cluster)),
          .ok (classify (clusterContainers cluster rt) cluster.Spec)) :=
  GetClusterStatus_of_list env cluster rt hlist hlen

/-- Claim C3 on the daemon in which the test cluster has just been created: one
running control-plane node and two running workers are classified `Running`. -/
theorem GetClusterStatus_eq_classify_witness :
    GetClusterStatus quietEnv testCluster
        (CreateCluster quietEnv mainProvider testCluster emptyRuntime).1
      = ((CreateCluster quietEnv mainProvider testCluster emptyRuntime).1.serve
            (.ContainerList true (getClusterFilters testCluster)),
          .ok (classify (clusterContainers testCluster
            (CreateCluster quietEnv mainProvider testCluster emptyRuntime).1)
            testCluster.Spec)) ∧
    classify (clusterContainers testCluster
        (CreateCluster quietEnv mainProvider testCluster emptyRuntime).1) testCluster.Spec
      = { Phase := "Running", Message := "", Conditions := [], ControlPlaneReady := true,
          WorkersReady := 2 } :=
  ⟨GetClusterStatus_eq_classify quietEnv testCluster
    (CreateCluster quietEnv mainProvider testCluster emptyRuntime).1 rfl (by decide),
   by decide⟩

/-! ## The object store -/

theorem find_map_replace (l : List Cluster) (key : NamespacedName) (c new : Cluster)
    (hfind : l.find? (fun o => o.key == key) = some c) (hkey : new.key = key) :
    (l.map (fun o => if o.key == new.key then new else o)).find? (fun o => o.key == key)
      = some new := by
  induction l with
  | nil => simp at hfind
  | cons o os ih =>
    simp only [List.map_cons, List.find?_cons] at hfind ⊢
    by_cases ho : o.key = key
    · simp [ho, hkey]
    · have ho2 : (o.key == key) = false := by simp [ho]
      rw [ho2] at hfind
      simp only [hkey, ho2, Bool.false_eq_true, ↓reduceIte]
      rw [hkey] at ih
      exact ih hfind

/-- After `put` the store holds the new object under its key. -/
theorem Store.find_put (s : Store) (key : NamespacedName) (c new : Cluster)
    (hfind : s.find key = some c) (hkey : new.key = key) :
    (s.put new).find key = some new :=
  find_map_replace s.objects key c new hfind hkey

theorem Store.find_key (s : Store) (key : NamespacedName) (c : Cluster)
    (hfind : s.find key = some c) : c.key = key := by
  unfold Store.find at hfind
  have := List.find?_some hfind
  simpa using this

theorem Store.find_tick (s : Store) (key : NamespacedName) :
    s.tick.find key = s.find key := rfl

theorem Store.Get_ok (senv : StoreEnv) (s : Store) (key : NamespacedName) (c : Cluster)
    (hf : senv.storeFault s.clock (.Get key) = none) (hfind : s.find key = some c) :
    s.Get senv key = (s.tick, .ok c) := by
  simp [Store.Get, hf, hfind]

theorem Store.Update_ok (senv : StoreEnv) (s : Store) (obj stored : Cluster)
    (hf : senv.storeFault s.clock (.Update obj.key) = none)
    (hfind : s.find obj.key = some stored) :
    s.Update senv obj = ((s.commit { obj with Status := stored.Status }).tick,
      .ok { obj with Status := stored.Status }) := by
  simp [Store.Update, hf, hfind]

/-- An object with a finalizer is kept. -/
theorem Store.commit_of_finalizers (s : Store) (new : Cluster)
    (h : new.ObjectMeta.Finalizers ≠ []) : s.commit new = s.put new := by
  simp [Store.commit, h]

/-- An object without a deletion marker is kept. -/
theorem Store.commit_of_not_deleting (s : Store) (new : Cluster)
    (h : IsZero new.ObjectMeta.DeletionTimestamp = true) : s.commit new = s.put new := by
  simp [Store.commit, h]

/-- An object with a deletion marker and no finalizer is purged. -/
theorem Store.commit_purge (s : Store) (new : Cluster)
    (hdel : IsZero new.ObjectMeta.DeletionTimestamp = false)
    (h : new.ObjectMeta.Finalizers = []) : s.commit new = s.remove new.key := by
  simp [Store.commit, h, hdel]

/-- After `remove` the store holds no object under the key. -/
theorem Store.find_remove (s : Store) (key : NamespacedName) :
    (s.remove key).find key = none := by
  simp only [Store.find, Store.remove, List.find?_eq_none, List.mem_filter]
  intro x hx
  simpa using hx.2

theorem Store.StatusUpdate_ok (senv : StoreEnv) (s : Store) (obj stored : Cluster)
    (hf : senv.storeFault s.clock (.StatusUpdate obj.key) = none)
    (hfind : s.find obj.key = some stored) :
    s.StatusUpdate senv obj = ((s.put { stored with Status := obj.Status }).tick,
      .ok { stored with Status := obj.Status }) := by
  simp [Store.StatusUpdate, hf, hfind]

theorem World.StatusUpdate_accepted {σ : Type} (senv : StoreEnv) (w : World σ)
    (obj stored : Cluster)
    (hf : senv.storeFault w.store.clock (.StatusUpdate obj.key) = none)
    (hfind : w.store.find obj.key = some stored) :
    w.StatusUpdate senv obj =
      ({ w with store := (w.store.put { stored with Status := obj.Status }).tick
                trace := w.trace ++ [.StatusUpdate obj] },
        .ok { stored with Status := obj.Status }) := by
  simp [World.StatusUpdate, Store.StatusUpdate_ok senv w.store obj stored hf hfind]

/-! ## The path of `Reconcile` to the dispatch -/

theorem Reconcile_found {σ : Type} (senv : StoreEnv) (prov : Provider σ)
    (req : NamespacedName) (w : World σ) (c : Cluster)
    (hf : senv.storeFault w.store.clock (.Get req) = none) (hfind : w.store.find req = some c) :
    Reconcile senv prov req w = initPhase senv prov c { w with store := w.store.tick } := by
  simp [Reconcile, World.Get, Store.Get_ok senv w.store req c hf hfind]

theorem initPhase_set {σ : Type} (senv : StoreEnv) (prov : Provider σ) (c : Cluster)
    (w : World σ) (hphase : c.Status.Phase ≠ "") :
    initPhase senv prov c w = ensureFinalizer senv prov c w := by
  simp [initPhase, hphase]

theorem ensureFinalizer_present {σ : Type} (senv : StoreEnv) (prov : Provider σ) (c : Cluster)
    (w : World σ) (htok : containsString c.ObjectMeta.Finalizers clusterFinalizer = true) :
    ensureFinalizer senv prov c w = dispatch senv prov c w := by
  simp [ensureFinalizer, htok]

theorem withFinalizer_key (c : Cluster) : (withFinalizer c).key = c.key := by
  unfold withFinalizer; split <;> rfl

theorem withFinalizer_status (c : Cluster) : (withFinalizer c).Status = c.Status := by
  unfold withFinalizer; split <;> rfl

/-- With the store accepting the write, `Reconcile` reaches the dispatch holding
the cluster with the finalizer, which is then the persisted object. -/
theorem ensureFinalizer_ok {σ : Type} (senv : StoreEnv) (prov : Provider σ) (c : Cluster)
    (w : World σ)
    (hf : senv.storeFault w.store.clock (.Update c.key) = none)
    (hfind : w.store.find c.key = some c) :
    ∃ w1 : World σ,
      ensureFinalizer senv prov c w = dispatch senv prov (withFinalizer c) w1 ∧
      w1.provider = w.provider ∧
      w1.store.find c.key = some (withFinalizer c) ∧
      w1.trace = w.trace ++
        (if containsString c.ObjectMeta.Finalizers clusterFinalizer then []
         else [.Update (withFinalizer c)]) := by
  by_cases htok : containsString c.ObjectMeta.Finalizers clusterFinalizer = true
  · have hwf : withFinalizer c = c := by simp [withFinalizer, htok]
    exact ⟨w, by simp [ensureFinalizer, htok, hwf], rfl, by rw [hwf]; exact hfind,
      by simp [htok]⟩
  · have htok' : containsString c.ObjectMeta.Finalizers clusterFinalizer = false := by
      simpa using htok
    have hwf : withFinalizer c = { c with ObjectMeta := { c.ObjectMeta with
        Finalizers := c.ObjectMeta.Finalizers ++ [clusterFinalizer] } } := by
      simp [withFinalizer, htok']
    have hk : (withFinalizer c).key = c.key := withFinalizer_key c
    have hu := Store.Update_ok senv w.store (withFinalizer c) c (by rw [hk]; exact hf)
      (by rw [hk]; exact hfind)
    have hst : ({ withFinalizer c with Status := c.Status } : Cluster) = withFinalizer c := by
      rw [hwf]
    rw [hst] at hu
    have hkeep : w.store.commit (withFinalizer c) = w.store.put (withFinalizer c) :=
      Store.commit_of_finalizers _ _ (by rw [hwf]; simp)
    rw [hkeep] at hu
    refine ⟨{ w with store := (w.store.put (withFinalizer c)).tick
                     trace := w.trace ++ [.Update (withFinalizer c)] }, ?_, rfl, ?_, ?_⟩
    · rw [hwf] at hu ⊢
      simp only [ensureFinalizer, htok', World.Update, hu]
      simp
    · exact Store.find_put _ _ c _ hfind hk
    · simp [htok']

/-! ## Phase Provisioning -/

theorem dispatch_provisioning {σ : Type} (senv : StoreEnv) (prov : Provider σ) (c : Cluster)
    (w : World σ) (hdel : IsZero c.ObjectMeta.DeletionTimestamp = true)
    (hphase : c.Status.Phase = ClusterPhaseProvisioning) :
    dispatch senv prov c w = handleProvisioningPhase senv prov c w := by
  simp [dispatch, hdel, hphase, show ClusterPhaseProvisioning ≠ ClusterPhasePending by decide]

theorem handleProvisioningPhase_ok {σ : Type} (senv : StoreEnv) (prov : Provider σ)
    (c stored : Cluster) (w : World σ) (ps : σ)
    (hf : senv.storeFault w.store.clock (.StatusUpdate c.key) = none)
    (hfind : w.store.find c.key = some stored)
    (hd : prov.CreateCluster c w.provider = (ps, .ok ())) :
    handleProvisioningPhase senv prov c w =
      ({ store := (w.store.put
            { stored with Status := withPhase c.Status ClusterPhaseRunning }).tick
         provider := ps
         trace := w.trace ++ [.CreateCluster c, .StatusUpdate
            { c with Status := withPhase c.Status ClusterPhaseRunning }] },
        .ok {}) := by
  have hu := World.StatusUpdate_accepted senv
    { w with provider := ps, trace := w.trace ++ [.CreateCluster c] }
    { c with Status := withPhase c.Status ClusterPhaseRunning } stored hf hfind
  simp only [withPhase] at hu ⊢
  simp only [handleProvisioningPhase, World.CreateCluster, hd, hu]
  simp

theorem handleProvisioningPhase_err {σ : Type} (senv : StoreEnv) (prov : Provider σ)
    (c stored : Cluster) (w : World σ) (ps : σ) (e : GoError)
    (hf : senv.storeFault w.store.clock (.StatusUpdate c.key) = none)
    (hfind : w.store.find c.key = some stored)
    (hd : prov.CreateCluster c w.provider = (ps, .err e)) :
    handleProvisioningPhase senv prov c w =
      ({ store := (w.store.put { stored with Status := failedStatus c.Status e }).tick
         provider := ps
         trace := w.trace ++ [.CreateCluster c, .StatusUpdate
            { c with Status := failedStatus c.Status e }] },
        .err e) := by
  have hu := World.StatusUpdate_accepted senv
    { w with provider := ps, trace := w.trace ++ [.CreateCluster c] }
    { c with Status := failedStatus c.Status e } stored hf hfind
  simp only [failedStatus] at hu ⊢
  simp only [handleProvisioningPhase, World.CreateCluster, hd, hu]
  simp

theorem handleProvisioningPhase_panic {σ : Type} (senv : StoreEnv) (prov : Provider σ)
    (c : Cluster) (w : World σ) (ps : σ) (m : String)
    (hd : prov.CreateCluster c w.provider = (ps, .panic m)) :
    handleProvisioningPhase senv prov c w =
      ({ w with provider := ps, trace := w.trace ++ [.CreateCluster c] }, .panic m) := by
  simp [handleProvisioningPhase, World.CreateCluster, hd]

theorem handleProvisioningPhase_diverge {σ : Type} (senv : StoreEnv) (prov : Provider σ)
    (c : Cluster) (w : World σ) (ps : σ)
    (hd : prov.CreateCluster c w.provider = (ps, .diverge)) :
    handleProvisioningPhase senv prov c w =
      ({ w with provider := ps, trace := w.trace ++ [.CreateCluster c] }, .diverge) := by
  simp [handleProvisioningPhase, World.CreateCluster, hd]

/-- Claim C8. For a cluster persisted in phase Provisioning without a deletion
marker, with the store answering every call, one `Reconcile` invokes the provider's
`CreateCluster` exactly once, on the cluster that carries the finalizer. If it
succeeds the persisted phase is Running and the result requests no re-invocation;
if it fails with `e` the persisted phase is Failed, the persisted message is
`"Failed to create cluster: "` followed by the text of `e`, and `Reconcile` returns `e`. -/
theorem Reconcile_provisioning {σ : Type} (senv : StoreEnv) (prov : Provider σ)
    (req : NamespacedName) (w : World σ) (c : Cluster)
    (hstore : ∀ n call, senv.storeFault n call = none)
    (hfind : w.store.find req = some c)
    (hphase : c.Status.Phase = ClusterPhaseProvisioning)
    (hdel : IsZero c.ObjectMeta.DeletionTimestamp = true) :
    (newEvents w (Reconcile senv prov req w).1).countP Event.isCreateCluster = 1 ∧
    ((prov.CreateCluster (withFinalizer c) w.provider).2 = .ok () →
      (Reconcile senv prov req w).2 = .ok { Requeue := false, RequeueAfter := 0 } ∧
      ((Reconcile senv prov req w).1.store.find req).map (fun o => o.Status.Phase)
        = some ClusterPhaseRunning) ∧
    (∀ e, (prov.CreateCluster (withFinalizer c) w.provider).2 = .err e →
      (Reconcile senv prov req w).2 = .err e ∧
      ((Reconcile senv prov req w).1.store.find req).map (fun o => o.Status)
        = some (failedStatus c.Status e)) := by
  have hkey := Store.find_key _ _ _ hfind
  have hne : c.Status.Phase ≠ "" := by rw [hphase]; decide
  rw [Reconcile_found senv prov req w c (hstore _ _) hfind, initPhase_set _ _ _ _ hne]
  obtain ⟨w1, hw1, hprov, hfind1, htrace⟩ := ensureFinalizer_ok senv prov c
    { w with store := w.store.tick } (hstore _ _) (by rw [hkey]; exact hfind)
  simp only at hprov htrace
  have hpre : ∃ pre, w1.trace = w.trace ++ pre ∧ pre.countP Event.isCreateCluster = 0 := by
    refine ⟨_, htrace, ?_⟩
    split <;> simp [Event.isCreateCluster]
  obtain ⟨pre, hpre, hcount⟩ := hpre
  have hpp : (withFinalizer c).Status.Phase = ClusterPhaseProvisioning := by
    rw [withFinalizer_status, hphase]
  have hdel1 : IsZero (withFinalizer c).ObjectMeta.DeletionTimestamp = true := by
    unfold withFinalizer; split <;> exact hdel
  rw [hw1, dispatch_provisioning _ _ _ _ hdel1 hpp]
  have hk1 : (withFinalizer c).key = req := by rw [withFinalizer_key, hkey]
  rw [hkey, ← hk1] at hfind1
  rw [← hprov, ← hk1]
  rcases hd : prov.CreateCluster (withFinalizer c) w1.provider with ⟨ps, o⟩
  cases o with
  | ok u =>
    rw [handleProvisioningPhase_ok senv prov _ _ w1 ps (hstore _ _) hfind1 hd]
    refine ⟨?_, fun _ => ⟨rfl, ?_⟩, fun e he => by simp at he⟩
    · simp [newEvents, hpre, List.countP_append, hcount, List.countP_cons,
        Event.isCreateCluster]
    · have hput := Store.find_put w1.store _ _
        { withFinalizer c with Status := withPhase (withFinalizer c).Status ClusterPhaseRunning }
        hfind1 rfl
      simp only [Store.find_tick, hput]
      rfl
  | err e =>
    rw [handleProvisioningPhase_err senv prov _ _ w1 ps e (hstore _ _) hfind1 hd]
    refine ⟨?_, fun he => by simp at he, fun e' he => ?_⟩
    · simp [newEvents, hpre, List.countP_append, hcount, List.countP_cons,
        Event.isCreateCluster]
    · simp only [Outcome.err.injEq] at he
      subst he
      refine ⟨rfl, ?_⟩
      have hput := Store.find_put w1.store _ _
        { withFinalizer c with Status := failedStatus (withFinalizer c).Status e }
        hfind1 rfl
      simp only [withFinalizer_status] at hput
      simp only [Store.find_tick, withFinalizer_status, hput]
      rfl
  | panic m =>
    rw [handleProvisioningPhase_panic senv prov _ w1 ps m hd]
    refine ⟨?_, fun he => by simp at he, fun e he => by simp at he⟩
    simp [newEvents, hpre, List.countP_append, hcount, List.countP_cons,
      Event.isCreateCluster]
  | diverge =>
    rw [handleProvisioningPhase_diverge senv prov _ w1 ps hd]
    refine ⟨?_, fun he => by simp at he, fun e he => by simp at he⟩
    simp [newEvents, hpre, List.countP_append, hcount, List.countP_cons,
      Event.isCreateCluster]

/-! ## Deletion and the finalizer -/

theorem Store.StatusUpdate_find (senv : StoreEnv) {s : Store} {obj stored : Cluster}
    (hfind : s.find obj.key = some stored) :
    ∃ c2, (s.StatusUpdate senv obj).1.find obj.key = some c2 ∧
      c2.ObjectMeta = stored.ObjectMeta := by
  unfold Store.StatusUpdate
  cases senv.storeFault s.clock (.StatusUpdate obj.key) with
  | some e => exact ⟨stored, hfind, rfl⟩
  | none =>
    simp only [hfind]
    exact ⟨_, Store.find_put _ _ stored _ hfind (Store.find_key _ _ stored hfind), rfl⟩

theorem World.StatusUpdate_keeps {σ : Type} (senv : StoreEnv) (w : World σ) (obj : Cluster)
    (h : KeepsToken obj.key w) : KeepsToken obj.key (w.StatusUpdate senv obj).1 := by
  obtain ⟨c, hfind, htok⟩ := h
  obtain ⟨c2, h2, hm⟩ := Store.StatusUpdate_find senv hfind
  exact ⟨c2, by simpa [World.StatusUpdate] using h2, by rw [hm]; exact htok⟩

theorem World.StatusUpdate_provider {σ : Type} (senv : StoreEnv) (w : World σ) (obj : Cluster) :
    (w.StatusUpdate senv obj).1.provider = w.provider := rfl

theorem handlePendingPhase_keeps {σ : Type} (senv : StoreEnv) (c : Cluster) (w : World σ)
    (h : KeepsToken c.key w) : KeepsToken c.key (handlePendingPhase senv c w).1 := by
  have hk := World.StatusUpdate_keeps senv w
    { c with Status := { c.Status with Phase := ClusterPhaseProvisioning } } h
  simp only [handlePendingPhase]
  generalize World.StatusUpdate senv w _ = x at hk ⊢
  rcases x with ⟨w1, r⟩
  cases r <;> exact hk

theorem handleProvisioningPhase_keeps {σ : Type} (senv : StoreEnv) (prov : Provider σ)
    (c : Cluster) (w : World σ)
    (h : KeepsToken c.key w) : KeepsToken c.key (handleProvisioningPhase senv prov c w).1 := by
  rcases hd : prov.CreateCluster c w.provider with ⟨ps, o⟩
  have h1 : KeepsToken c.key
      ({ w with provider := ps, trace := w.trace ++ [.CreateCluster c] } : World σ) := h
  cases o with
  | ok u =>
    have hk := World.StatusUpdate_keeps senv _
      { c with Status := { c.Status with Phase := ClusterPhaseRunning } } h1
    simp only [handleProvisioningPhase, World.CreateCluster, hd]
    generalize World.StatusUpdate senv _ _ = x at hk ⊢
    rcases x with ⟨w1, r⟩
    cases r <;> exact hk
  | err e =>
    have hk := World.StatusUpdate_keeps senv _
      { c with Status := { c.Status with
        Phase := ClusterPhaseFailed, Message := "Failed to create cluster: " ++ e.Error } } h1
    simp only [handleProvisioningPhase, World.CreateCluster, hd]
    generalize World.StatusUpdate senv _ _ = x at hk ⊢
    rcases x with ⟨w1, r⟩
    cases r <;> exact hk
  | panic m => simpa only [handleProvisioningPhase, World.CreateCluster, hd] using h1
  | diverge => simpa only [handleProvisioningPhase, World.CreateCluster, hd] using h1

theorem handleRunningPhase_keeps {σ : Type} (senv : StoreEnv) (prov : Provider σ)
    (c : Cluster) (w : World σ)
    (h : KeepsToken c.key w) : KeepsToken c.key (handleRunningPhase senv prov c w).1 := by
  rcases hd : prov.GetClusterStatus c w.provider with ⟨ps, o⟩
  have h1 : KeepsToken c.key
      ({ w with provider := ps, trace := w.trace ++ [.GetClusterStatus c] } : World σ) := h
  cases o with
  | ok st =>
    have hk := World.StatusUpdate_keeps senv _ { c with Status := st } h1
    simp only [handleRunningPhase, World.GetClusterStatus, hd]
    generalize World.StatusUpdate senv _ _ = x at hk ⊢
    rcases x with ⟨w1, r⟩
    cases r <;> exact hk
  | err e => simpa only [handleRunningPhase, World.GetClusterStatus, hd] using h1
  | panic m => simpa only [handleRunningPhase, World.GetClusterStatus, hd] using h1
  | diverge => simpa only [handleRunningPhase, World.GetClusterStatus, hd] using h1

theorem handleDeletion_token {σ : Type} (senv : StoreEnv) (prov : Provider σ) (c : Cluster)
    (w : World σ) (htok : containsString c.ObjectMeta.Finalizers clusterFinalizer = true)
    (hk : KeepsToken c.key w) :
    KeepsToken c.key (handleDeletion senv prov c w).1 ∨
      ((prov.DeleteCluster c w.provider).2 = .ok () ∧
        ∃ rest, (handleDeletion senv prov c w).1.trace
          = w.trace ++ Event.DeleteCluster c :: rest) := by
  rcases hd : prov.DeleteCluster c w.provider with ⟨ps, o⟩
  have h1 : KeepsToken c.key
      ({ w with provider := ps, trace := w.trace ++ [.DeleteCluster c] } : World σ) := hk
  cases o with
  | ok u =>
    right
    refine ⟨rfl, ?_⟩
    simp only [handleDeletion, htok, World.DeleteCluster, hd, World.Update, if_true]
    generalize Store.Update senv _ _ = x
    rcases x with ⟨s1, r⟩
    cases r <;> exact ⟨_, by rw [List.append_assoc]; rfl⟩
  | err e => left; simpa only [handleDeletion, htok, World.DeleteCluster, hd, if_true] using h1
  | panic m => left; simpa only [handleDeletion, htok, World.DeleteCluster, hd, if_true] using h1
  | diverge => left; simpa only [handleDeletion, htok, World.DeleteCluster, hd, if_true] using h1

theorem dispatch_token {σ : Type} (senv : StoreEnv) (prov : Provider σ) (c : Cluster)
    (w : World σ) (htok : containsString c.ObjectMeta.Finalizers clusterFinalizer = true)
    (hk : KeepsToken c.key w) :
    KeepsToken c.key (dispatch senv prov c w).1 ∨
      ((prov.DeleteCluster c w.provider).2 = .ok () ∧
        ∃ rest, (dispatch senv prov c w).1.trace = w.trace ++ Event.DeleteCluster c :: rest) := by
  unfold dispatch
  split
  · exact handleDeletion_token senv prov c w htok hk
  · left
    split
    · exact handlePendingPhase_keeps senv c w hk
    · split
      · exact handleProvisioningPhase_keeps senv prov c w hk
      · split
        · exact handleRunningPhase_keeps senv prov c w hk
        · split <;> exact hk

theorem initPhase_token {σ : Type} (senv : StoreEnv) (prov : Provider σ) (c : Cluster)
    (w : World σ) (htok : containsString c.ObjectMeta.Finalizers clusterFinalizer = true)
    (hfind : w.store.find c.key = some c) :
    KeepsToken c.key (initPhase senv prov c w).1 ∨
      ∃ cl pre rest, (prov.DeleteCluster cl w.provider).2 = .ok () ∧
        (initPhase senv prov c w).1.trace = w.trace ++ pre ++ Event.DeleteCluster cl :: rest := by
  by_cases hphase : c.Status.Phase = ""
  · cases hf : senv.storeFault w.store.clock
        (.StatusUpdate (Cluster.key { c with Status := withPhase c.Status ClusterPhasePending }))
      with
    | some e =>
      left
      have : initPhase senv prov c w =
          ({ w with store := w.store.tick
                    trace := w.trace ++ [.StatusUpdate
                      { c with Status := withPhase c.Status ClusterPhasePending }] }, .err e) := by
        simp only [withPhase] at hf ⊢
        simp [initPhase, hphase, World.StatusUpdate, Store.StatusUpdate, hf]
      rw [this]
      exact ⟨c, hfind, htok⟩
    | none =>
      have hu := World.StatusUpdate_accepted senv w
        { c with Status := withPhase c.Status ClusterPhasePending } c hf hfind
      have hk1 : KeepsToken c.key (w.StatusUpdate senv
          { c with Status := withPhase c.Status ClusterPhasePending }).1 :=
        World.StatusUpdate_keeps senv w
          { c with Status := withPhase c.Status ClusterPhasePending } ⟨c, hfind, htok⟩
      rw [hu] at hk1
      have hinit : initPhase senv prov c w = dispatch senv prov
          { c with Status := withPhase c.Status ClusterPhasePending }
          { w with
            store := (w.store.put { c with Status := withPhase c.Status ClusterPhasePending }).tick
            trace := w.trace ++ [.StatusUpdate
              { c with Status := withPhase c.Status ClusterPhasePending }] } := by
        simp only [withPhase] at hu ⊢
        simp only [initPhase, hphase, hu, if_true]
        exact ensureFinalizer_present senv prov _ _ htok
      rw [hinit]
      rcases dispatch_token senv prov
          { c with Status := withPhase c.Status ClusterPhasePending } _ htok hk1 with h | ⟨hd, rest, hr⟩
      · exact Or.inl h
      · exact Or.inr ⟨_, _, rest, hd, hr⟩
  · rw [initPhase_set senv prov c w hphase, ensureFinalizer_present senv prov c w htok]
    rcases dispatch_token senv prov c w htok ⟨c, hfind, htok⟩ with h | ⟨hd, rest, hr⟩
    · exact Or.inl h
    · exact Or.inr ⟨c, [], rest, hd, by simpa using hr⟩

/-- The finalizer leaves the persisted object only in an invocation in which the
provider's `DeleteCluster` was invoked and succeeded. -/
theorem Reconcile_token {σ : Type} (senv : StoreEnv) (prov : Provider σ)
    (req : NamespacedName) (w : World σ) (c : Cluster)
    (hfind : w.store.find req = some c)
    (htok : containsString c.ObjectMeta.Finalizers clusterFinalizer = true) :
    KeepsToken req (Reconcile senv prov req w).1 ∨
      ∃ cl, (prov.DeleteCluster cl w.provider).2 = .ok () ∧
        Event.DeleteCluster cl ∈ newEvents w (Reconcile senv prov req w).1 := by
  have hkey := Store.find_key _ _ _ hfind
  cases hf : senv.storeFault w.store.clock (.Get req) with
  | some e =>
    left
    have : (Reconcile senv prov req w).1 = { w with store := w.store.tick } := by
      simp only [Reconcile, World.Get, Store.Get, hf]
      split <;> rfl
    rw [this]
    exact ⟨c, hfind, htok⟩
  | none =>
    rw [Reconcile_found senv prov req w c hf hfind]
    rcases initPhase_token senv prov c { w with store := w.store.tick } htok
        (by rw [hkey]; exact hfind) with h | ⟨cl, pre, rest, hd, hr⟩
    · left; rw [hkey] at h; exact h
    · right
      refine ⟨cl, hd, ?_⟩
      simp only at hr
      simp [newEvents, hr]

theorem removeString_eq_filter (l : List String) (s : String) :
    removeString l s = l.filter (fun x => decide (x ≠ s)) := by
  induction l with
  | nil => rfl
  | cons x xs ih =>
    by_cases h : x = s
    · simp [removeString, h, ih]
    · simp [removeString, h, ih]

theorem dispatch_deleting {σ : Type} (senv : StoreEnv) (prov : Provider σ) (c : Cluster)
    (w : World σ) (hdel : IsZero c.ObjectMeta.DeletionTimestamp = false) :
    dispatch senv prov c w = handleDeletion senv prov c w := by
  simp [dispatch, hdel]

theorem handleDeletion_ok {σ : Type} (senv : StoreEnv) (prov : Provider σ)
    (c stored : Cluster) (w : World σ) (ps : σ)
    (htok : containsString c.ObjectMeta.Finalizers clusterFinalizer = true)
    (hf : senv.storeFault w.store.clock (.Update c.key) = none)
    (hfind : w.store.find c.key = some stored)
    (hd : prov.DeleteCluster c w.provider = (ps, .ok ())) :
    handleDeletion senv prov c w =
      ({ store := (w.store.commit { withoutFinalizer c with Status := stored.Status }).tick
         provider := ps
         trace := w.trace ++ [.DeleteCluster c, .Update (withoutFinalizer c)] },
        .ok {}) := by
  have hu := Store.Update_ok senv w.store (withoutFinalizer c) stored hf hfind
  simp only [withoutFinalizer] at hu ⊢
  simp only [handleDeletion, htok, World.DeleteCluster, hd, World.Update, hu, if_true]
  simp

theorem handleDeletion_err {σ : Type} (senv : StoreEnv) (prov : Provider σ)
    (c : Cluster) (w : World σ) (ps : σ) (e : GoError)
    (htok : containsString c.ObjectMeta.Finalizers clusterFinalizer = true)
    (hd : prov.DeleteCluster c w.provider = (ps, .err e)) :
    handleDeletion senv prov c w =
      ({ w with provider := ps, trace := w.trace ++ [.DeleteCluster c] }, .err e) := by
  simp only [handleDeletion, htok, World.DeleteCluster, hd, if_true]

theorem handleDeletion_trace {σ : Type} (senv : StoreEnv) (prov : Provider σ)
    (c : Cluster) (w : World σ)
    (htok : containsString c.ObjectMeta.Finalizers clusterFinalizer = true) :
    ∃ rest, (handleDeletion senv prov c w).1.trace = w.trace ++ Event.DeleteCluster c :: rest := by
  rcases hd : prov.DeleteCluster c w.provider with ⟨ps, o⟩
  cases o with
  | ok u =>
    simp only [handleDeletion, htok, World.DeleteCluster, hd, World.Update, if_true]
    generalize Store.Update senv _ _ = x
    rcases x with ⟨s1, r⟩
    cases r <;> exact ⟨_, by rw [List.append_assoc]; rfl⟩
  | err e => exact ⟨[], by simp only [handleDeletion, htok, World.DeleteCluster, hd, if_true]⟩
  | panic m => exact ⟨[], by simp only [handleDeletion, htok, World.DeleteCluster, hd, if_true]⟩
  | diverge => exact ⟨[], by simp only [handleDeletion, htok, World.DeleteCluster, hd, if_true]⟩

/-- Claim C6, amended. For a persisted cluster that carries the finalizer: the
persisted object loses the finalizer, or is purged, only in an invocation in which
the provider's `DeleteCluster` was invoked and succeeded. If moreover the cluster
has a deletion marker and a phase already set, then `Reconcile`, once it has read
the object, invokes `DeleteCluster` first; if that fails with `e`, `Reconcile`
returns `e`, writes nothing and the persisted object keeps the finalizer; if it
succeeds and the store accepts the update, the one write is the object with the
finalizer removed and every other finalizer in its original order, and that is the
persisted object afterwards unless no finalizer is left, in which case the store
has purged the object. -/
theorem Reconcile_deleting {σ : Type} (senv : StoreEnv) (prov : Provider σ)
    (req : NamespacedName) (w : World σ) (c : Cluster)
    (hfind : w.store.find req = some c)
    (htok : containsString c.ObjectMeta.Finalizers clusterFinalizer = true) :
    (((Reconcile senv prov req w).1.store.find req = none ∨
        ∃ c', (Reconcile senv prov req w).1.store.find req = some c' ∧
          containsString c'.ObjectMeta.Finalizers clusterFinalizer = false) →
      ∃ cl, (prov.DeleteCluster cl w.provider).2 = .ok () ∧
        Event.DeleteCluster cl ∈ newEvents w (Reconcile senv prov req w).1) ∧
    (senv.storeFault w.store.clock (.Get req) = none →
      IsZero c.ObjectMeta.DeletionTimestamp = false → c.Status.Phase ≠ "" →
      (newEvents w (Reconcile senv prov req w).1).head? = some (.DeleteCluster c) ∧
      (∀ e, (prov.DeleteCluster c w.provider).2 = .err e →
        (Reconcile senv prov req w).2 = .err e ∧
        (Reconcile senv prov req w).1.store.objects = w.store.objects ∧
        (Reconcile senv prov req w).1.store.find req = some c ∧
        newEvents w (Reconcile senv prov req w).1 = [.DeleteCluster c]) ∧
      ((prov.DeleteCluster c w.provider).2 = .ok () →
        senv.storeFault (w.store.clock + 1) (.Update req) = none →
        (Reconcile senv prov req w).2 = .ok { Requeue := false, RequeueAfter := 0 } ∧
        newEvents w (Reconcile senv prov req w).1
          = [.DeleteCluster c, .Update (withoutFinalizer c)] ∧
        (Reconcile senv prov req w).1.store.find req
          = (if (withoutFinalizer c).ObjectMeta.Finalizers = [] then none
             else some (withoutFinalizer c)) ∧
        (withoutFinalizer c).ObjectMeta.Finalizers
          = c.ObjectMeta.Finalizers.filter (fun x => decide (x ≠ clusterFinalizer)))) := by
  constructor
  · intro hgone
    rcases Reconcile_token senv prov req w c hfind htok with ⟨c2, h2, ht2⟩ | h
    · rcases hgone with hnone | ⟨c', hc', hno⟩
      · rw [hnone] at h2
        cases h2
      · rw [hc'] at h2
        cases h2
        rw [hno] at ht2
        exact absurd ht2 (by decide)
    · exact h
  · intro hget hdel hphase
    have hkey := Store.find_key _ _ _ hfind
    rw [Reconcile_found senv prov req w c hget hfind, initPhase_set _ _ _ _ hphase,
      ensureFinalizer_present _ _ _ _ htok, dispatch_deleting _ _ _ _ hdel]
    refine ⟨?_, ?_, ?_⟩
    · obtain ⟨rest, hr⟩ := handleDeletion_trace senv prov c { w with store := w.store.tick } htok
      simp only at hr
      simp [newEvents, hr]
    · intro e he
      rcases hd : prov.DeleteCluster c w.provider with ⟨ps, o⟩
      rw [hd] at he
      simp only at he
      subst he
      rw [handleDeletion_err senv prov c { w with store := w.store.tick } ps e htok hd]
      exact ⟨rfl, rfl, hfind, by simp [newEvents]⟩
    · intro hok hupd
      rcases hd : prov.DeleteCluster c w.provider with ⟨ps, o⟩
      rw [hd] at hok
      simp only at hok
      subst hok
      have hfind' : ({ w with store := w.store.tick } : World σ).store.find c.key = some c := by
        rw [hkey]; exact hfind
      rw [handleDeletion_ok senv prov c c { w with store := w.store.tick } ps htok
        (by rw [hkey]; exact hupd) hfind' hd]
      have hst : ({ withoutFinalizer c with Status := c.Status } : Cluster)
          = withoutFinalizer c := rfl
      have hk2 : (withoutFinalizer c).key = req := hkey
      refine ⟨rfl, by simp [newEvents], ?_, ?_⟩
      · simp only [hst, Store.find_tick]
        by_cases hfin : (withoutFinalizer c).ObjectMeta.Finalizers = []
        · have hdel2 : IsZero (withoutFinalizer c).ObjectMeta.DeletionTimestamp = false := hdel
          rw [Store.commit_purge w.store.tick (withoutFinalizer c) hdel2 hfin, hk2, if_pos hfin]
          exact Store.find_remove _ _
        · rw [Store.commit_of_finalizers w.store.tick (withoutFinalizer c) hfin, if_neg hfin]
          exact Store.find_put w.store.tick req c (withoutFinalizer c) hfind hkey
      · simp [withoutFinalizer, removeString_eq_filter]

/-! ## Phase Running -/

theorem dispatch_running {σ : Type} (senv : StoreEnv) (prov : Provider σ) (c : Cluster)
    (w : World σ) (hdel : IsZero c.ObjectMeta.DeletionTimestamp = true)
    (hphase : c.Status.Phase = ClusterPhaseRunning) :
    dispatch senv prov c w = handleRunningPhase senv prov c w := by
  simp [dispatch, hdel, hphase, show ClusterPhaseRunning ≠ ClusterPhasePending by decide,
    show ClusterPhaseRunning ≠ ClusterPhaseProvisioning by decide]

theorem handleRunningPhase_ok {σ : Type} (senv : StoreEnv) (prov : Provider σ)
    (c stored : Cluster) (w : World σ) (ps : σ) (status : ClusterStatus)
    (hf : senv.storeFault w.store.clock (.StatusUpdate c.key) = none)
    (hfind : w.store.find c.key = some stored)
    (hd : prov.GetClusterStatus c w.provider = (ps, .ok status)) :
    handleRunningPhase senv prov c w =
      ({ store := (w.store.put { stored with Status := status }).tick
         provider := ps
         trace := w.trace ++ [.GetClusterStatus c, .StatusUpdate { c with Status := status }] },
        .ok { RequeueAfter := 30 }) := by
  have hu := World.StatusUpdate_accepted senv
    { w with provider := ps, trace := w.trace ++ [.GetClusterStatus c] }
    { c with Status := status } stored hf hfind
  simp only [handleRunningPhase, World.GetClusterStatus, hd, hu]
  simp

theorem handleRunningPhase_err {σ : Type} (senv : StoreEnv) (prov : Provider σ)
    (c : Cluster) (w : World σ) (ps : σ) (e : GoError)
    (hd : prov.GetClusterStatus c w.provider = (ps, .err e)) :
    handleRunningPhase senv prov c w =
      ({ w with provider := ps, trace := w.trace ++ [.GetClusterStatus c] }, .err e) := by
  simp only [handleRunningPhase, World.GetClusterStatus, hd]

/-- Claim C9, amended. For a cluster persisted in phase Running, without a deletion
marker and carrying the finalizer, with the store answering every call: if the
provider's `GetClusterStatus` returns `status`, `Reconcile` persists the object with
its whole status record replaced by `status` and requests re-invocation after 30;
if it fails with `e`, `Reconcile` returns `e`, the store holds the same objects,
the persisted object (hence its phase) is unchanged, and the invocation has done
nothing but call `GetClusterStatus`. -/
theorem Reconcile_running {σ : Type} (senv : StoreEnv) (prov : Provider σ)
    (req : NamespacedName) (w : World σ) (c : Cluster)
    (hstore : ∀ n call, senv.storeFault n call = none)
    (hfind : w.store.find req = some c)
    (hphase : c.Status.Phase = ClusterPhaseRunning)
    (hdel : IsZero c.ObjectMeta.DeletionTimestamp = true)
    (htok : containsString c.ObjectMeta.Finalizers clusterFinalizer = true) :
    (∀ status, (prov.GetClusterStatus c w.provider).2 = .ok status →
      (Reconcile senv prov req w).2 = .ok { Requeue := false, RequeueAfter := 30 } ∧
      (Reconcile senv prov req w).1.store.find req = some { c with Status := status }) ∧
    (∀ e, (prov.GetClusterStatus c w.provider).2 = .err e →
      (Reconcile senv prov req w).2 = .err e ∧
      (Reconcile senv prov req w).1.store.objects = w.store.objects ∧
      (Reconcile senv prov req w).1.store.find req = some c ∧
      newEvents w (Reconcile senv prov req w).1 = [.GetClusterStatus c]) := by
  have hkey := Store.find_key _ _ _ hfind
  have hne : c.Status.Phase ≠ "" := by rw [hphase]; decide
  rw [Reconcile_found senv prov req w c (hstore _ _) hfind, initPhase_set _ _ _ _ hne,
    ensureFinalizer_present _ _ _ _ htok, dispatch_running _ _ _ _ hdel hphase]
  have hfind' : ({ w with store := w.store.tick } : World σ).store.find c.key = some c := by
    rw [hkey]; exact hfind
  rcases hd : prov.GetClusterStatus c w.provider with ⟨ps, o⟩
  constructor
  · intro status hs
    simp only at hs
    subst hs
    rw [handleRunningPhase_ok senv prov c c { w with store := w.store.tick } ps status
      (hstore _ _) hfind' hd]
    refine ⟨rfl, ?_⟩
    have hput := Store.find_put w.store.tick req c { c with Status := status } hfind hkey
    simp only [Store.find_tick] at hput ⊢
    exact hput
  · intro e he
    simp only at he
    subst he
    rw [handleRunningPhase_err senv prov c { w with store := w.store.tick } ps e hd]
    exact ⟨rfl, rfl, hfind, by simp [newEvents]⟩

theorem classify_running (cs : List Container) (spec : ClusterSpec)
    (h : (classify cs spec).Phase = "Running") :
    (runningWithRole "control-plane" cs : Int) = spec.ControlPlane.Count ∧
    (runningWithRole "worker" cs : Int) = spec.Workers.Count ∧
    ∀ c ∈ cs, c.State = "running" := by
  unfold classify at h
  simp only at h
  split at h
  · exact absurd h (by decide)
  · split at h
    · exact absurd h (by decide)
    · rename_i hany
      split at h
      · rename_i hc
        refine ⟨hc.1, hc.2, fun c hc' => ?_⟩
        have hall : ∀ x ∈ cs, x.State = "running" := by simpa using hany
        exact hall c hc'
      · exact absurd h (by decide)

theorem classify_not_running (cs : List Container) (spec : ClusterSpec)
    (hdev : (runningWithRole "control-plane" cs : Int) ≠ spec.ControlPlane.Count ∨
      (runningWithRole "worker" cs : Int) ≠ spec.Workers.Count) :
    (classify cs spec).Phase ≠ ClusterPhaseRunning := by
  intro h
  have := classify_running cs spec h
  rcases hdev with hd | hd
  · exact hd this.1
  · exact hd this.2.1

theorem withFinalizer_spec (c : Cluster) : (withFinalizer c).Spec = c.Spec := by
  unfold withFinalizer; split <;> rfl

theorem withFinalizer_name (c : Cluster) :
    (withFinalizer c).ObjectMeta.Name = c.ObjectMeta.Name := by
  unfold withFinalizer; split <;> rfl

theorem withFinalizer_deletion (c : Cluster) :
    (withFinalizer c).ObjectMeta.DeletionTimestamp = c.ObjectMeta.DeletionTimestamp := by
  unfold withFinalizer; split <;> rfl

/-- Claim C4, amended. Whenever `GetClusterStatus` reports phase `Running`, the
running containers labelled `role=control-plane` and `role=worker` are as many as
the spec asks for and every labelled container is running. Conversely, for a
cluster persisted in phase Running without a deletion marker, if a running count
differs from the spec, one `Reconcile` (the status refresh through the Docker
provider, with the store and the listing answering) persists a phase other than
Running. The labelled containers are within the range of the `int32` counters of
the code. -/
theorem Running_iff_counts (env : Env) (cluster : Cluster) (rt rt' : Runtime)
    (status : ClusterStatus) (senv : StoreEnv) (env2 : Env) (p : DockerProvider)
    (req : NamespacedName) (w : World Runtime) (c : Cluster)
    (hlen : (clusterContainers cluster rt).length < 2147483648)
    (hstatus : GetClusterStatus env cluster rt = (rt', .ok status))
    (hrun : status.Phase = "Running")
    (hstore : ∀ n call, senv.storeFault n call = none)
    (hlist : ∀ n, env2.dockerFault n (.ContainerList true (getClusterFilters c)) = none)
    (hfind : w.store.find req = some c)
    (hphase : c.Status.Phase = ClusterPhaseRunning)
    (hdel : IsZero c.ObjectMeta.DeletionTimestamp = true)
    (hlen2 : (clusterContainers c w.provider).length < 2147483648)
    (hdev : (runningWithRole "control-plane" (clusterContainers c w.provider) : Int)
        ≠ c.Spec.ControlPlane.Count ∨
      (runningWithRole "worker" (clusterContainers c w.provider) : Int)
        ≠ c.Spec.Workers.Count) :
    ((runningWithRole "control-plane" (clusterContainers cluster rt) : Int)
        = cluster.Spec.ControlPlane.Count ∧
      (runningWithRole "worker" (clusterContainers cluster rt) : Int)
        = cluster.Spec.Workers.Count ∧
      ∀ x ∈ clusterContainers cluster rt, x.State = "running") ∧
    ∃ c', (Reconcile senv (dockerProvider env2 p) req w).1.store.find req = some c' ∧
      c'.Status.Phase ≠ ClusterPhaseRunning := by
  constructor
  · cases hl : env.dockerFault rt.clock (.ContainerList true (getClusterFilters cluster)) with
    | some e => simp [GetClusterStatus, ContainerList, hl] at hstatus
    | none =>
      rw [GetClusterStatus_of_list env cluster rt hl hlen] at hstatus
      simp only [Prod.mk.injEq, Outcome.ok.injEq] at hstatus
      rw [← hstatus.2] at hrun
      exact classify_running _ _ hrun
  · have hkey := Store.find_key _ _ _ hfind
    have hne : c.Status.Phase ≠ "" := by rw [hphase]; decide
    rw [Reconcile_found senv _ req w c (hstore _ _) hfind, initPhase_set _ _ _ _ hne]
    obtain ⟨w1, hw1, hprov, hfind1, -⟩ := ensureFinalizer_ok senv (dockerProvider env2 p) c
      { w with store := w.store.tick } (hstore _ _) (by rw [hkey]; exact hfind)
    simp only at hprov
    have hpp : (withFinalizer c).Status.Phase = ClusterPhaseRunning := by
      rw [withFinalizer_status, hphase]
    have hdel1 : IsZero (withFinalizer c).ObjectMeta.DeletionTimestamp = true := by
      rw [withFinalizer_deletion]; exact hdel
    rw [hw1, dispatch_running _ _ _ _ hdel1 hpp]
    have hk1 : (withFinalizer c).key = req := by rw [withFinalizer_key, hkey]
    rw [hkey, ← hk1] at hfind1
    have hfilters : getClusterFilters (withFinalizer c) = getClusterFilters c := by
      simp [getClusterFilters, withFinalizer_name]
    have hconts : clusterContainers (withFinalizer c) w1.provider
        = clusterContainers c w.provider := by
      simp [clusterContainers, withFinalizer_name, hprov]
    have hget : GetClusterStatus env2 (withFinalizer c) w1.provider
        = (w1.provider.serve (.ContainerList true (getClusterFilters c)),
            .ok (classify (clusterContainers c w.provider) c.Spec)) := by
      have := GetClusterStatus_of_list env2 (withFinalizer c) w1.provider
        (by rw [hfilters]; exact hlist _) (by rw [hconts]; exact hlen2)
      rw [hconts, withFinalizer_spec, hfilters] at this
      exact this
    rw [handleRunningPhase_ok senv (dockerProvider env2 p) (withFinalizer c) (withFinalizer c)
      w1 _ _ (hstore _ _) hfind1 hget]
    refine ⟨{ withFinalizer c with
      Status := classify (clusterContainers c w.provider) c.Spec }, ?_,
      classify_not_running _ _ hdev⟩
    have hput := Store.find_put w1.store _ _
      { withFinalizer c with Status := classify (clusterContainers c w.provider) c.Spec }
      hfind1 rfl
    simp only [Store.find_tick]
    rw [← hk1]
    exact hput

/-! ## The reconciler on concrete clusters -/

/-- Claim C4 refuted as stated. The persisted cluster is in phase Running and has a
deletion marker, the token and the finalizer of another controller; the daemon
holds one running worker where the spec asks for two, and every call succeeds.
`Reconcile` takes the deletion path: the object stays persisted, for the other
finalizer, and its phase is still Running after the invocation. -/
theorem Reconcile_running_deleting_keeps_phase :
    (runningWithRole "worker"
        (clusterContainers deletingCluster
          degradedRuntime) : Int)
      ≠ deletingCluster.Spec.Workers.Count ∧
    (Reconcile quietStore (dockerProvider quietEnv mainProvider) testKey
        (worldOf deletingCluster
          degradedRuntime)).1.store.objects
      = [testClusterWith ["example.com/other"] (some 1) "Running"] ∧
    (Reconcile quietStore (dockerProvider quietEnv mainProvider) testKey
        (worldOf deletingCluster
          degradedRuntime)).2
      = .ok { Requeue := false, RequeueAfter := 0 } := by
  decide

/-- Claim C4, amended, at concrete inputs: the status of the freshly created test
cluster is `Running` with one control-plane node and two workers running; once the
container of a worker is gone, the status refresh persists a phase that is not
Running. -/
theorem Running_iff_counts_witness :
    ((runningWithRole "control-plane" (clusterContainers testCluster createdRuntime) : Int)
        = testCluster.Spec.ControlPlane.Count ∧
      (runningWithRole "worker" (clusterContainers testCluster createdRuntime) : Int)
        = testCluster.Spec.Workers.Count ∧
      ∀ x ∈ clusterContainers testCluster createdRuntime, x.State = "running") ∧
    ∃ c', (Reconcile quietStore (dockerProvider quietEnv mainProvider) testKey
        (worldOf staleCluster degradedRuntime)).1.store.find testKey = some c' ∧
      c'.Status.Phase ≠ ClusterPhaseRunning :=
  Running_iff_counts quietEnv testCluster createdRuntime
    (createdRuntime.serve (.ContainerList true (getClusterFilters testCluster)))
    (classify (clusterContainers testCluster createdRuntime) testCluster.Spec)
    quietStore quietEnv mainProvider testKey (worldOf staleCluster degradedRuntime) staleCluster
    (by decide)
    (GetClusterStatus_of_list quietEnv testCluster createdRuntime rfl (by decide))
    (by decide) (fun _ _ => rfl) (fun _ => rfl) (by decide) rfl rfl (by decide) (by decide)

/-- Claim C5 at a failing input. The persisted cluster has a deletion marker and a
finalizer set without the token of the reconciler; the daemon cannot be reached.
`Reconcile` first writes the token into the finalizer set, then invokes the
provider's `DeleteCluster`, which fails: a provider operation was invoked and the
persisted finalizer set now contains the token. -/
theorem Reconcile_deleting_without_finalizer :
    (Reconcile quietStore (dockerProvider deadEnv mainProvider) testKey
        (worldOf (testClusterWith ["example.com/other"] (some 1) "Running") emptyRuntime)).1.trace
      = [.Update (testClusterWith ["example.com/other", clusterFinalizer] (some 1) "Running"),
         .DeleteCluster
           (testClusterWith ["example.com/other", clusterFinalizer] (some 1) "Running")] ∧
    (Reconcile quietStore (dockerProvider deadEnv mainProvider) testKey
        (worldOf (testClusterWith ["example.com/other"] (some 1) "Running")
          emptyRuntime)).1.store.objects
      = [testClusterWith ["example.com/other", clusterFinalizer] (some 1) "Running"] ∧
    (Reconcile quietStore (dockerProvider deadEnv mainProvider) testKey
        (worldOf (testClusterWith ["example.com/other"] (some 1) "Running") emptyRuntime)).2
      = .err (.wrapf "failed to list containers"
          (.new "cannot connect to the Docker daemon")) := by
  decide

/-- Claim C6 refuted as stated. The persisted cluster has a deletion marker, the
finalizer and no phase; the provider's `DeleteCluster` fails. `Reconcile` returns
the error, but it has written: the persisted phase is now Pending. -/
theorem Reconcile_deleting_unset_phase_writes :
    (mockProvider deleteFailsMock).DeleteCluster
        (testClusterWith [clusterFinalizer] (some 1) "Pending") ()
      = ((), .err (.new "container is busy")) ∧
    (Reconcile quietStore (mockProvider deleteFailsMock) testKey
        (worldOf (testClusterWith [clusterFinalizer] (some 1) "") ())).2
      = .err (.new "container is busy") ∧
    (Reconcile quietStore (mockProvider deleteFailsMock) testKey
        (worldOf (testClusterWith [clusterFinalizer] (some 1) "") ())).1.trace
      = [.StatusUpdate (testClusterWith [clusterFinalizer] (some 1) "Pending"),
         .DeleteCluster (testClusterWith [clusterFinalizer] (some 1) "Pending")] ∧
    (Reconcile quietStore (mockProvider deleteFailsMock) testKey
        (worldOf (testClusterWith [clusterFinalizer] (some 1) "") ())).1.store.objects
      = [testClusterWith [clusterFinalizer] (some 1) "Pending"] ∧
    (Reconcile quietStore (mockProvider deleteFailsMock) testKey
        (worldOf (testClusterWith [clusterFinalizer] (some 1) "") ())).1.store.objects
      ≠ (worldOf (testClusterWith [clusterFinalizer] (some 1) "") ()).store.objects := by
  decide

/-- Claim C6, amended, at concrete inputs: the finalizer is taken out from between
two others after a successful `DeleteCluster`, and the object stays persisted;
when the token is the only finalizer, the store purges the object. -/
theorem Reconcile_deleting_witness :
    ((Reconcile quietStore (mockProvider {}) testKey
        (worldOf (testClusterWith ["example.com/a", clusterFinalizer, "example.com/b"]
          (some 1) "Running") ())).2 = .ok { Requeue := false, RequeueAfter := 0 } ∧
      (Reconcile quietStore (mockProvider {}) testKey
        (worldOf (testClusterWith ["example.com/a", clusterFinalizer, "example.com/b"]
          (some 1) "Running") ())).1.store.find testKey
        = some (testClusterWith ["example.com/a", "example.com/b"] (some 1) "Running")) ∧
    (Reconcile quietStore (mockProvider {}) testKey
        (worldOf (testClusterWith [clusterFinalizer] (some 1) "Running") ())).1.store.find testKey
      = none ∧
    (Reconcile quietStore (mockProvider {}) testKey
        (worldOf (testClusterWith [clusterFinalizer] (some 1) "Running") ())).1.trace
      = [.DeleteCluster (testClusterWith [clusterFinalizer] (some 1) "Running"),
         .Update (testClusterWith [] (some 1) "Running")] :=
  ⟨⟨(((Reconcile_deleting quietStore (mockProvider {}) testKey
        (worldOf (testClusterWith ["example.com/a", clusterFinalizer, "example.com/b"]
          (some 1) "Running") ())
        (testClusterWith ["example.com/a", clusterFinalizer, "example.com/b"] (some 1)
          "Running")
        rfl rfl).2 rfl rfl (by decide)).2.2 rfl rfl).1,
      (((Reconcile_deleting quietStore (mockProvider {}) testKey
        (worldOf (testClusterWith ["example.com/a", clusterFinalizer, "example.com/b"]
          (some 1) "Running") ())
        (testClusterWith ["example.com/a", clusterFinalizer, "example.com/b"] (some 1)
          "Running")
        rfl rfl).2 rfl rfl (by decide)).2.2 rfl rfl).2.2.1⟩,
    (((Reconcile_deleting quietStore (mockProvider {}) testKey
        (worldOf (testClusterWith [clusterFinalizer] (some 1) "Running") ())
        (testClusterWith [clusterFinalizer] (some 1) "Running")
        rfl rfl).2 rfl rfl (by decide)).2.2 rfl rfl).2.2.1,
    (((Reconcile_deleting quietStore (mockProvider {}) testKey
        (worldOf (testClusterWith [clusterFinalizer] (some 1) "Running") ())
        (testClusterWith [clusterFinalizer] (some 1) "Running")
        rfl rfl).2 rfl rfl (by decide)).2.2 rfl rfl).2.1⟩

/-- Claim C7 at a failing input. The persisted cluster has no phase, no finalizer
and no deletion marker; every store write succeeds. One `Reconcile` writes phase
Pending, writes the finalizer, and then dispatches on the phase it has just set:
it writes phase Provisioning. The persisted phase after the invocation is
Provisioning, not Pending; the finalizer is persisted and an immediate
re-invocation is requested. -/
theorem Reconcile_unset_phase :
    (Reconcile quietStore (mockProvider {}) testKey
        (worldOf (testClusterWith [] none "") ())).1.store.objects
      = [testClusterWith [clusterFinalizer] none "Provisioning"] ∧
    (Reconcile quietStore (mockProvider {}) testKey
        (worldOf (testClusterWith [] none "") ())).1.trace
      = [.StatusUpdate (testClusterWith [] none "Pending"),
         .Update (testClusterWith [clusterFinalizer] none "Pending"),
         .StatusUpdate (testClusterWith [clusterFinalizer] none "Provisioning")] ∧
    (Reconcile quietStore (mockProvider {}) testKey
        (worldOf (testClusterWith [] none "") ())).2
      = .ok { Requeue := true, RequeueAfter := 0 } := by
  decide

/-- Claim C8 at a concrete input: a failing `CreateCluster`. -/
theorem Reconcile_provisioning_witness :
    (Reconcile quietStore (mockProvider createFailsMock) testKey
        (worldOf (testClusterWith [] none "Provisioning") ())).2
      = .err (.new "image not found") ∧
    ((Reconcile quietStore (mockProvider createFailsMock) testKey
        (worldOf (testClusterWith [] none "Provisioning") ())).1.store.find testKey).map
          (fun o => o.Status)
      = some (failedStatus (testClusterWith [] none "Provisioning").Status
          (.new "image not found")) :=
  (Reconcile_provisioning quietStore (mockProvider createFailsMock) testKey
    (worldOf (testClusterWith [] none "Provisioning") ())
    (testClusterWith [] none "Provisioning") (fun _ _ => rfl) rfl rfl rfl).2.2
    (.new "image not found") rfl

/-- Claim C9 refuted as stated. The persisted cluster is in phase Running without
a deletion marker and without the finalizer; the provider's `GetClusterStatus`
fails. `Reconcile` returns the error, but it has persisted the finalizer. -/
theorem Reconcile_running_without_finalizer_writes :
    (mockProvider statusFailsMock).GetClusterStatus
        (testClusterWith [clusterFinalizer] none "Running") ()
      = ((), .err (.new "cannot connect to the Docker daemon")) ∧
    (Reconcile quietStore (mockProvider statusFailsMock) testKey
        (worldOf (testClusterWith [] none "Running") ())).2
      = .err (.new "cannot connect to the Docker daemon") ∧
    (Reconcile quietStore (mockProvider statusFailsMock) testKey
        (worldOf (testClusterWith [] none "Running") ())).1.store.objects
      = [testClusterWith [clusterFinalizer] none "Running"] ∧
    (Reconcile quietStore (mockProvider statusFailsMock) testKey
        (worldOf (testClusterWith [] none "Running") ())).1.store.objects
      ≠ (worldOf (testClusterWith [] none "Running") ()).store.objects := by
  decide

/-- Claim C9, amended, at a concrete input: the stale status record is replaced
by the one the provider returns. -/
theorem Reconcile_running_witness :
    (Reconcile quietStore (mockProvider {}) testKey (worldOf staleCluster ())).2
      = .ok { Requeue := false, RequeueAfter := 30 } ∧
    (Reconcile quietStore (mockProvider {}) testKey (worldOf staleCluster ())).1.store.find
        testKey
      = some { staleCluster with
          Status := { ClusterStatus.zero with
                        Phase := "Running", ControlPlaneReady := true, WorkersReady := 2 } } :=
  (Reconcile_running quietStore (mockProvider {}) testKey (worldOf staleCluster ())
    staleCluster (fun _ _ => rfl) rfl rfl rfl rfl).1 _ rfl

/-- Claim C10 at failing inputs. A cluster is persisted in phase Running with the
finalizer. When the daemon holds no container of the cluster, the status refresh
persists the phase `NotFound`; when a container of the cluster has exited, it
persists `Starting`. Neither is one of the six enumerated phases. -/
theorem Reconcile_persists_unlisted_phase :
    (Reconcile quietStore (dockerProvider quietEnv mainProvider) testKey
        (worldOf (testClusterWith [clusterFinalizer] none "Running")
          emptyRuntime)).1.store.objects.map (fun o => o.Status.Phase) = ["NotFound"] ∧
    (Reconcile quietStore (dockerProvider quietEnv mainProvider) testKey
        (worldOf (testClusterWith [clusterFinalizer] none "Running")
          stoppedRuntime)).1.store.objects.map (fun o => o.Status.Phase) = ["Starting"] ∧
    "NotFound" ∉ enumeratedPhases ∧ "Starting" ∉ enumeratedPhases := by
  decide

/-! ## Memory strings and resource allocation -/

/-- Claim C19. A memory string whose upper-cased form ends in none of `KI`, `MI`,
`GI` is converted to 0. The conversion is a total function into the integers: it
has no failing and no panicking path. -/
theorem parseMemory_unrecognised (env : Env) (memory : String)
    (hk : HasSuffix (env.ToUpper memory) "KI" = false)
    (hm : HasSuffix (env.ToUpper memory) "MI" = false)
    (hg : HasSuffix (env.ToUpper memory) "GI" = false) :
    parseMemory env memory = 0 := by
  simp [parseMemory, hk, hm, hg]

/-- The strings `2`, `2G`, `2GB` and the empty string are converted to 0. -/
theorem parseMemory_unrecognised_witness :
    parseMemory quietEnv "2" = 0 ∧ parseMemory quietEnv "2G" = 0
      ∧ parseMemory quietEnv "2GB" = 0 ∧ parseMemory quietEnv "" = 0 :=
  ⟨parseMemory_unrecognised quietEnv "2" (by decide) (by decide) (by decide),
   parseMemory_unrecognised quietEnv "2G" (by decide) (by decide) (by decide),
   parseMemory_unrecognised quietEnv "2GB" (by decide) (by decide) (by decide),
   parseMemory_unrecognised quietEnv "" (by decide) (by decide) (by decide)⟩

/-- Claim C20 refuted. `getResourceAllocation` sets `CPUPeriod` to 100000 and
`Memory` to `parseMemory` of the memory string for every config, but the quota is
the `int32` product: for `cpuCount = 30000` it is -1294967296, not 3000000000. The
quota is exact up to `cpuCount = 21474` and wraps from 21475 on. -/
theorem getResourceAllocation_quota_wraps :
    (∀ (env : Env) (config : MachineConfig),
        (getResourceAllocation env config).CPUPeriod = 100000
          ∧ (getResourceAllocation env config).Memory = parseMemory env config.Memory)
      ∧ (getResourceAllocation quietEnv { Memory := "2Gi", CPUCount := 30000 }).CPUQuota
          = -1294967296
      ∧ (30000 : Int) * 100000 = 3000000000
      ∧ (getResourceAllocation quietEnv { Memory := "2Gi", CPUCount := 21475 }).CPUQuota
          = -2147467296
      ∧ (getResourceAllocation quietEnv { Memory := "2Gi", CPUCount := 21474 }).CPUQuota
          = 2147400000 :=
  ⟨fun _ _ => ⟨rfl, rfl⟩, by decide, by decide, by decide, by decide⟩

/-! ## Deleting a cluster -/

theorem setState_filter_ne (id state : String) (cs : List Container) :
    (setState id state cs).filter (fun c => c.ID != id) = cs.filter (fun c => c.ID != id) := by
  induction cs with
  | nil => rfl
  | cons c cs ih =>
    simp only [setState, List.map_cons, List.filter_cons] at ih ⊢
    by_cases h : c.ID = id
    · simp only [h, beq_self_eq_true, if_true, bne_self_eq_false, Bool.false_eq_true, if_false]
      exact ih
    · have hb : (c.ID == id) = false := by simpa using h
      simp only [hb, Bool.false_eq_true, if_false, bne, Bool.not_false, if_true]
      simp only [bne] at ih
      rw [ih]

/-- A stop followed by a removal, both successful, takes the containers with the
identifier out of the daemon and changes nothing else but the call log. -/
theorem stop_remove_ok (env : Env) (rt : Runtime) (id : String)
    (h1 : env.dockerFault rt.clock (.ContainerStop id) = none)
    (h2 : env.dockerFault (rt.clock + 1) (.ContainerRemove id) = none) :
    ContainerRemove env (ContainerStop env rt id).1 id
      = ({ rt with containers := rt.containers.filter (fun c => c.ID != id)
                   clock := rt.clock + 2
                   calls := rt.calls ++ [.ContainerStop id, .ContainerRemove id] }, .ok ()) := by
  simp [ContainerRemove, ContainerStop, h1, h2, Runtime.serve, setState_filter_ne]

/-- A successful first loop of `DeleteCluster` takes out of the daemon exactly the
containers that share an identifier with a listed one. -/
theorem stopAndRemove_ok (env : Env) (cs : List Container) (rt : Runtime)
    (h : (stopAndRemove env cs rt).2 = .ok ()) :
    (stopAndRemove env cs rt).1.containers
        = rt.containers.filter (fun c => !cs.any (fun x => x.ID == c.ID))
      ∧ (stopAndRemove env cs rt).1.networks = rt.networks
      ∧ (stopAndRemove env cs rt).1.created = rt.created := by
  induction cs generalizing rt with
  | nil => simp [stopAndRemove]
  | cons cont rest ih =>
    unfold stopAndRemove at h ⊢
    by_cases hsz : cont.ID.utf8ByteSize < 12
    · simp [hsz] at h
    · simp only [hsz, if_false] at h ⊢
      cases h1 : env.dockerFault rt.clock (.ContainerStop cont.ID) with
      | some e => simp [ContainerStop, h1] at h
      | none =>
        cases h2 : env.dockerFault (rt.clock + 1) (.ContainerRemove cont.ID) with
        | some e => simp [ContainerStop, ContainerRemove, h1, h2, Runtime.serve] at h
        | none =>
          have hsr := stop_remove_ok env rt cont.ID h1 h2
          have hs : ContainerStop env rt cont.ID = ((ContainerStop env rt cont.ID).1, .ok ()) := by
            simp [ContainerStop, h1]
          rw [hs] at h ⊢
          simp only [hsr] at h ⊢
          obtain ⟨ih1, ih2, ih3⟩ := ih _ h
          refine ⟨?_, ih2, ih3⟩
          rw [ih1]
          simp only [List.filter_filter, List.any_cons]
          apply List.filter_congr
          intro c _
          by_cases hc : c.ID = cont.ID
          · simp [hc]
          · have : (cont.ID == c.ID) = false := by simpa using fun h => hc h.symm
            simp [hc, this]

/-- The second loop of `DeleteCluster` touches no container, whatever its outcome. -/
theorem removeNetworks_containers (env : Env) (ns : List Network) (rt : Runtime) :
    (removeNetworks env ns rt).1.containers = rt.containers := by
  induction ns generalizing rt with
  | nil => simp [removeNetworks]
  | cons n rest ih =>
    unfold removeNetworks
    cases h1 : env.dockerFault rt.clock (.NetworkRemove n.ID) with
    | some e => simp [NetworkRemove, h1, Runtime.serve]
    | none =>
      simp only [NetworkRemove, h1]
      rw [ih]
      simp [Runtime.serve]

/-- A successful second loop of `DeleteCluster` takes out of the daemon exactly the
networks that share an identifier with a listed one. -/
theorem removeNetworks_ok (env : Env) (ns : List Network) (rt : Runtime)
    (h : (removeNetworks env ns rt).2 = .ok ()) :
    (removeNetworks env ns rt).1.networks
      = rt.networks.filter (fun n => !ns.any (fun x => x.ID == n.ID)) := by
  induction ns generalizing rt with
  | nil => simp [removeNetworks]
  | cons n rest ih =>
    unfold removeNetworks at h ⊢
    cases h1 : env.dockerFault rt.clock (.NetworkRemove n.ID) with
    | some e => simp [NetworkRemove, h1] at h
    | none =>
      simp only [NetworkRemove, h1] at h ⊢
      rw [ih _ h]
      simp only [Runtime.serve, List.filter_filter, List.any_cons]
      apply List.filter_congr
      intro c _
      by_cases hc : c.ID = n.ID
      · simp [hc]
      · have : (n.ID == c.ID) = false := by simpa using fun h => hc h.symm
        simp [hc, this]

/-- What a successful `DeleteCluster` leaves in the daemon: the containers that
share no identifier with a container labelled with the cluster, and the networks
that share no identifier with a network labelled with the cluster. -/
theorem DeleteCluster_ok (env : Env) (cluster : Cluster) (rt : Runtime)
    (h : (DeleteCluster env cluster rt).2 = .ok ()) :
    (DeleteCluster env cluster rt).1.containers
        = rt.containers.filter
            (fun c => !(clusterContainers cluster rt).any (fun x => x.ID == c.ID))
      ∧ (DeleteCluster env cluster rt).1.networks
        = rt.networks.filter
            (fun n => !(labelledNetworks cluster rt).any (fun x => x.ID == n.ID)) := by
  unfold DeleteCluster at h ⊢
  cases h1 : env.dockerFault rt.clock (.ContainerList true (getClusterFilters cluster)) with
  | some e => simp [ContainerList, h1] at h
  | none =>
    rw [ContainerList_cluster env cluster rt h1] at h ⊢
    simp only at h ⊢
    rcases hs : stopAndRemove env (clusterContainers cluster rt)
      (rt.serve (.ContainerList true (getClusterFilters cluster))) with ⟨rt2, o⟩
    rw [hs] at h
    cases o with
    | err e => simp at h
    | panic m => simp at h
    | diverge => simp at h
    | ok u =>
      have hsr := stopAndRemove_ok env (clusterContainers cluster rt)
        (rt.serve (.ContainerList true (getClusterFilters cluster))) (by rw [hs])
      rw [hs] at hsr
      simp only [Runtime.serve] at hsr
      simp only at h ⊢
      cases h2 : env.dockerFault rt2.clock (.NetworkList (getClusterFilters cluster)) with
      | some e => simp [NetworkList, h2] at h
      | none =>
        simp only [NetworkList, h2] at h ⊢
        refine ⟨?_, ?_⟩
        · rw [removeNetworks_containers]
          simpa [Runtime.serve] using hsr.1
        · rw [removeNetworks_ok _ _ _ h]
          simp [Runtime.serve, hsr.2.1, labelledNetworks, Network.matchesFilter,
            getClusterFilters]

/-- After a successful `DeleteCluster` the daemon holds no container labelled with
the cluster. -/
theorem DeleteCluster_ok_containers (env : Env) (cluster : Cluster) (rt : Runtime)
    (h : (DeleteCluster env cluster rt).2 = .ok ()) :
    clusterContainers cluster (DeleteCluster env cluster rt).1 = [] := by
  unfold clusterContainers
  rw [(DeleteCluster_ok env cluster rt h).1, List.filter_filter, List.filter_eq_nil_iff]
  intro c hc
  simp only [Bool.and_eq_true, Bool.not_eq_true', not_and, Bool.not_eq_false]
  intro hl
  rw [List.any_eq_true]
  exact ⟨c, List.mem_filter.mpr ⟨hc, hl⟩, by simp⟩

/-- After a successful `DeleteCluster` the daemon holds no network labelled with
the cluster. -/
theorem DeleteCluster_ok_networks (env : Env) (cluster : Cluster) (rt : Runtime)
    (h : (DeleteCluster env cluster rt).2 = .ok ()) :
    labelledNetworks cluster (DeleteCluster env cluster rt).1 = [] := by
  unfold labelledNetworks
  rw [(DeleteCluster_ok env cluster rt h).2, List.filter_filter, List.filter_eq_nil_iff]
  intro c hc
  simp only [Bool.and_eq_true, Bool.not_eq_true', not_and, Bool.not_eq_false]
  intro hl
  rw [List.any_eq_true]
  exact ⟨c, List.mem_filter.mpr ⟨hc, hl⟩, by simp⟩

/-- On a daemon that holds no container and no network labelled with the cluster,
`DeleteCluster` issues its two list calls and returns nil. -/
theorem DeleteCluster_of_absent (env : Env) (cluster : Cluster) (rt : Runtime)
    (hl1 : env.dockerFault rt.clock (.ContainerList true (getClusterFilters cluster)) = none)
    (hl2 : env.dockerFault (rt.clock + 1) (.NetworkList (getClusterFilters cluster)) = none)
    (hc : clusterContainers cluster rt = []) (hn : labelledNetworks cluster rt = []) :
    DeleteCluster env cluster rt
      = ({ rt with
            clock := rt.clock + 2
            calls := rt.calls ++ [.ContainerList true (getClusterFilters cluster),
                                  .NetworkList (getClusterFilters cluster)] }, .ok ()) := by
  unfold DeleteCluster
  rw [ContainerList_cluster env cluster rt hl1, hc]
  unfold labelledNetworks at hn
  simp only [getClusterFilters] at hl2
  simp [stopAndRemove, NetworkList, Runtime.serve, hl2, Network.matchesFilter,
    getClusterFilters, hn, removeNetworks]

/-- Claim C11. If `DeleteCluster` returns without error, the daemon holds no
container labelled `cluster=<name>` afterwards, whatever the states of the
containers were, and `clusterExists`, when its listing is answered, returns
false. -/
theorem DeleteCluster_removes_containers (env : Env) (cluster : Cluster) (rt : Runtime)
    (h : (DeleteCluster env cluster rt).2 = .ok ()) :
    clusterContainers cluster (DeleteCluster env cluster rt).1 = []
      ∧ (env.dockerFault (DeleteCluster env cluster rt).1.clock
            (.ContainerList true (getClusterFilters cluster)) = none →
          (clusterExists env cluster (DeleteCluster env cluster rt).1).2 = .ok false) := by
  have hnil := DeleteCluster_ok_containers env cluster rt h
  refine ⟨hnil, fun hl => ?_⟩
  unfold clusterExists
  rw [ContainerList_cluster env cluster _ hl, hnil]
  rfl

/-- The daemon that holds the test cluster with one worker exited: after a
successful `DeleteCluster` no labelled container is left. -/
theorem DeleteCluster_removes_containers_witness :
    (DeleteCluster quietEnv testCluster stoppedRuntime).2 = .ok ()
      ∧ (clusterContainers testCluster stoppedRuntime).map (fun c => c.State)
          = ["running", "running", "exited"]
      ∧ clusterContainers testCluster (DeleteCluster quietEnv testCluster stoppedRuntime).1 = []
      ∧ (clusterExists quietEnv testCluster
          (DeleteCluster quietEnv testCluster stoppedRuntime).1).2 = .ok false :=
  ⟨by decide, by decide,
    (DeleteCluster_removes_containers quietEnv testCluster stoppedRuntime (by decide)).1,
    (DeleteCluster_removes_containers quietEnv testCluster stoppedRuntime (by decide)).2 rfl⟩

/-- Claim C12 refuted. Every call succeeding, `CreateCluster` of the test cluster on
an empty daemon and `DeleteCluster` on the result both return nil, and the labelled
containers are gone, but the network `cluster-test-docker-cluster-net` is still in
the daemon: it was created without labels and `DeleteCluster` lists the networks
to remove by the label `cluster=<name>`. -/
theorem DeleteCluster_keeps_network :
    (CreateCluster quietEnv mainProvider testCluster emptyRuntime).2 = .ok ()
      ∧ (DeleteCluster quietEnv testCluster
          (CreateCluster quietEnv mainProvider testCluster emptyRuntime).1).2 = .ok ()
      ∧ (DeleteCluster quietEnv testCluster
          (CreateCluster quietEnv mainProvider testCluster emptyRuntime).1).1.containers = []
      ∧ (clusterNetworks testCluster (DeleteCluster quietEnv testCluster
          (CreateCluster quietEnv mainProvider testCluster emptyRuntime).1).1).map
            (fun n => (n.Name, n.Labels)) = [("cluster-test-docker-cluster-net", [])] := by
  decide

/-- Claim C13. With the two list calls answered: on a daemon that holds no
container and no network labelled `cluster=<name>`, `DeleteCluster` returns nil,
the only calls it issues are the two list calls, and containers, networks and
created-resource count are unchanged; and so it is on the daemon any successful
`DeleteCluster` of the cluster has left. -/
theorem DeleteCluster_idempotent (env : Env) (cluster : Cluster) (rt : Runtime)
    (hl1 : env.dockerFault rt.clock (.ContainerList true (getClusterFilters cluster)) = none)
    (hl2 : env.dockerFault (rt.clock + 1) (.NetworkList (getClusterFilters cluster)) = none) :
    (clusterContainers cluster rt = [] → labelledNetworks cluster rt = [] →
        DeleteCluster env cluster rt
          = ({ rt with
                clock := rt.clock + 2
                calls := rt.calls ++ [.ContainerList true (getClusterFilters cluster),
                                      .NetworkList (getClusterFilters cluster)] }, .ok ()))
      ∧ (∀ rt0 : Runtime, DeleteCluster env cluster rt0 = (rt, .ok ()) →
        DeleteCluster env cluster rt
          = ({ rt with
                clock := rt.clock + 2
                calls := rt.calls ++ [.ContainerList true (getClusterFilters cluster),
                                      .NetworkList (getClusterFilters cluster)] }, .ok ())) := by
  refine ⟨DeleteCluster_of_absent env cluster rt hl1 hl2, fun rt0 h0 => ?_⟩
  have hok : (DeleteCluster env cluster rt0).2 = .ok () := by rw [h0]
  have hc := DeleteCluster_ok_containers env cluster rt0 hok
  have hn := DeleteCluster_ok_networks env cluster rt0 hok
  rw [h0] at hc hn
  exact DeleteCluster_of_absent env cluster rt hl1 hl2 hc hn

/-- A second `DeleteCluster` of the test cluster, after a first one that removed its
three containers, issues the two list calls and changes nothing else. -/
theorem DeleteCluster_idempotent_witness :
    (DeleteCluster quietEnv testCluster createdRuntime).2 = .ok ()
      ∧ DeleteCluster quietEnv testCluster (DeleteCluster quietEnv testCluster createdRuntime).1
        = ({ (DeleteCluster quietEnv testCluster createdRuntime).1 with
              clock := (DeleteCluster quietEnv testCluster createdRuntime).1.clock + 2
              calls := (DeleteCluster quietEnv testCluster createdRuntime).1.calls
                ++ [.ContainerList true (getClusterFilters testCluster),
                    .NetworkList (getClusterFilters testCluster)] }, .ok ()) :=
  ⟨by decide,
    (DeleteCluster_idempotent quietEnv testCluster
      (DeleteCluster quietEnv testCluster createdRuntime).1 rfl rfl).2 createdRuntime
      (by decide)⟩

/-! ## Updating a cluster -/

theorem tallyStep_workerCount (t : Tally) (c : Container) :
    (tallyStep t c).workerCount
      = if (c.State == "running" && hasLabel c.Labels "role" "worker") = true
        then wrapInt32 (t.workerCount + 1) else t.workerCount := by
  unfold tallyStep
  by_cases hrun : c.State = "running"
  · by_cases hc : labelOf c.Labels "role" = "control-plane"
    · have hw : hasLabel c.Labels "role" "worker" = false := by
        cases hh : hasLabel c.Labels "role" "worker" with
        | false => rfl
        | true =>
          have := (labelOf_eq_iff _ _ _ (by decide)).mpr hh
          rw [hc] at this; exact absurd this (by decide)
      simp [hrun, hc, hw]
    · by_cases hw : labelOf c.Labels "role" = "worker"
      · have hw' := (labelOf_eq_iff _ _ _ (by decide)).mp hw
        simp [hrun, hc, hw, hw']
      · have hw' : hasLabel c.Labels "role" "worker" = false := by
          cases hh : hasLabel c.Labels "role" "worker" with
          | false => rfl
          | true => exact absurd ((labelOf_eq_iff _ _ _ (by decide)).mpr hh) hw
        simp [hrun, hc, hw, hw']
  · simp [hrun]

theorem tallyStep_controlPlaneCount (t : Tally) (c : Container) :
    (tallyStep t c).controlPlaneCount
      = if (c.State == "running" && hasLabel c.Labels "role" "control-plane") = true
        then wrapInt32 (t.controlPlaneCount + 1) else t.controlPlaneCount := by
  unfold tallyStep
  by_cases hrun : c.State = "running"
  · by_cases hc : labelOf c.Labels "role" = "control-plane"
    · have hc' := (labelOf_eq_iff _ _ _ (by decide)).mp hc
      simp [hrun, hc, hc']
    · have hc' : hasLabel c.Labels "role" "control-plane" = false := by
        cases hh : hasLabel c.Labels "role" "control-plane" with
        | false => rfl
        | true => exact absurd ((labelOf_eq_iff _ _ _ (by decide)).mpr hh) hc
      by_cases hw : labelOf c.Labels "role" = "worker"
      · simp [hrun, hc, hw, hc']
      · simp [hrun, hc, hw, hc']
  · simp [hrun]

theorem tallyStep_allRunning (t : Tally) (c : Container) :
    (tallyStep t c).allRunning = (t.allRunning && c.State == "running") := by
  unfold tallyStep
  by_cases hrun : c.State = "running"
  · by_cases hc : labelOf c.Labels "role" = "control-plane"
    · simp [hrun, hc]
    · by_cases hw : labelOf c.Labels "role" = "worker"
      · simp [hrun, hc, hw]
      · simp [hrun, hc, hw]
  · simp [hrun]

/-- The worker counter of the loop of `GetClusterStatus` is the number of running
workers, as long as that number is in the `int32` range. -/
theorem foldl_tallyStep_workerCount (cs : List Container) (t : Tally)
    (h0 : 0 ≤ t.workerCount)
    (hb : t.workerCount + runningWithRole "worker" cs < 2147483648) :
    (cs.foldl tallyStep t).workerCount = t.workerCount + runningWithRole "worker" cs := by
  induction cs generalizing t with
  | nil => simp [runningWithRole]
  | cons c cs ih =>
    simp only [List.foldl_cons]
    simp only [runningWithRole, List.countP_cons] at hb ⊢
    have hstep := tallyStep_workerCount t c
    by_cases hp : (c.State == "running" && hasLabel c.Labels "role" "worker") = true
    · simp only [hp, if_true] at hstep hb ⊢
      push_cast at hb ⊢
      rw [wrapInt32_succ _ h0 (by unfold runningWithRole at *; omega)] at hstep
      rw [ih _ (by rw [hstep]; omega)
        (by rw [hstep]; unfold runningWithRole; omega), hstep]
      unfold runningWithRole
      omega
    · simp only [hp, if_false] at hstep hb ⊢
      rw [ih _ (by rw [hstep]; exact h0)
        (by rw [hstep]; unfold runningWithRole; simpa using hb), hstep]
      simp [runningWithRole]

/-- The control-plane counter of the loop of `GetClusterStatus` is the number of running
control-plane nodes, as long as that number is in the `int32` range. -/
theorem foldl_tallyStep_controlPlaneCount (cs : List Container) (t : Tally)
    (h0 : 0 ≤ t.controlPlaneCount)
    (hb : t.controlPlaneCount + runningWithRole "control-plane" cs < 2147483648) :
    (cs.foldl tallyStep t).controlPlaneCount
      = t.controlPlaneCount + runningWithRole "control-plane" cs := by
  induction cs generalizing t with
  | nil => simp [runningWithRole]
  | cons c cs ih =>
    simp only [List.foldl_cons]
    simp only [runningWithRole, List.countP_cons] at hb ⊢
    have hstep := tallyStep_controlPlaneCount t c
    by_cases hp : (c.State == "running" && hasLabel c.Labels "role" "control-plane") = true
    · simp only [hp, if_true] at hstep hb ⊢
      push_cast at hb ⊢
      rw [wrapInt32_succ _ h0 (by unfold runningWithRole at *; omega)] at hstep
      rw [ih _ (by rw [hstep]; omega)
        (by rw [hstep]; unfold runningWithRole; omega), hstep]
      unfold runningWithRole
      omega
    · simp only [hp, if_false] at hstep hb ⊢
      rw [ih _ (by rw [hstep]; exact h0)
        (by rw [hstep]; unfold runningWithRole; simpa using hb), hstep]
      simp [runningWithRole]

/-- The flag of the loop of `GetClusterStatus` says whether every container runs. -/
theorem foldl_tallyStep_allRunning (cs : List Container) (t : Tally) :
    (cs.foldl tallyStep t).allRunning
      = (t.allRunning && cs.all (fun c => c.State == "running")) := by
  induction cs generalizing t with
  | nil => simp
  | cons c cs ih =>
    simp only [List.foldl_cons, List.all_cons]
    rw [ih, tallyStep_allRunning, Bool.and_assoc]

/-- The worker count `GetClusterStatus` reports, in the `int32` range. -/
theorem statusOf_WorkersReady (containers : List Container) (spec : ClusterSpec)
    (hb : (runningWithRole "worker" containers : Int) < 2147483648) :
    (statusOf containers spec).WorkersReady = runningWithRole "worker" containers := by
  unfold statusOf
  simp only
  rw [foldl_tallyStep_workerCount _ _ (le_refl _) (by simpa using hb)]
  simp

/-- Claim C16. With the two listings answered: if the daemon holds a container
labelled with the cluster and the number of running workers equals
`spec.workers.count`, `UpdateCluster` returns nil, the only calls it issues are
the two listings, and containers, networks and created-resource count are
unchanged. Nothing else of the cluster is read: the control-plane count, the
version and the machine configs are arbitrary. -/
theorem UpdateCluster_same_workers (env : Env) (cluster : Cluster) (rt : Runtime)
    (hl1 : env.dockerFault rt.clock (.ContainerList true (getClusterFilters cluster)) = none)
    (hl2 : env.dockerFault (rt.clock + 1)
      (.ContainerList true (getClusterFilters cluster)) = none)
    (hex : clusterContainers cluster rt ≠ [])
    (hw : (runningWithRole "worker" (clusterContainers cluster rt) : Int)
      = cluster.Spec.Workers.Count)
    (hint : cluster.Spec.Workers.Count < 2147483648) :
    UpdateCluster env cluster rt
      = ({ rt with
            clock := rt.clock + 2
            calls := rt.calls ++ [.ContainerList true (getClusterFilters cluster),
                                  .ContainerList true (getClusterFilters cluster)] },
          .ok ()) := by
  have hpos : decide ((clusterContainers cluster rt).length > 0) = true := by
    simpa using List.length_pos.mpr hex
  have hsame : clusterContainers cluster
      (rt.serve (.ContainerList true (getClusterFilters cluster)))
      = clusterContainers cluster rt := rfl
  have hready := statusOf_WorkersReady (clusterContainers cluster rt) cluster.Spec
    (by rw [hw]; exact hint)
  unfold UpdateCluster clusterExists
  rw [ContainerList_cluster env cluster rt hl1]
  simp only [hpos]
  unfold GetClusterStatus
  rw [ContainerList_cluster env cluster _ hl2, hsame]
  simp only [hready, hw, if_true]
  simp [Runtime.serve]

/-- The daemon holding the test cluster, with its two running workers: a spec that
asks for two workers but three control-plane nodes of another size and another
version changes nothing. -/
theorem UpdateCluster_same_workers_witness :
    UpdateCluster quietEnv (resizedCluster 3 2) createdRuntime
      = ({ createdRuntime with
            clock := createdRuntime.clock + 2
            calls := createdRuntime.calls
              ++ [.ContainerList true (getClusterFilters (resizedCluster 3 2)),
                  .ContainerList true (getClusterFilters (resizedCluster 3 2))] },
          .ok ()) :=
  UpdateCluster_same_workers quietEnv (resizedCluster 3 2) createdRuntime rfl rfl
    (by decide) (by decide) (by decide)

/-! ## Operations on a cluster that does not exist -/

/-- Claim C14 refuted. On a daemon that holds nothing, every call succeeding, only
`UpdateCluster` of the test cluster returns `ErrClusterNotFound`: `DeleteCluster`
returns nil after its two list calls, and `GetClusterStatus` returns, without an
error, a status record whose phase is the string `NotFound`. -/
theorem missing_cluster_not_reported :
    clusterContainers testCluster emptyRuntime = []
      ∧ (UpdateCluster quietEnv testCluster emptyRuntime).2 = .err ErrClusterNotFound
      ∧ (DeleteCluster quietEnv testCluster emptyRuntime).2 = .ok ()
      ∧ (GetClusterStatus quietEnv testCluster emptyRuntime).2
        = .ok { ClusterStatus.zero with Phase := "NotFound" } := by
  decide

/-! ## The status of a cluster that was just created -/

theorem setState_running_of_running (id : String) (cs : List Container)
    (h : ∀ c ∈ cs, c.State = "running") : setState id "running" cs = cs := by
  unfold setState
  conv_rhs => rw [← List.map_id cs]
  apply List.map_congr_left
  intro c hc
  have := h c hc
  split
  · cases c; simp_all
  · rfl

theorem clusterContainers_setState (cluster : Cluster) (id state : String)
    (cs : List Container) :
    (setState id state cs).filter (fun c => hasLabel c.Labels "cluster" cluster.ObjectMeta.Name)
      = setState id state
          (cs.filter (fun c => hasLabel c.Labels "cluster" cluster.ObjectMeta.Name)) := by
  unfold setState
  rw [List.filter_map]
  congr 1
  apply List.filter_congr
  intro c _
  simp only [Function.comp]
  split <;> rfl

/-- A node that was created successfully on a daemon whose containers of the
cluster all run is one more container of the cluster, running, with the labels
of the cluster and the role. -/
theorem createNode_ok_cluster (env : Env) (cluster : Cluster)
    (nodeName role networkID : String) (mc : MachineConfig) (rt : Runtime)
    (h : (createNode env cluster nodeName role networkID mc rt).2 = .ok ())
    (hrun : ∀ c ∈ clusterContainers cluster rt, c.State = "running") :
    ∃ cont : Container, cont.State = "running"
      ∧ cont.Labels = [("cluster", cluster.ObjectMeta.Name), ("role", role)]
      ∧ clusterContainers cluster (createNode env cluster nodeName role networkID mc rt).1
        = clusterContainers cluster rt ++ [cont] := by
  revert h
  cases h1 : env.dockerFault rt.clock
      (.ImagePull ("kindest/node:" ++ cluster.Spec.KubernetesVersion)) with
  | some e => simp [createNode, ImagePull, h1]
  | none =>
    cases h2 : env.dockerFault (rt.clock + 1) (.ContainerCreate nodeName) with
    | some e => simp [createNode, ImagePull, h1, ContainerCreate, Runtime.serve, h2]
    | none =>
      cases h3 : env.dockerFault (rt.clock + 1 + 1) (.ContainerStart (env.newID rt.created)) with
      | some e =>
        simp [createNode, ImagePull, h1, ContainerCreate, Runtime.serve, h2, ContainerStart, h3]
      | none =>
        simp only [createNode, ImagePull, h1, ContainerCreate, Runtime.serve, h2,
          ContainerStart, h3, clusterContainers]
        intro _
        rw [clusterContainers_setState cluster, List.filter_append]
        unfold clusterContainers at hrun
        have hl : hasLabel [("cluster", cluster.ObjectMeta.Name), ("role", role)] "cluster"
            cluster.ObjectMeta.Name = true := by
          simp [hasLabel, List.lookup]
        simp only [List.filter_cons, hl, if_true, List.filter_nil]
        have hset : ∀ c0 : Container, c0.ID = env.newID rt.created →
            setState (env.newID rt.created) "running"
              (rt.containers.filter
                (fun c => hasLabel c.Labels "cluster" cluster.ObjectMeta.Name) ++ [c0])
            = rt.containers.filter
                (fun c => hasLabel c.Labels "cluster" cluster.ObjectMeta.Name)
              ++ [{ c0 with State := "running" }] := by
          intro c0 hc0
          have := setState_running_of_running (env.newID rt.created) _ hrun
          unfold setState at this ⊢
          rw [List.map_append, this]
          simp [hc0]
        rw [hset _ rfl]
        exact ⟨_, rfl, rfl, rfl⟩

/-- A node loop of `CreateCluster` that succeeds on a daemon whose containers of
the cluster all run adds `n` containers of the cluster, running, with the role. -/
theorem createNodes_ok_cluster (env : Env) (cluster : Cluster) (role what networkID : String)
    (mc : MachineConfig) (n : Nat) (i : Int) (rt : Runtime)
    (hok : (createNodes env cluster role what networkID mc n i rt).2 = .ok ())
    (hrun : ∀ c ∈ clusterContainers cluster rt, c.State = "running") :
    ∃ added : List Container, added.length = n
      ∧ (∀ c ∈ added, c.State = "running"
          ∧ c.Labels = [("cluster", cluster.ObjectMeta.Name), ("role", role)])
      ∧ clusterContainers cluster (createNodes env cluster role what networkID mc n i rt).1
        = clusterContainers cluster rt ++ added := by
  induction n generalizing i rt with
  | zero => exact ⟨[], rfl, by simp, by simp [createNodes]⟩
  | succ n ih =>
    have hnode := createNode_ok_cluster env cluster (getNodeName cluster role i) role
      networkID mc rt
    rcases hc : createNode env cluster (getNodeName cluster role i) role networkID mc rt
      with ⟨rt1, o⟩
    rw [hc] at hnode
    cases o with
    | ok u =>
      simp only [createNodes, hc] at hok ⊢
      obtain ⟨cont, hstate, hlabels, hlist⟩ := hnode rfl hrun
      simp only at hlist
      have hrun1 : ∀ c ∈ clusterContainers cluster rt1, c.State = "running" := by
        intro c hc
        rw [hlist, List.mem_append, List.mem_singleton] at hc
        rcases hc with hc | hc
        · exact hrun c hc
        · rw [hc]; exact hstate
      obtain ⟨added, hlen, hall, heq⟩ := ih (i + 1) rt1 hok hrun1
      refine ⟨cont :: added, by simp [hlen], ?_, ?_⟩
      · intro c hc
        rcases List.mem_cons.mp hc with hc | hc
        · rw [hc]; exact ⟨hstate, hlabels⟩
        · exact hall c hc
      · rw [heq, hlist, List.append_assoc]; rfl
    | err e =>
      simp only [createNodes, hc] at hok
      rcases hd : DeleteCluster env cluster rt1 with ⟨rt2, o2⟩
      rw [hd] at hok
      cases o2 <;> simp at hok
    | panic m => simp [createNodes, hc] at hok
    | diverge => simp [createNodes, hc] at hok

/-- The network step of `CreateCluster` touches no container, whatever its outcome. -/
theorem createNetwork_containers (env : Env) (p : DockerProvider) (cluster : Cluster)
    (rt : Runtime) : (createNetwork env p cluster rt).1.containers = rt.containers := by
  unfold createNetwork
  cases h1 : env.dockerFault rt.clock (.NetworkList (.name (getClusterNetworkName cluster))) with
  | some e => simp [NetworkList, h1, Runtime.serve]
  | none =>
    simp only [NetworkList, h1]
    cases hf : rt.networks.filter
        (fun n => n.matchesFilter env (.name (getClusterNetworkName cluster))) with
    | cons n ns => simp [Runtime.serve]
    | nil =>
      simp only
      cases hg : getNetworkGateway env p.config.Spec.Network.CIDR with
      | err e => simp [Runtime.serve]
      | panic m => simp [Runtime.serve]
      | diverge => simp [Runtime.serve]
      | ok gateway =>
        simp only
        cases h2 : env.dockerFault (rt.clock + 1)
            (.NetworkCreate (getClusterNetworkName cluster)) with
        | some e => simp [NetworkCreate, h2, Runtime.serve]
        | none => simp [NetworkCreate, h2, Runtime.serve]

/-- After a successful `CreateCluster` the containers of the cluster are the
control-plane nodes followed by the workers, as many as the spec asks for, all
running. -/
theorem CreateCluster_ok_cluster (env : Env) (p : DockerProvider) (cluster : Cluster)
    (rt : Runtime) (hok : (CreateCluster env p cluster rt).2 = .ok ()) :
    ∃ cps ws : List Container,
      cps.length = cluster.Spec.ControlPlane.Count.toNat
      ∧ ws.length = cluster.Spec.Workers.Count.toNat
      ∧ (∀ c ∈ cps, c.State = "running"
          ∧ c.Labels = [("cluster", cluster.ObjectMeta.Name), ("role", "control-plane")])
      ∧ (∀ c ∈ ws, c.State = "running"
          ∧ c.Labels = [("cluster", cluster.ObjectMeta.Name), ("role", "worker")])
      ∧ clusterContainers cluster (CreateCluster env p cluster rt).1 = cps ++ ws := by
  unfold CreateCluster at hok ⊢
  cases h1 : env.dockerFault rt.clock (.ContainerList true (getClusterFilters cluster)) with
  | some e => simp [clusterExists, ContainerList, h1] at hok
  | none =>
    unfold clusterExists at hok ⊢
    rw [ContainerList_cluster env cluster rt h1] at hok ⊢
    simp only at hok ⊢
    cases hcs : clusterContainers cluster rt with
    | cons c cs => simp [hcs] at hok
    | nil =>
      simp only [hcs, List.length_nil, gt_iff_lt, Nat.lt_irrefl, decide_False] at hok ⊢
      have hnc := createNetwork_containers env p cluster
        (rt.serve (.ContainerList true (getClusterFilters cluster)))
      rcases hn : createNetwork env p cluster
        (rt.serve (.ContainerList true (getClusterFilters cluster))) with ⟨rt2, o⟩
      rw [hn] at hok hnc
      cases o with
      | err e => simp at hok
      | panic m => simp at hok
      | diverge => simp at hok
      | ok networkID =>
        simp only at hok hnc ⊢
        have h2 : clusterContainers cluster rt2 = [] := by
          unfold clusterContainers at hcs ⊢
          rw [hnc]; exact hcs
        have hcp := createNodes_ok_cluster env cluster "control-plane" "control plane node"
          networkID cluster.Spec.ControlPlane.MachineConfig
          cluster.Spec.ControlPlane.Count.toNat 0 rt2
        rcases hc : createNodes env cluster "control-plane" "control plane node" networkID
          cluster.Spec.ControlPlane.MachineConfig cluster.Spec.ControlPlane.Count.toNat 0 rt2
          with ⟨rt3, o3⟩
        rw [hc] at hok hcp
        cases o3 with
        | err e => simp at hok
        | panic m => simp at hok
        | diverge => simp at hok
        | ok u =>
          simp only at hok ⊢
          obtain ⟨cps, hlen, hall, heq⟩ := hcp rfl (by rw [h2]; simp)
          simp only [h2, List.nil_append] at heq
          obtain ⟨ws, hlenw, hallw, heqw⟩ := createNodes_ok_cluster env cluster "worker"
            "worker node" networkID cluster.Spec.Workers.MachineConfig
            cluster.Spec.Workers.Count.toNat 0 rt3 hok
            (by rw [heq]; exact fun c hc => (hall c hc).1)
          exact ⟨cps, ws, hlen, hlenw, hall, hallw, by rw [heqw, heq]⟩

theorem runningWithRole_of_labels (name role role' : String) (cs : List Container)
    (h : ∀ c ∈ cs, c.State = "running" ∧ c.Labels = [("cluster", name), ("role", role')]) :
    runningWithRole role cs = if role' = role then cs.length else 0 := by
  unfold runningWithRole
  split
  · next heq =>
    rw [List.countP_eq_length]
    intro c hc
    obtain ⟨hs, hl⟩ := h c hc
    simp [hs, hl, hasLabel, List.lookup, heq]
  · next hne =>
    rw [List.countP_eq_zero]
    intro c hc
    obtain ⟨hs, hl⟩ := h c hc
    simp [hs, hl, hasLabel, List.lookup, hne]

/-- The status `GetClusterStatus` computes from containers that all run and whose
counts per role are those of the spec. -/
theorem statusOf_running (containers : List Container) (spec : ClusterSpec)
    (hne : containers ≠ [])
    (hall : ∀ c ∈ containers, c.State = "running")
    (hcp : (runningWithRole "control-plane" containers : Int) = spec.ControlPlane.Count)
    (hwk : (runningWithRole "worker" containers : Int) = spec.Workers.Count)
    (hcpb : spec.ControlPlane.Count < 2147483648) (hwkb : spec.Workers.Count < 2147483648) :
    statusOf containers spec
      = { ClusterStatus.zero with
          Phase := "Running", ControlPlaneReady := true, WorkersReady := spec.Workers.Count } := by
  have h1 := foldl_tallyStep_controlPlaneCount containers
    { controlPlaneCount := 0, workerCount := 0, allRunning := true } (le_refl _)
    (by simp only [zero_add]; rw [hcp]; exact hcpb)
  have h2 := foldl_tallyStep_workerCount containers
    { controlPlaneCount := 0, workerCount := 0, allRunning := true } (le_refl _)
    (by simp only [zero_add]; rw [hwk]; exact hwkb)
  have h3 := foldl_tallyStep_allRunning containers
    { controlPlaneCount := 0, workerCount := 0, allRunning := true }
  have h4 : containers.all (fun c => c.State == "running") = true := by
    rw [List.all_eq_true]
    intro c hc
    simp [hall c hc]
  simp only [zero_add, Bool.true_and] at h1 h2 h3
  rw [hcp] at h1
  rw [hwk] at h2
  rw [h4] at h3
  have hlen : containers.length ≠ 0 := fun h => hne (List.length_eq_zero.mp h)
  unfold statusOf
  simp only [h1, h2, h3, hlen]
  simp

/-- Claim C17. For a spec with `controlPlane.count = c >= 1` and
`workers.count = w >= 0` (both `int32`): after a successful `CreateCluster`, the
containers it started being in state `running` as the daemon left them,
`GetClusterStatus`, its listing answered, returns phase `Running`,
`controlPlaneReady = true` and `workersReady = w`; the daemon then holds `c`
running control-plane containers and `w` running workers of the cluster, and no
other container of the cluster. -/
theorem CreateCluster_then_Running (env : Env) (p : DockerProvider) (cluster : Cluster)
    (rt : Runtime)
    (hc : 1 ≤ cluster.Spec.ControlPlane.Count)
    (hcb : cluster.Spec.ControlPlane.Count < 2147483648)
    (hw : 0 ≤ cluster.Spec.Workers.Count)
    (hwb : cluster.Spec.Workers.Count < 2147483648)
    (hok : (CreateCluster env p cluster rt).2 = .ok ())
    (hlist : env.dockerFault (CreateCluster env p cluster rt).1.clock
      (.ContainerList true (getClusterFilters cluster)) = none) :
    (GetClusterStatus env cluster (CreateCluster env p cluster rt).1).2
        = .ok { ClusterStatus.zero with
                Phase := "Running", ControlPlaneReady := true,
                WorkersReady := cluster.Spec.Workers.Count }
      ∧ (runningWithRole "control-plane"
            (clusterContainers cluster (CreateCluster env p cluster rt).1) : Int)
          = cluster.Spec.ControlPlane.Count
      ∧ (runningWithRole "worker"
            (clusterContainers cluster (CreateCluster env p cluster rt).1) : Int)
          = cluster.Spec.Workers.Count
      ∧ ((clusterContainers cluster (CreateCluster env p cluster rt).1).length : Int)
          = cluster.Spec.ControlPlane.Count + cluster.Spec.Workers.Count := by
  obtain ⟨cps, ws, hlc, hlw, hcps, hws, heq⟩ := CreateCluster_ok_cluster env p cluster rt hok
  have hcpc : (runningWithRole "control-plane" (cps ++ ws) : Int)
      = cluster.Spec.ControlPlane.Count := by
    unfold runningWithRole
    rw [List.countP_append]
    have a := runningWithRole_of_labels cluster.ObjectMeta.Name "control-plane" _ cps hcps
    have b := runningWithRole_of_labels cluster.ObjectMeta.Name "control-plane" _ ws hws
    unfold runningWithRole at a b
    rw [a, b]
    simp only [if_true, show ¬ ("worker" = "control-plane") by decide, if_false, add_zero, hlc]
    exact Int.toNat_of_nonneg (by omega)
  have hwkc : (runningWithRole "worker" (cps ++ ws) : Int) = cluster.Spec.Workers.Count := by
    unfold runningWithRole
    rw [List.countP_append]
    have a := runningWithRole_of_labels cluster.ObjectMeta.Name "worker" _ cps hcps
    have b := runningWithRole_of_labels cluster.ObjectMeta.Name "worker" _ ws hws
    unfold runningWithRole at a b
    rw [a, b]
    simp only [if_true, show ¬ ("control-plane" = "worker") by decide, if_false, zero_add, hlw]
    exact Int.toNat_of_nonneg hw
  have hne : cps ++ ws ≠ [] := by
    intro h
    have : (cps ++ ws).length = 0 := by rw [h]; rfl
    rw [List.length_append, hlc] at this
    omega
  have hall : ∀ c ∈ cps ++ ws, c.State = "running" := by
    intro c hc
    rcases List.mem_append.mp hc with h | h
    · exact (hcps c h).1
    · exact (hws c h).1
  refine ⟨?_, ?_, ?_, ?_⟩
  · unfold GetClusterStatus
    rw [ContainerList_cluster env cluster _ hlist, heq]
    simp only [statusOf_running _ _ hne hall hcpc hwkc hcb hwb]
  · rw [heq]; exact hcpc
  · rw [heq]; exact hwkc
  · rw [heq, List.length_append, hlc, hlw]
    push_cast
    rw [Int.toNat_of_nonneg (by omega), Int.toNat_of_nonneg hw]

/-- The test cluster, with one control-plane node and two workers, on an empty
daemon. -/
theorem CreateCluster_then_Running_witness :
    (GetClusterStatus quietEnv testCluster
        (CreateCluster quietEnv mainProvider testCluster emptyRuntime).1).2
      = .ok { ClusterStatus.zero with
              Phase := "Running", ControlPlaneReady := true, WorkersReady := 2 } :=
  (CreateCluster_then_Running quietEnv mainProvider testCluster emptyRuntime
    (by decide) (by decide) (by decide) (by decide) (by decide) rfl).1

/-! ## Decimal numerals -/

theorem digitChar_isDigit (d : Nat) (h : d < 10) :
    (Nat.digitChar d).isDigit = true ∧ (Nat.digitChar d).toNat - 48 = d := by
  interval_cases d <;> decide

theorem toDigitsCore_append (fuel n : Nat) (ds : List Char) :
    Nat.toDigitsCore 10 fuel n ds = Nat.toDigitsCore 10 fuel n [] ++ ds := by
  induction fuel generalizing n ds with
  | zero => simp [Nat.toDigitsCore]
  | succ fuel ih =>
    simp only [Nat.toDigitsCore]
    split
    · simp
    · rw [ih (n / 10) (Nat.digitChar (n % 10) :: ds), ih (n / 10) [Nat.digitChar (n % 10)]]
      simp

/-- The digits `Nat.toDigits` writes are decimal digits, and read back, most
significant first, they give the number. -/
theorem toDigitsCore_spec (fuel n : Nat) (h : n < fuel) :
    (∀ c ∈ Nat.toDigitsCore 10 fuel n [], c.isDigit = true)
      ∧ (Nat.toDigitsCore 10 fuel n []).foldl
          (fun (a : Int) c => a * 10 + ((c.toNat - 48 : Nat) : Int)) 0 = n
      ∧ Nat.toDigitsCore 10 fuel n [] ≠ [] := by
  induction fuel generalizing n with
  | zero => omega
  | succ fuel ih =>
    have hd := digitChar_isDigit (n % 10) (Nat.mod_lt _ (by decide))
    simp only [Nat.toDigitsCore]
    split
    · next h0 =>
      have hn : n % 10 = n := by omega
      refine ⟨?_, ?_, by simp⟩
      · intro c hc
        rw [List.mem_singleton] at hc
        rw [hc]; exact hd.1
      · simp only [List.foldl_cons, List.foldl_nil, hd.2]
        omega
    · next h0 =>
      obtain ⟨ih1, ih2, -⟩ := ih (n / 10) (by omega)
      rw [toDigitsCore_append]
      refine ⟨?_, ?_, by simp⟩
      · intro c hc
        rcases List.mem_append.mp hc with hc | hc
        · exact ih1 c hc
        · rw [List.mem_singleton] at hc
          rw [hc]; exact hd.1
      · rw [List.foldl_append, ih2]
        simp only [List.foldl_cons, List.foldl_nil, hd.2]
        omega

theorem toString_data_isDigit (n : Nat) : ∀ c ∈ (toString n).data, c.isDigit = true :=
  (toDigitsCore_spec (n + 1) n (Nat.lt_succ_self n)).1

theorem toString_data_value (n : Nat) :
    (toString n).data.foldl (fun (a : Int) c => a * 10 + ((c.toNat - 48 : Nat) : Int)) 0 = n :=
  (toDigitsCore_spec (n + 1) n (Nat.lt_succ_self n)).2.1

theorem toString_data_ne_nil (n : Nat) : (toString n).data ≠ [] :=
  (toDigitsCore_spec (n + 1) n (Nat.lt_succ_self n)).2.2

/-- Two numbers with the same decimal numeral are equal. -/
theorem toString_nat_injective (m n : Nat) (h : toString m = toString n) : m = n := by
  have hm := toString_data_value m
  rw [h, toString_data_value n] at hm
  exact_mod_cast hm.symm

/-- A decimal numeral followed by anything that does not start with a digit is
read by `leadingDigits` as the number. -/
theorem leadingDigits_toString (n : Nat) (rest : String)
    (h : ∀ c, rest.data.head? = some c → c.isDigit = false) :
    leadingDigits (toString n ++ rest) = some (n : Int) := by
  unfold leadingDigits
  have htw : (toString n ++ rest).data.takeWhile Char.isDigit = (toString n).data := by
    rw [String.data_append, List.takeWhile_append_of_pos (toString_data_isDigit n)]
    cases hr : rest.data with
    | nil => simp
    | cons c cs =>
      have := h c (by rw [hr]; rfl)
      simp [List.takeWhile_cons, this]
  simp only [htw, toString_data_ne_nil n, if_false, toString_data_value]

/-! ## Memory strings with a recognised suffix -/

theorem isDigit_toUpper (c : Char) (h : c.isDigit = true) : c.toUpper = c := by
  unfold Char.toUpper
  unfold Char.isDigit at h
  simp only [Bool.and_eq_true, decide_eq_true_eq] at h
  have h2 : c.toNat ≤ 57 := h.2
  have h3 : ¬ (c.toNat ≥ 97 ∧ c.toNat ≤ 122) := by omega
  simp only [h3, if_false]

theorem HasSuffix_append_same_length (ds a b : List Char) (h : a.length = b.length) :
    HasSuffix (String.mk (ds ++ b)) (String.mk a) = decide (a = b) := by
  unfold HasSuffix
  by_cases hab : a = b
  · subst hab
    simp
  · simp only [hab, decide_False]
    rw [Bool.eq_false_iff]
    intro hs
    rw [List.isSuffixOf_iff_suffix] at hs
    obtain ⟨t, ht⟩ := hs
    exact hab (List.append_inj' ht h).2

/-- A decimal numeral followed by one letter does not end in `KMG`. -/
theorem not_HasSuffix_KMG (n : Nat) (letter : Char) :
    HasSuffix (String.mk ((toString n).data ++ [letter])) "KMG" = false := by
  unfold HasSuffix
  rw [Bool.eq_false_iff]
  intro hs
  rw [List.isSuffixOf_iff_suffix] at hs
  obtain ⟨t, ht⟩ := hs
  have ht2 : (t ++ ['K', 'M']) ++ ['G'] = (toString n).data ++ [letter] := by
    rw [List.append_assoc]; exact ht
  have h3 := (List.append_inj' ht2 rfl).1
  have hM : 'M' ∈ (toString n).data := by rw [← h3]; simp
  exact absurd (toString_data_isDigit n 'M' hM) (by decide)

/-- Claim C18. For a number `n`, a unit letter among `K`, `M`, `G` and a suffix that
is the letter followed by `I` in any letter case, with `n` times the multiplier
in the `int64` range: if `strings.ToUpper` upper-cases the string
`decimal(n) ++ suffix` character by character and `fmt.Sscanf` with `%d` reads
`n` from the numeral followed by the unit letter, `parseMemory` returns `n` times
the multiplier of the letter. -/
theorem parseMemory_decimal (env : Env) (n : Nat) (suffix : String) (letter : Char)
    (hletter : letter = 'K' ∨ letter = 'M' ∨ letter = 'G')
    (hcase : suffix.data.map Char.toUpper = [letter, 'I'])
    (hfit : (n : Int) * unitMultiplier letter < 9223372036854775808)
    (hU : env.ToUpper (toString n ++ suffix)
      = String.mk ((toString n ++ suffix).data.map Char.toUpper))
    (hS : env.SscanInt (toString n ++ String.mk [letter]) = some (n : Int)) :
    parseMemory env (toString n ++ suffix) = n * unitMultiplier letter := by
  have hup : env.ToUpper (toString n ++ suffix)
      = String.mk ((toString n).data ++ [letter, 'I']) := by
    rw [hU, String.data_append, List.map_append, hcase]
    congr 2
    conv_rhs => rw [← List.map_id (toString n).data]
    exact List.map_congr_left (fun c hc => isDigit_toUpper c (toString_data_isDigit n c hc))
  have hsuf : ∀ a : List Char, a.length = 2 →
      HasSuffix (String.mk ((toString n).data ++ [letter, 'I'])) (String.mk a)
        = decide (a = [letter, 'I']) :=
    fun a ha => HasSuffix_append_same_length _ a _ (by rw [ha]; rfl)
  have hI : TrimSuffix (String.mk ((toString n).data ++ [letter, 'I'])) "I"
      = String.mk ((toString n).data ++ [letter]) := by
    have h1 : HasSuffix (String.mk ((toString n).data ++ [letter, 'I'])) "I" = true := by
      have := HasSuffix_append_same_length ((toString n).data ++ [letter]) ['I'] ['I'] rfl
      simpa using this
    unfold TrimSuffix
    rw [if_pos h1]
    congr 1
    have : ((toString n).data ++ [letter, 'I']).length - "I".data.length
        = ((toString n).data ++ [letter]).length := by
      simp [String.data]
    show List.take (((toString n).data ++ [letter, 'I']).length - "I".data.length)
      ((toString n).data ++ [letter, 'I']) = _
    rw [this, show (toString n).data ++ [letter, 'I']
      = ((toString n).data ++ [letter]) ++ ['I'] by simp, List.take_left]
  have hKMG : TrimSuffix (String.mk ((toString n).data ++ [letter])) "KMG"
      = String.mk ((toString n).data ++ [letter]) := by
    unfold TrimSuffix
    rw [not_HasSuffix_KMG]
    simp
  have hval : String.mk ((toString n).data ++ [letter]) = toString n ++ String.mk [letter] := by
    apply String.ext
    rw [String.data_append]
  have hn : (0 : Int) ≤ n := Int.ofNat_nonneg n
  have hvalue : TrimSuffix (TrimSuffix (String.mk ((toString n).data ++ [letter, 'I'])) "I")
      "KMG" = toString n ++ String.mk [letter] := by
    rw [hI, hKMG, hval]
  unfold parseMemory
  simp only [hup, hvalue, hS, Option.getD_some]
  rcases hletter with h | h | h
  · subst h
    rw [show ("KI" : String) = String.mk ['K', 'I'] from rfl, hsuf ['K', 'I'] rfl]
    simp only [decide_True, if_true]
    simp only [unitMultiplier, if_true] at hfit ⊢
    unfold wrapInt64; omega
  · subst h
    rw [show ("KI" : String) = String.mk ['K', 'I'] from rfl, hsuf ['K', 'I'] rfl,
      show ("MI" : String) = String.mk ['M', 'I'] from rfl, hsuf ['M', 'I'] rfl]
    simp only [show ¬ (['K', 'I'] = ['M', 'I']) by decide, decide_False, decide_True,
      Bool.false_eq_true, if_true, if_false]
    simp only [unitMultiplier, show ¬ ('M' = 'K') by decide, if_true, if_false] at hfit ⊢
    unfold wrapInt64; omega
  · subst h
    rw [show ("KI" : String) = String.mk ['K', 'I'] from rfl, hsuf ['K', 'I'] rfl,
      show ("MI" : String) = String.mk ['M', 'I'] from rfl, hsuf ['M', 'I'] rfl,
      show ("GI" : String) = String.mk ['G', 'I'] from rfl, hsuf ['G', 'I'] rfl]
    simp only [show ¬ (['K', 'I'] = ['G', 'I']) by decide,
      show ¬ (['M', 'I'] = ['G', 'I']) by decide, decide_False, decide_True,
      Bool.false_eq_true, if_true, if_false]
    simp only [unitMultiplier, show ¬ ('G' = 'K') by decide, show ¬ ('G' = 'M') by decide,
      if_true, if_false] at hfit ⊢
    unfold wrapInt64; omega

/-- The strings `2Gi`, `512Mi` and `1Ki`, and `3kI` for the letter case. -/
theorem parseMemory_decimal_witness :
    parseMemory quietEnv "2Gi" = 2147483648 ∧ parseMemory quietEnv "512Mi" = 536870912
      ∧ parseMemory quietEnv "1Ki" = 1024 ∧ parseMemory quietEnv "3kI" = 3072 :=
  ⟨parseMemory_decimal quietEnv 2 "Gi" 'G' (by decide) (by decide) (by decide) (by decide)
      (by decide),
   parseMemory_decimal quietEnv 512 "Mi" 'M' (by decide) (by decide) (by decide) (by decide)
      (by decide),
   parseMemory_decimal quietEnv 1 "Ki" 'K' (by decide) (by decide) (by decide) (by decide)
      (by decide),
   parseMemory_decimal quietEnv 3 "kI" 'K' (by decide) (by decide) (by decide) (by decide)
      (by decide)⟩

/-! ## Scaling a cluster down -/

theorem mem_descFrom (i : Int) (n : Nat) (j : Int) :
    j ∈ descFrom i n ↔ i - n < j ∧ j ≤ i := by
  induction n generalizing i with
  | zero => simp [descFrom]
  | succ n ih =>
    simp only [descFrom, List.mem_cons, ih]
    push_cast
    omega

theorem WellFormed_filter (cs : List Container) (q : Container → Bool) (h : WellFormed cs) :
    WellFormed (cs.filter q) :=
  ⟨h.1.sublist ((List.filter_sublist cs).map _), h.2.1.sublist ((List.filter_sublist cs).map _),
    fun x hx => h.2.2 x (List.mem_filter.mp hx).1⟩

/-- In a well-formed daemon a container named `nm` has this one name. -/
theorem WellFormed_names (cs : List Container) (h : WellFormed cs) (x : Container)
    (hx : x ∈ cs) (nm : String) (hn : x.isNamed nm = true) : x.Names = ["/" ++ nm] := by
  have h1 := h.2.2 x hx
  unfold Container.isNamed at hn
  cases hN : x.Names with
  | nil => rw [hN] at h1; simp at h1
  | cons s rest =>
    rw [hN] at h1 hn
    cases rest with
    | cons t ts => simp at h1
    | nil =>
      have : "/" ++ nm = s := by simpa using hn
      rw [this]

/-- In a well-formed daemon two containers with the same name are the same. -/
theorem WellFormed_unique_name (cs : List Container) (h : WellFormed cs) (x y : Container)
    (hx : x ∈ cs) (hy : y ∈ cs) (nm : String)
    (hxn : x.isNamed nm = true) (hyn : y.isNamed nm = true) : x = y :=
  List.inj_on_of_nodup_map h.2.1 hx hy
    (by rw [WellFormed_names cs h x hx nm hxn, WellFormed_names cs h y hy nm hyn])

theorem getNodeName_injective (cluster : Cluster) (role : String) (i j : Int)
    (hi : 0 ≤ i) (hj : 0 ≤ j)
    (h : getNodeName cluster role i = getNodeName cluster role j) : i = j := by
  unfold getNodeName at h
  have h2 := congrArg String.data h
  simp only [String.data_append, List.append_assoc] at h2
  have h3 := List.append_cancel_left (List.append_cancel_left (List.append_cancel_left
    (List.append_cancel_left (List.append_cancel_left h2))))
  obtain ⟨a, rfl⟩ := Int.eq_ofNat_of_zero_le hi
  obtain ⟨b, rfl⟩ := Int.eq_ofNat_of_zero_le hj
  have h4 : toString a = toString b := String.ext h3
  rw [toString_nat_injective a b h4]

theorem getNodeName_head (cluster : Cluster) (role : String) (i : Int) :
    (getNodeName cluster role i).data.head? = some 'c' := by
  unfold getNodeName
  simp only [String.data_append, List.append_assoc]
  rfl

/-- With an exact name filter, the containers of a well-formed daemon the filter
reports for a node name are the containers of that name. -/
theorem matchesFilter_name (env : Env) (cs : List Container) (nm : String)
    (hname : ∀ pat name, env.nameMatch pat name = (pat == name || "/" ++ pat == name))
    (hwf : WellFormed cs) (hnm : nm.data.head? = some 'c') (x : Container) (hx : x ∈ cs) :
    x.matchesFilter env (.name nm) = x.isNamed nm := by
  have h1 := hwf.2.2 x hx
  unfold Container.matchesFilter Container.isNamed
  cases hN : x.Names with
  | nil => rfl
  | cons s rest =>
    rw [hN] at h1
    cases rest with
    | cons t ts => simp at h1
    | nil =>
      simp only [List.map_cons, List.map_nil, List.cons.injEq, and_true] at h1
      have hne : (nm == s) = false := by
        rw [beq_eq_false_iff_ne]
        intro h
        rw [h, h1] at hnm
        exact absurd hnm (by decide)
      by_cases hs : "/" ++ nm = s <;> simp [hname, hne, hs]

theorem find?_filter_of_imp {α : Type} (l : List α) (p q : α → Bool)
    (h : ∀ y ∈ l, p y = true → q y = true) : (l.filter q).find? p = l.find? p := by
  rw [List.find?_filter]
  induction l with
  | nil => rfl
  | cons a l ih =>
    have ha := h a (List.mem_cons_self _ _)
    simp only [List.find?_cons]
    cases hp : p a with
    | true => simp [ha hp]
    | false =>
      simp only [Bool.false_eq_true, and_false, decide_False]
      exact ih (fun y hy => h y (List.mem_cons_of_mem _ hy))

theorem find?_of_filter_eq_nil {α : Type} (l : List α) (p : α → Bool)
    (h : l.filter p = []) : l.find? p = none := by
  rw [List.find?_eq_none]
  intro x hx hp
  have : x ∈ l.filter p := List.mem_filter.mpr ⟨hx, hp⟩
  rw [h] at this
  exact List.not_mem_nil _ this

theorem find?_of_filter_eq_cons {α : Type} (l : List α) (p : α → Bool) (x : α)
    (rest : List α) (h : l.filter p = x :: rest) : l.find? p = some x := by
  induction l with
  | nil => simp at h
  | cons a l ih =>
    simp only [List.filter_cons] at h
    simp only [List.find?_cons]
    cases hp : p a with
    | true =>
      rw [hp] at h
      simp only [if_true, List.cons.injEq] at h
      rw [h.1]
    | false =>
      rw [hp] at h
      simp only [Bool.false_eq_true, if_false] at h
      exact ih h

/-- The scale-down loop on a well-formed daemon with an exact name filter, every
call succeeding: for each index in descending order the worker of that name, if
there is one, is stopped and removed; the containers that are left are those
named for none of the indices, as they were. -/
theorem scaleDown_spec (env : Env) (cluster : Cluster)
    (hcalls : ∀ k call, env.dockerFault k call = none)
    (hname : ∀ pat name, env.nameMatch pat name = (pat == name || "/" ++ pat == name))
    (n : Nat) (i : Int) (rt : Runtime) (hwf : WellFormed rt.containers)
    (hi : (n : Int) ≤ i + 1) :
    (scaleDown env cluster n i rt).2 = .ok ()
      ∧ (scaleDown env cluster n i rt).1.containers
          = rt.containers.filter (fun x =>
              !(descFrom i n).any (fun j => x.isNamed (getNodeName cluster "worker" j)))
      ∧ (scaleDown env cluster n i rt).1.calls
          = rt.calls ++ (descFrom i n).flatMap (removalCalls cluster rt.containers)
      ∧ (scaleDown env cluster n i rt).1.networks = rt.networks
      ∧ (scaleDown env cluster n i rt).1.created = rt.created := by
  induction n generalizing i rt with
  | zero => simp [scaleDown, descFrom]
  | succ n ih =>
    have hlist : ContainerList env rt true (.name (getNodeName cluster "worker" i))
        = (rt.serve (.ContainerList true (.name (getNodeName cluster "worker" i))),
            .ok (rt.containers.filter
              (fun x => x.isNamed (getNodeName cluster "worker" i)))) := by
      unfold ContainerList
      rw [hcalls]
      simp only [Bool.true_or, Bool.true_and]
      rw [List.filter_congr (fun x hx => matchesFilter_name env _ _ hname hwf
        (getNodeName_head cluster "worker" i) x hx)]
    have hi' : (n : Int) ≤ i - 1 + 1 := by push_cast at hi; omega
    unfold scaleDown
    simp only [hlist]
    cases hf : rt.containers.filter
        (fun x => x.isNamed (getNodeName cluster "worker" i)) with
    | nil =>
      simp only
      obtain ⟨h1, h2, h3, h4, h5⟩ := ih (i - 1)
        (rt.serve (.ContainerList true (.name (getNodeName cluster "worker" i)))) hwf hi'
      refine ⟨h1, ?_, ?_, h4, h5⟩
      · rw [h2]
        simp only [Runtime.serve, descFrom, List.any_cons]
        apply List.filter_congr
        intro y hy
        have hy2 : y.isNamed (getNodeName cluster "worker" i) = false := by
          cases hh : y.isNamed (getNodeName cluster "worker" i) with
          | false => rfl
          | true =>
            have : y ∈ rt.containers.filter
                (fun x => x.isNamed (getNodeName cluster "worker" i)) :=
              List.mem_filter.mpr ⟨hy, hh⟩
            rw [hf] at this
            exact absurd this (List.not_mem_nil _)
        rw [hy2, Bool.false_or]
      · rw [h3]
        simp only [Runtime.serve, descFrom, List.flatMap_cons, removalCalls,
          find?_of_filter_eq_nil _ _ hf, List.append_assoc, List.singleton_append]
    | cons x rest =>
      simp only
      have hxf : x ∈ rt.containers.filter
          (fun x => x.isNamed (getNodeName cluster "worker" i)) := by
        rw [hf]; exact List.mem_cons_self _ _
      obtain ⟨hx, hxn⟩ := List.mem_filter.mp hxf
      have hsr := stop_remove_ok env
        (rt.serve (.ContainerList true (.name (getNodeName cluster "worker" i)))) x.ID
        (hcalls _ _) (hcalls _ _)
      have hs : ContainerStop env
          (rt.serve (.ContainerList true (.name (getNodeName cluster "worker" i)))) x.ID
          = ((ContainerStop env
              (rt.serve (.ContainerList true (.name (getNodeName cluster "worker" i))))
              x.ID).1, .ok ()) := by
        simp [ContainerStop, hcalls]
      rw [hs]
      simp only [hsr]
      obtain ⟨h1, h2, h3, h4, h5⟩ := ih (i - 1)
        { rt.serve (.ContainerList true (.name (getNodeName cluster "worker" i))) with
          containers := (rt.serve (.ContainerList true
            (.name (getNodeName cluster "worker" i)))).containers.filter
              (fun c => c.ID != x.ID)
          clock := (rt.serve (.ContainerList true
            (.name (getNodeName cluster "worker" i)))).clock + 2
          calls := (rt.serve (.ContainerList true
            (.name (getNodeName cluster "worker" i)))).calls
              ++ [.ContainerStop x.ID, .ContainerRemove x.ID] }
        (WellFormed_filter _ (fun c => c.ID != x.ID) hwf) hi'
      have key1 : ∀ y ∈ rt.containers,
          (y.ID != x.ID) = !(y.isNamed (getNodeName cluster "worker" i)) := by
        intro y hy
        by_cases hid : y.ID = x.ID
        · have : y = x := List.inj_on_of_nodup_map hwf.1 hy hx hid
          rw [this, hxn]; simp
        · cases hh : y.isNamed (getNodeName cluster "worker" i) with
          | false => simpa using hid
          | true =>
            exact absurd (congrArg Container.ID
              (WellFormed_unique_name _ hwf y x hy hx _ hh hxn)) hid
      have key2 : ∀ j ∈ descFrom (i - 1) n, ∀ y ∈ rt.containers,
          y.isNamed (getNodeName cluster "worker" j) = true → (y.ID != x.ID) = true := by
        intro j hj y hy hyn
        rw [mem_descFrom] at hj
        rw [key1 y hy]
        cases hh : y.isNamed (getNodeName cluster "worker" i) with
        | false => rfl
        | true =>
          have e1 := WellFormed_names _ hwf y hy _ hh
          have e2 := WellFormed_names _ hwf y hy _ hyn
          rw [e1] at e2
          have e3 : getNodeName cluster "worker" i = getNodeName cluster "worker" j := by
            have := congrArg String.data (List.cons.inj e2).1
            simp only [String.data_append] at this
            exact String.ext (List.append_cancel_left this)
          have := getNodeName_injective cluster "worker" i j (by omega) (by omega) e3
          omega
      refine ⟨h1, ?_, ?_, h4, h5⟩
      · rw [h2]
        simp only [Runtime.serve, descFrom, List.any_cons, List.filter_filter]
        apply List.filter_congr
        intro y hy
        rw [key1 y hy, Bool.not_or, Bool.and_comm]
      · rw [h3]
        simp only [Runtime.serve, descFrom, List.flatMap_cons, removalCalls,
          find?_of_filter_eq_cons _ _ _ _ hf, List.append_assoc, List.singleton_append,
          List.cons_append, List.nil_append]
        congr 4
        apply List.flatMap_congr
        intro j hj
        simp only [removalCalls]
        rw [find?_filter_of_imp _ _ _ (key2 j hj)]

/-- The scale-down over an exact name filter, which the Docker daemon does not
have. On a daemon whose containers have unique identifiers and names and whose
name filter is exact, for a cluster with `c` running workers
(`c` in the `int32` range) and `spec.workers.count = d` with `0 <= d < c`, the
cluster network being found and every call succeeding: `UpdateCluster` returns
nil; after its two listings and the network lookup, the calls it issues are, for
the indices `c-1, c-2, ..., d` in this order, the lookup of the worker named for
the index followed, if the worker is there, by its stop and its removal, and
nothing else; the containers left are those named for none of these indices,
unchanged; no network is touched and nothing is created. -/
theorem UpdateCluster_scale_down (env : Env) (cluster : Cluster) (rt : Runtime) (c d : Nat)
    (hcalls : ∀ k call, env.dockerFault k call = none)
    (hname : ∀ pat name, env.nameMatch pat name = (pat == name || "/" ++ pat == name))
    (hwf : WellFormed rt.containers)
    (hc : runningWithRole "worker" (clusterContainers cluster rt) = c)
    (hcb : c < 2147483648)
    (hd : cluster.Spec.Workers.Count = d) (hdc : d < c)
    (hnet : rt.networks.filter
      (fun n => n.matchesFilter env (.name (getClusterNetworkName cluster))) ≠ []) :
    (UpdateCluster env cluster rt).2 = .ok ()
      ∧ (UpdateCluster env cluster rt).1.calls
          = rt.calls
            ++ [.ContainerList true (getClusterFilters cluster),
                .ContainerList true (getClusterFilters cluster),
                .NetworkList (.name (getClusterNetworkName cluster))]
            ++ (descending c d).flatMap (removalCalls cluster rt.containers)
      ∧ (UpdateCluster env cluster rt).1.containers
          = rt.containers.filter (fun x =>
              !(descending c d).any (fun j => x.isNamed (getNodeName cluster "worker" j)))
      ∧ (UpdateCluster env cluster rt).1.networks = rt.networks
      ∧ (UpdateCluster env cluster rt).1.created = rt.created := by
  have hex : clusterContainers cluster rt ≠ [] := by
    intro h
    rw [h] at hc
    simp [runningWithRole] at hc
    omega
  have hpos : decide ((clusterContainers cluster rt).length > 0) = true := by
    simpa using List.length_pos.mpr hex
  have hsame : clusterContainers cluster
      (rt.serve (.ContainerList true (getClusterFilters cluster)))
      = clusterContainers cluster rt := rfl
  have hready := statusOf_WorkersReady (clusterContainers cluster rt) cluster.Spec
    (by rw [hc]; exact_mod_cast hcb)
  have hne : ¬ ((c : Int) = (d : Int)) := by omega
  have hgt : ¬ ((d : Int) > (c : Int)) := by omega
  have hmin : ¬ ((d : Int) = -2147483648) := by omega
  have hwrap : wrapInt32 ((c : Int) - 1) = (c : Int) - 1 := by unfold wrapInt32; omega
  have hcount : ((c : Int) - (d : Int)).toNat = c - d := by omega
  unfold UpdateCluster clusterExists
  rw [ContainerList_cluster env cluster rt (hcalls _ _)]
  simp only [hpos]
  unfold GetClusterStatus
  rw [ContainerList_cluster env cluster _ (hcalls _ _), hsame]
  simp only [hready, hc, hd, hne, if_false]
  unfold NetworkList
  rw [hcalls]
  simp only
  cases hn : rt.networks.filter
      (fun n => n.matchesFilter env (.name (getClusterNetworkName cluster))) with
  | nil => exact absurd hn hnet
  | cons net rest =>
    simp only [Runtime.serve, hn, hgt, hmin, if_false, hwrap, hcount]
    obtain ⟨h1, h2, h3, h4, h5⟩ := scaleDown_spec env cluster hcalls hname (c - d)
      ((c : Int) - 1)
      { containers := rt.containers, networks := rt.networks, clock := rt.clock + 1 + 1 + 1,
        created := rt.created,
        calls := rt.calls ++ [.ContainerList true (getClusterFilters cluster)]
          ++ [.ContainerList true (getClusterFilters cluster)]
          ++ [.NetworkList (.name (getClusterNetworkName cluster))] }
      hwf (by omega)
    refine ⟨h1, ?_, h2, h4, h5⟩
    rw [h3]
    simp [descending]

/-- The two scale-downs of the specification: from three workers to one, the
workers of indices 2 and 1 are stopped and removed, in this order, and worker 0
and the control-plane container are left; from two workers to none, both workers
are removed and the control-plane container is left. -/
theorem UpdateCluster_scale_down_witness :
    ((UpdateCluster quietEnv (resizedCluster 1 1) threeWorkersRuntime).2 = .ok ()
        ∧ (UpdateCluster quietEnv (resizedCluster 1 1) threeWorkersRuntime).1.calls
          = threeWorkersRuntime.calls
            ++ [.ContainerList true (getClusterFilters (resizedCluster 1 1)),
                .ContainerList true (getClusterFilters (resizedCluster 1 1)),
                .NetworkList (.name (getClusterNetworkName (resizedCluster 1 1)))]
            ++ (descending 3 1).flatMap
                (removalCalls (resizedCluster 1 1) threeWorkersRuntime.containers)
        ∧ descending 3 1 = [2, 1]
        ∧ (UpdateCluster quietEnv (resizedCluster 1 1) threeWorkersRuntime).1.containers
          = threeWorkersRuntime.containers.filter (fun x =>
              x.Names = ["/cluster-test-docker-cluster-control-plane-0"]
                ∨ x.Names = ["/cluster-test-docker-cluster-worker-0"]))
      ∧ (UpdateCluster quietEnv (resizedCluster 1 0) createdRuntime).2 = .ok ()
      ∧ descending 2 0 = [1, 0]
      ∧ (UpdateCluster quietEnv (resizedCluster 1 0) createdRuntime).1.containers
          = createdRuntime.containers.filter (fun x =>
              x.Names = ["/cluster-test-docker-cluster-control-plane-0"]) :=
  ⟨⟨(UpdateCluster_scale_down quietEnv (resizedCluster 1 1) threeWorkersRuntime 3 1
        (fun _ _ => rfl) (fun _ _ => rfl) (by decide) (by decide) (by decide) (by decide)
        (by decide) (by decide)).1,
      (UpdateCluster_scale_down quietEnv (resizedCluster 1 1) threeWorkersRuntime 3 1
        (fun _ _ => rfl) (fun _ _ => rfl) (by decide) (by decide) (by decide) (by decide)
        (by decide) (by decide)).2.1,
      by decide, by decide⟩,
    (UpdateCluster_scale_down quietEnv (resizedCluster 1 0) createdRuntime 2 0
      (fun _ _ => rfl) (fun _ _ => rfl) (by decide) (by decide) (by decide) (by decide)
      (by decide) (by decide)).1,
    by decide, by decide⟩

/-- The scale-down reaching into another cluster. The name filter of the daemon
reports every container whose name contains the pattern. The daemon holds a
second cluster
named `staging-cluster-test-docker-cluster`; the test cluster has one running
worker, of index 1, its worker of index 0 being absent, and its spec asks for no
worker. Every call succeeds, identifiers and names are unique. `UpdateCluster`
returns nil, but for index 0 it stops and removes worker 0 of the other
cluster. -/
theorem UpdateCluster_scale_down_other_cluster :
    WellFormed sharedRuntime.containers
      ∧ runningWithRole "worker" (clusterContainers (resizedCluster 1 0) sharedRuntime) = 1
      ∧ sharedRuntime.containers.map (fun x => x.Names)
        = [["/cluster-staging-cluster-test-docker-cluster-control-plane-0"],
           ["/cluster-staging-cluster-test-docker-cluster-worker-0"],
           ["/cluster-staging-cluster-test-docker-cluster-worker-1"],
           ["/cluster-test-docker-cluster-control-plane-0"],
           ["/cluster-test-docker-cluster-worker-1"]]
      ∧ (UpdateCluster partialMatchEnv (resizedCluster 1 0) sharedRuntime).2 = .ok ()
      ∧ (UpdateCluster partialMatchEnv (resizedCluster 1 0) sharedRuntime).1.containers.map
          (fun x => x.Names)
        = [["/cluster-staging-cluster-test-docker-cluster-control-plane-0"],
           ["/cluster-staging-cluster-test-docker-cluster-worker-1"],
           ["/cluster-test-docker-cluster-control-plane-0"],
           ["/cluster-test-docker-cluster-worker-1"]] := by
  decide

/-! ## Phases in which the reconciler does nothing -/

theorem dispatch_failed {σ : Type} (senv : StoreEnv) (prov : Provider σ) (c : Cluster)
    (w : World σ) (hdel : IsZero c.ObjectMeta.DeletionTimestamp = true)
    (hphase : c.Status.Phase = ClusterPhaseFailed) :
    dispatch senv prov c w = (w, .ok { RequeueAfter := 300 }) := by
  simp [dispatch, hdel, hphase, handleFailedPhase,
    show ClusterPhaseFailed ≠ ClusterPhasePending by decide,
    show ClusterPhaseFailed ≠ ClusterPhaseProvisioning by decide,
    show ClusterPhaseFailed ≠ ClusterPhaseRunning by decide]

theorem dispatch_default {σ : Type} (senv : StoreEnv) (prov : Provider σ) (c : Cluster)
    (w : World σ) (hdel : IsZero c.ObjectMeta.DeletionTimestamp = true)
    (h1 : c.Status.Phase ≠ ClusterPhasePending) (h2 : c.Status.Phase ≠ ClusterPhaseProvisioning)
    (h3 : c.Status.Phase ≠ ClusterPhaseRunning) (h4 : c.Status.Phase ≠ ClusterPhaseFailed) :
    dispatch senv prov c w = (w, .ok {}) := by
  simp [dispatch, hdel, h1, h2, h3, h4]

/-- Claim C23. For a cluster persisted in phase `Failed`, without a deletion
marker and with the finalizer token, the store answering the read: `Reconcile`
returns the result with `RequeueAfter = 300` and no error, the only thing that
changes is the count of calls the store has served; no provider method is
invoked, nothing is written, the provider state and the persisted object, with
its phase and message, are as before. -/
theorem Reconcile_failed {σ : Type} (senv : StoreEnv) (prov : Provider σ)
    (req : NamespacedName) (w : World σ) (c : Cluster)
    (hf : senv.storeFault w.store.clock (.Get req) = none)
    (hfind : w.store.find req = some c)
    (hphase : c.Status.Phase = ClusterPhaseFailed)
    (hdel : IsZero c.ObjectMeta.DeletionTimestamp = true)
    (htok : containsString c.ObjectMeta.Finalizers clusterFinalizer = true) :
    Reconcile senv prov req w
        = ({ w with store := w.store.tick }, .ok { RequeueAfter := 300 })
      ∧ newEvents w (Reconcile senv prov req w).1 = []
      ∧ (Reconcile senv prov req w).1.provider = w.provider
      ∧ (Reconcile senv prov req w).1.store.find req = some c := by
  have hne : c.Status.Phase ≠ "" := by rw [hphase]; decide
  have h : Reconcile senv prov req w
      = ({ w with store := w.store.tick }, .ok { RequeueAfter := 300 }) := by
    rw [Reconcile_found senv prov req w c hf hfind, initPhase_set _ _ _ _ hne,
      ensureFinalizer_present _ _ _ _ htok, dispatch_failed _ _ _ _ hdel hphase]
  rw [h]
  exact ⟨rfl, by simp [newEvents], rfl, hfind⟩

/-- A cluster persisted in phase `Failed` with a message, the Docker provider on
a daemon that holds its containers. -/
theorem Reconcile_failed_witness :
    Reconcile quietStore (dockerProvider quietEnv mainProvider) testKey
        (worldOf failedCluster createdRuntime)
      = ({ worldOf failedCluster createdRuntime with
            store := (worldOf failedCluster createdRuntime).store.tick },
          .ok { RequeueAfter := 300 }) :=
  (Reconcile_failed quietStore (dockerProvider quietEnv mainProvider) testKey
    (worldOf failedCluster createdRuntime) failedCluster rfl (by decide) (by decide)
    (by decide) (by decide)).1

/-- Claim C30. For a cluster without a deletion marker, with the finalizer token,
persisted in a phase that is not empty and is none of `Pending`, `Provisioning`,
`Running`, `Failed`, the store answering the read: `Reconcile` returns the empty
result (no error, no re-invocation requested), and the only thing that changes
is the count of calls the store has served; no provider method is invoked,
nothing is written, the persisted object is as before. -/
theorem Reconcile_unknown_phase {σ : Type} (senv : StoreEnv) (prov : Provider σ)
    (req : NamespacedName) (w : World σ) (c : Cluster)
    (hf : senv.storeFault w.store.clock (.Get req) = none)
    (hfind : w.store.find req = some c)
    (h0 : c.Status.Phase ≠ "")
    (h1 : c.Status.Phase ≠ ClusterPhasePending) (h2 : c.Status.Phase ≠ ClusterPhaseProvisioning)
    (h3 : c.Status.Phase ≠ ClusterPhaseRunning) (h4 : c.Status.Phase ≠ ClusterPhaseFailed)
    (hdel : IsZero c.ObjectMeta.DeletionTimestamp = true)
    (htok : containsString c.ObjectMeta.Finalizers clusterFinalizer = true) :
    Reconcile senv prov req w = ({ w with store := w.store.tick }, .ok {})
      ∧ newEvents w (Reconcile senv prov req w).1 = []
      ∧ (Reconcile senv prov req w).1.provider = w.provider
      ∧ (Reconcile senv prov req w).1.store.find req = some c := by
  have h : Reconcile senv prov req w = ({ w with store := w.store.tick }, .ok {}) := by
    rw [Reconcile_found senv prov req w c hf hfind, initPhase_set _ _ _ _ h0,
      ensureFinalizer_present _ _ _ _ htok, dispatch_default _ _ _ _ hdel h1 h2 h3 h4]
  rw [h]
  exact ⟨rfl, by simp [newEvents], rfl, hfind⟩

/-- The phases `Updating` and `Starting`. -/
theorem Reconcile_unknown_phase_witness :
    Reconcile quietStore (dockerProvider quietEnv mainProvider) testKey
          (worldOf (testClusterWith [clusterFinalizer] none "Updating") createdRuntime)
        = ({ worldOf (testClusterWith [clusterFinalizer] none "Updating") createdRuntime with
              store := (worldOf (testClusterWith [clusterFinalizer] none "Updating")
                createdRuntime).store.tick }, .ok {})
      ∧ Reconcile quietStore (dockerProvider quietEnv mainProvider) testKey
          (worldOf (testClusterWith [clusterFinalizer] none "Starting") createdRuntime)
        = ({ worldOf (testClusterWith [clusterFinalizer] none "Starting") createdRuntime with
              store := (worldOf (testClusterWith [clusterFinalizer] none "Starting")
                createdRuntime).store.tick }, .ok {}) :=
  ⟨(Reconcile_unknown_phase quietStore (dockerProvider quietEnv mainProvider) testKey
      (worldOf (testClusterWith [clusterFinalizer] none "Updating") createdRuntime)
      (testClusterWith [clusterFinalizer] none "Updating") rfl (by decide) (by decide)
      (by decide) (by decide) (by decide) (by decide) (by decide) (by decide)).1,
    (Reconcile_unknown_phase quietStore (dockerProvider quietEnv mainProvider) testKey
      (worldOf (testClusterWith [clusterFinalizer] none "Starting") createdRuntime)
      (testClusterWith [clusterFinalizer] none "Starting") rfl (by decide) (by decide)
      (by decide) (by decide) (by decide) (by decide) (by decide) (by decide)).1⟩

/-! ## Validation of a cluster spec -/

/-- Claim C24. `ValidateClusterSpec` returns `ErrInvalidConfig` for a nil spec; for
a spec that is not nil it returns nil exactly when the version is not empty,
`controlPlane.count >= 1` and `workers.count >= 0`, and otherwise the error of the
first condition violated, in the order version, control plane, workers; the spec
behind the pointer is the same afterwards. -/
theorem ValidateClusterSpec_spec (spec : ClusterSpec) :
    (ValidateClusterSpec none).2 = .err ErrInvalidConfig
      ∧ ((ValidateClusterSpec (some spec)).2 = .ok () ↔ validSpec spec)
      ∧ (spec.KubernetesVersion = "" →
          (ValidateClusterSpec (some spec)).2 = .err (.new "kubernetes version is required"))
      ∧ (spec.KubernetesVersion ≠ "" → spec.ControlPlane.Count < 1 →
          (ValidateClusterSpec (some spec)).2
            = .err (.new "at least one control plane node is required"))
      ∧ (spec.KubernetesVersion ≠ "" → 1 ≤ spec.ControlPlane.Count → spec.Workers.Count < 0 →
          (ValidateClusterSpec (some spec)).2 = .err (.new "worker count cannot be negative"))
      ∧ (ValidateClusterSpec (some spec)).1 = some spec
      ∧ (ValidateClusterSpec none).1 = none := by
  unfold validSpec
  refine ⟨rfl, ?_, ?_, ?_, ?_, ?_, rfl⟩
  · unfold ValidateClusterSpec
    by_cases h1 : spec.KubernetesVersion = ""
    · simp [h1]
    · by_cases h2 : spec.ControlPlane.Count < 1
      · simp [h1, h2]
      · by_cases h3 : spec.Workers.Count < 0
        · simp [h1, h2, h3]
        · simp only [h1, h2, h3, if_false, true_iff]
          exact ⟨by simpa using h1, by omega, by omega⟩
  · intro h1
    simp [ValidateClusterSpec, h1]
  · intro h1 h2
    simp [ValidateClusterSpec, h1, h2]
  · intro h1 h2 h3
    have h2' : ¬ spec.ControlPlane.Count < 1 := by omega
    simp [ValidateClusterSpec, h1, h2', h3]
  · unfold ValidateClusterSpec
    simp only
    split <;> [rfl; (split <;> [rfl; (split <;> rfl)])]

/-- The spec of the test cluster is accepted; without a version, with no
control-plane node, or with a negative worker count it is refused, a spec with
all three defects for the missing version. -/
theorem ValidateClusterSpec_spec_witness :
    (ValidateClusterSpec (some testCluster.Spec)).2 = .ok ()
      ∧ (ValidateClusterSpec (some { testCluster.Spec with KubernetesVersion := "" })).2
        = .err (.new "kubernetes version is required")
      ∧ (ValidateClusterSpec (some (resizedCluster 0 2).Spec)).2
        = .err (.new "at least one control plane node is required")
      ∧ (ValidateClusterSpec (some (resizedCluster 1 (-1)).Spec)).2
        = .err (.new "worker count cannot be negative")
      ∧ (ValidateClusterSpec (some { (resizedCluster 0 (-1)).Spec with
            KubernetesVersion := "" })).2
        = .err (.new "kubernetes version is required") :=
  ⟨(ValidateClusterSpec_spec testCluster.Spec).2.1.mpr (by decide),
    (ValidateClusterSpec_spec { testCluster.Spec with KubernetesVersion := "" }).2.2.1 rfl,
    (ValidateClusterSpec_spec (resizedCluster 0 2).Spec).2.2.2.1 (by decide) (by decide),
    (ValidateClusterSpec_spec (resizedCluster 1 (-1)).Spec).2.2.2.2.1 (by decide) (by decide)
      (by decide),
    (ValidateClusterSpec_spec { (resizedCluster 0 (-1)).Spec with
      KubernetesVersion := "" }).2.2.1 rfl⟩

/-! ## Panics and integer overflow in the provider -/

/-- Claim C21 refuted. For a string `net.ParseCIDR` refuses, `getNetworkGateway`
returns the empty string. For the IPv6 CIDR `fd00::/64` it panics: `To4` returns
nil and `ip[3]++` indexes it; `CreateCluster` of a provider configured with this
CIDR panics with it. `DeleteCluster` panics when the daemon lists a container
whose identifier has fewer than 12 characters, on the slice `cont.ID[:12]` of its
log line. -/
theorem provider_panics :
    getNetworkGateway ipv6Env "10.10.0.0/33" = .ok ""
      ∧ getNetworkGateway ipv6Env "fd00::/64" = .panic "index out of range [3] with length 0"
      ∧ (CreateCluster ipv6Env ipv6Provider testCluster emptyRuntime).2
        = .panic "index out of range [3] with length 0"
      ∧ (DeleteCluster quietEnv testCluster shortIDRuntime).2
        = .panic "slice bounds out of range [:12]" := by
  decide

/-- Claim C26 refuted. The container `createNode` creates gets `Memory` equal to
`parseMemory` of the memory string, but `NanoCPUs` is the `int32` product
`cpuCount * 1e9` converted to `int64` afterwards: for `cpuCount = 4` it is
-294967296, not 4000000000. The product is exact for `cpuCount` 1 and 2 only. -/
theorem createNode_nanoCPUs_wraps :
    (∀ cpus : Int,
        (createNode quietEnv testCluster "cluster-test-docker-cluster-worker-0" "worker"
          "5f2d8c1a9b3e0" { Memory := "4Gi", CPUCount := cpus } emptyRuntime).1.containers.map
            (fun c => c.Memory) = [parseMemory quietEnv "4Gi"])
      ∧ (createNode quietEnv testCluster "cluster-test-docker-cluster-worker-0" "worker"
          "5f2d8c1a9b3e0" { Memory := "4Gi", CPUCount := 4 } emptyRuntime).1.containers.map
            (fun c => c.NanoCPUs) = [-294967296]
      ∧ (4 : Int) * 1000000000 = 4000000000
      ∧ (createNode quietEnv testCluster "cluster-test-docker-cluster-worker-0" "worker"
          "5f2d8c1a9b3e0" { Memory := "4Gi", CPUCount := 3 } emptyRuntime).1.containers.map
            (fun c => c.NanoCPUs) = [-1294967296]
      ∧ (createNode quietEnv testCluster "cluster-test-docker-cluster-worker-0" "worker"
          "5f2d8c1a9b3e0" { Memory := "4Gi", CPUCount := 2 } emptyRuntime).1.containers.map
            (fun c => c.NanoCPUs) = [2000000000] :=
  ⟨fun _ => rfl, by decide, by decide, by decide, by decide⟩

/-! ## Names of nodes and networks -/

/-- Two lists that agree after a separator which their tails do not contain have
the same tails and the same heads. -/
theorem append_sep_inj (sep : Char) (l1 l2 r1 r2 : List Char)
    (h1 : sep ∉ r1) (h2 : sep ∉ r2) (h : l1 ++ sep :: r1 = l2 ++ sep :: r2) :
    l1 = l2 ∧ r1 = r2 := by
  have hr := congrArg List.reverse h
  simp only [List.reverse_append, List.reverse_cons, List.append_assoc,
    List.singleton_append] at hr
  have key : ∀ (a b x y : List Char), sep ∉ a → sep ∉ b →
      a ++ sep :: x = b ++ sep :: y → a = b ∧ x = y := by
    intro a
    induction a with
    | nil =>
      intro b x y _ hb hab
      cases b with
      | nil => simpa using hab
      | cons c cs =>
        simp only [List.nil_append, List.cons_append, List.cons.injEq] at hab
        exact absurd (hab.1 ▸ List.mem_cons_self _ _) hb
    | cons c cs ih =>
      intro b x y ha hb hab
      cases b with
      | nil =>
        simp only [List.nil_append, List.cons_append, List.cons.injEq] at hab
        exact absurd (hab.1 ▸ List.mem_cons_self _ _) ha
      | cons d ds =>
        simp only [List.cons_append, List.cons.injEq] at hab
        obtain ⟨e1, e2⟩ := ih ds x y (fun hm => ha (List.mem_cons_of_mem _ hm))
          (fun hm => hb (List.mem_cons_of_mem _ hm)) hab.2
        exact ⟨by rw [hab.1, e1], e2⟩
  obtain ⟨e1, e2⟩ := key r1.reverse r2.reverse l1.reverse l2.reverse
    (by simpa using h1) (by simpa using h2) hr
  exact ⟨List.reverse_injective e2, List.reverse_injective e1⟩

theorem toString_data_no_dash (n : Nat) : '-' ∉ (toString n).data :=
  fun h => absurd (toString_data_isDigit n '-' h) (by decide)

theorem toString_int_of_nonneg (i : Int) (hi : 0 ≤ i) : toString i = toString i.toNat := by
  obtain ⟨a, rfl⟩ := Int.eq_ofNat_of_zero_le hi
  rfl

/-- Claim C28. `getNodeName` returns `cluster-<name>-<role>-<index>` and
`getClusterNetworkName` returns `cluster-<name>-net`. For the roles
`control-plane` and `worker` and indices from 0 on, equal node names have the
same cluster name, the same role and the same index, whatever the cluster names
are; and a node name is never the network name of a cluster. -/
theorem getNodeName_identity (c1 c2 : Cluster) (r1 r2 : String) (i1 i2 : Int)
    (hr1 : r1 = "control-plane" ∨ r1 = "worker") (hr2 : r2 = "control-plane" ∨ r2 = "worker")
    (hi1 : 0 ≤ i1) (hi2 : 0 ≤ i2) :
    getNodeName c1 r1 i1
        = "cluster-" ++ c1.ObjectMeta.Name ++ "-" ++ r1 ++ "-" ++ toString i1
      ∧ getClusterNetworkName c1 = "cluster-" ++ c1.ObjectMeta.Name ++ "-net"
      ∧ (getNodeName c1 r1 i1 = getNodeName c2 r2 i2 →
          c1.ObjectMeta.Name = c2.ObjectMeta.Name ∧ r1 = r2 ∧ i1 = i2)
      ∧ getNodeName c1 r1 i1 ≠ getClusterNetworkName c2 := by
  refine ⟨rfl, rfl, ?_, ?_⟩
  · intro h
    unfold getNodeName at h
    rw [toString_int_of_nonneg i1 hi1, toString_int_of_nonneg i2 hi2] at h
    have hd := congrArg String.data h
    simp only [String.data_append] at hd
    have hd2 : ("cluster-".data ++ c1.ObjectMeta.Name.data ++ "-".data ++ r1.data)
        ++ '-' :: (toString i1.toNat).data
        = ("cluster-".data ++ c2.ObjectMeta.Name.data ++ "-".data ++ r2.data)
        ++ '-' :: (toString i2.toNat).data := by
      simpa using hd
    obtain ⟨e1, e2⟩ := append_sep_inj '-' _ _ _ _ (toString_data_no_dash _)
      (toString_data_no_dash _) hd2
    have hi : i1 = i2 := by
      have := toString_nat_injective _ _ (String.ext e2)
      omega
    simp only [List.append_assoc] at e1
    have e3 := List.append_cancel_left e1
    rcases hr1 with rfl | rfl <;> rcases hr2 with rfl | rfl
    · exact ⟨String.ext (List.append_cancel_right e3), rfl, hi⟩
    · have := congrArg List.getLast? e3
      simp at this
    · have := congrArg List.getLast? e3
      simp at this
    · exact ⟨String.ext (List.append_cancel_right e3), rfl, hi⟩
  · intro h
    unfold getNodeName getClusterNetworkName at h
    rw [toString_int_of_nonneg i1 hi1] at h
    have hd := congrArg (fun s => s.data.getLast?) h
    simp only [String.data_append] at hd
    have hne := toString_data_ne_nil i1.toNat
    rw [List.getLast?_append_of_ne_nil _ hne] at hd
    have hlast : ("cluster-".data ++ c2.ObjectMeta.Name.data ++ "-net".data).getLast?
        = some 't' := by
      rw [List.getLast?_append_of_ne_nil _ (by decide)]
      rfl
    rw [hlast] at hd
    have hmem := List.mem_of_getLast?_eq_some hd
    exact absurd (toString_data_isDigit _ 't' hmem) (by decide)

/-- A cluster whose name itself has the form of a node name. -/
theorem getNodeName_identity_witness :
    getNodeName (namedCluster "a-worker-1") "worker" 0 = "cluster-a-worker-1-worker-0"
      ∧ getNodeName (namedCluster "a") "worker" 1 = "cluster-a-worker-1"
      ∧ getNodeName (namedCluster "a-worker-1") "worker" 0
          ≠ getClusterNetworkName (namedCluster "a") :=
  ⟨(getNodeName_identity (namedCluster "a-worker-1") (namedCluster "a") "worker" "worker" 0 1
      (Or.inr rfl) (Or.inr rfl) (by decide) (by decide)).1,
    (getNodeName_identity (namedCluster "a") (namedCluster "a") "worker" "worker" 1 1
      (Or.inr rfl) (Or.inr rfl) (by decide) (by decide)).1,
    (getNodeName_identity (namedCluster "a-worker-1") (namedCluster "a") "worker" "worker" 0 1
      (Or.inr rfl) (Or.inr rfl) (by decide) (by decide)).2.2.2⟩

/-! ## The gateway of a CIDR -/

/-- The gateway of the subnets with more than one address. For an IPv4 CIDR
`a.b.c.d/n` with `n <= 31`, as `net.ParseCIDR` parses it, `getNetworkGateway`
returns the dotted-decimal form of the network address of the subnet plus one,
and this address lies in the subnet; for a string `net.ParseCIDR` refuses it
returns the empty string. -/
theorem getNetworkGateway_ipv4 (env : Env) (cidr : String) (a b c d n : Nat)
    (hn : n ≤ 31) (hparse : env.ParseCIDR cidr = some (ipv4Net a b c d n)) :
    getNetworkGateway env cidr
        = .ok (ipString (ipv4Bytes (networkAddress a b c d n + 1)))
      ∧ inCIDR (networkAddress a b c d n + 1) a b c d n
      ∧ ∀ other : String, env.ParseCIDR other = none → getNetworkGateway env other = .ok "" := by
  have hpow : 2 ^ (32 - n) = 2 * 2 ^ (31 - n) := by
    rw [show 32 - n = (31 - n) + 1 by omega, pow_succ, Nat.mul_comm]
  have heven : networkAddress a b c d n % 2 = 0 := by
    unfold networkAddress
    rw [hpow, ← Nat.mul_assoc, Nat.mul_comm _ 2, Nat.mul_assoc]
    exact Nat.mul_mod_right _ _
  have hpos : 0 < 2 ^ (31 - n) := Nat.pow_pos (by decide)
  refine ⟨?_, ⟨Nat.le_succ _, by rw [hpow]; omega⟩, ?_⟩
  · generalize hN : networkAddress a b c d n = N at heven
    simp only [getNetworkGateway, hparse, ipv4Net, hN, ipv4Bytes, To4, List.length_cons,
      List.length_nil, List.set, List.getD_cons_succ, List.getD_cons_zero]
    simp only [Nat.reduceAdd, if_true]
    congr 2
    have h1 : (N + 1) / 16777216 % 256 = N / 16777216 % 256 := by omega
    have h2 : (N + 1) / 65536 % 256 = N / 65536 % 256 := by omega
    have h3 : (N + 1) / 256 % 256 = N / 256 % 256 := by omega
    have h4 : (N + 1) % 256 = (N % 256 + 1) % 256 := by omega
    rw [h1, h2, h3, h4]
    rfl
  · intro other ho
    simp [getNetworkGateway, ho]

/-- The CIDRs `10.10.0.0/24`, `172.20.0.0/16` and `192.168.1.77/26`. -/
theorem getNetworkGateway_ipv4_witness :
    getNetworkGateway cidrEnv "10.10.0.0/24" = .ok "10.10.0.1"
      ∧ getNetworkGateway cidrEnv "172.20.0.0/16" = .ok "172.20.0.1"
      ∧ getNetworkGateway cidrEnv "192.168.1.77/26" = .ok "192.168.1.65"
      ∧ getNetworkGateway cidrEnv "10.10.0.0" = .ok "" :=
  ⟨(getNetworkGateway_ipv4 cidrEnv "10.10.0.0/24" 10 10 0 0 24 (by decide) rfl).1,
    (getNetworkGateway_ipv4 cidrEnv "172.20.0.0/16" 172 20 0 0 16 (by decide) rfl).1,
    (getNetworkGateway_ipv4 cidrEnv "192.168.1.77/26" 192 168 1 77 26 (by decide) rfl).1,
    (getNetworkGateway_ipv4 cidrEnv "10.10.0.0/24" 10 10 0 0 24 (by decide) rfl).2.2
      "10.10.0.0" rfl⟩

/-- Claim C27 at a failing input. For the CIDR `10.10.0.4/32` the gateway returned
is `10.10.0.5`, which does not lie in the subnet, where the comment of the code
says it takes the first usable address in the subnet; for `10.10.0.255/32` the
increment of the last byte wraps and the gateway returned is `10.10.0.0`, which
is neither the network address plus one, `10.10.1.0`, nor in the subnet. -/
theorem getNetworkGateway_slash32 :
    getNetworkGateway cidrEnv "10.10.0.4/32" = .ok "10.10.0.5"
      ∧ ipString (ipv4Bytes (networkAddress 10 10 0 4 32 + 1)) = "10.10.0.5"
      ∧ ¬ inCIDR (networkAddress 10 10 0 4 32 + 1) 10 10 0 4 32
      ∧ getNetworkGateway cidrEnv "10.10.0.255/32" = .ok "10.10.0.0"
      ∧ ipString (ipv4Bytes (networkAddress 10 10 0 255 32 + 1)) = "10.10.1.0"
      ∧ ¬ inCIDR (ipv4Number 10 10 0 0) 10 10 0 255 32 := by
  decide

/-! ## The order of writes and provider operations in `Reconcile` -/

theorem handleDeletion_events {σ : Type} (senv : StoreEnv) (prov : Provider σ)
    (c : Cluster) (w : World σ) :
    ∃ evs, (handleDeletion senv prov c w).1.trace = w.trace ++ evs
      ∧ ∀ e ∈ evs, e = .DeleteCluster c ∨ e = .Update (withoutFinalizer c) := by
  by_cases htok : containsString c.ObjectMeta.Finalizers clusterFinalizer = true
  · rcases hd : prov.DeleteCluster c w.provider with ⟨ps, o⟩
    cases o with
    | ok u =>
      simp only [handleDeletion, htok, World.DeleteCluster, hd, World.Update, if_true]
      generalize Store.Update senv _ _ = x
      rcases x with ⟨s1, r⟩
      cases r <;>
        exact ⟨[.DeleteCluster c, .Update (withoutFinalizer c)],
          by simp [withoutFinalizer], by simp⟩
    | err e =>
      exact ⟨[.DeleteCluster c],
        by simp only [handleDeletion, htok, World.DeleteCluster, hd, if_true], by simp⟩
    | panic m =>
      exact ⟨[.DeleteCluster c],
        by simp only [handleDeletion, htok, World.DeleteCluster, hd, if_true], by simp⟩
    | diverge =>
      exact ⟨[.DeleteCluster c],
        by simp only [handleDeletion, htok, World.DeleteCluster, hd, if_true], by simp⟩
  · exact ⟨[], by simp [handleDeletion, htok], by simp⟩

theorem handlePendingPhase_events {σ : Type} (senv : StoreEnv) (c : Cluster) (w : World σ) :
    ∃ evs, (handlePendingPhase senv c w).1.trace = w.trace ++ evs
      ∧ ∀ e ∈ evs, ∃ obj, e = .StatusUpdate obj := by
  simp only [handlePendingPhase, World.StatusUpdate]
  generalize Store.StatusUpdate senv _ _ = x
  rcases x with ⟨s1, r⟩
  cases r <;> exact ⟨[_], rfl, by simp⟩

theorem handleRunningPhase_events {σ : Type} (senv : StoreEnv) (prov : Provider σ)
    (c : Cluster) (w : World σ) :
    ∃ evs, (handleRunningPhase senv prov c w).1.trace = w.trace ++ evs
      ∧ ∀ e ∈ evs, e = .GetClusterStatus c ∨ ∃ obj, e = .StatusUpdate obj := by
  rcases hd : prov.GetClusterStatus c w.provider with ⟨ps, o⟩
  cases o with
  | ok st =>
    simp only [handleRunningPhase, World.GetClusterStatus, hd, World.StatusUpdate]
    generalize Store.StatusUpdate senv _ _ = x
    rcases x with ⟨s1, r⟩
    cases r <;>
      exact ⟨[.GetClusterStatus c, .StatusUpdate { c with Status := st }], by simp, by simp⟩
  | err e =>
    exact ⟨[.GetClusterStatus c],
      by simp only [handleRunningPhase, World.GetClusterStatus, hd], by simp⟩
  | panic m =>
    exact ⟨[.GetClusterStatus c],
      by simp only [handleRunningPhase, World.GetClusterStatus, hd], by simp⟩
  | diverge =>
    exact ⟨[.GetClusterStatus c],
      by simp only [handleRunningPhase, World.GetClusterStatus, hd], by simp⟩

theorem handleProvisioningPhase_events {σ : Type} (senv : StoreEnv) (prov : Provider σ)
    (c : Cluster) (w : World σ) :
    ∃ evs, (handleProvisioningPhase senv prov c w).1.trace = w.trace ++ .CreateCluster c :: evs
      ∧ ∀ e ∈ evs, ∃ obj, e = .StatusUpdate obj := by
  rcases hd : prov.CreateCluster c w.provider with ⟨ps, o⟩
  cases o with
  | ok u =>
    simp only [handleProvisioningPhase, World.CreateCluster, hd, World.StatusUpdate]
    generalize Store.StatusUpdate senv _ _ = x
    rcases x with ⟨s1, r⟩
    cases r <;>
      exact ⟨[_], by rw [List.append_assoc]; rfl,
        fun e he => ⟨_, List.mem_singleton.mp he⟩⟩
  | err e =>
    simp only [handleProvisioningPhase, World.CreateCluster, hd, World.StatusUpdate]
    generalize Store.StatusUpdate senv _ _ = x
    rcases x with ⟨s1, r⟩
    cases r <;>
      exact ⟨[_], by rw [List.append_assoc]; rfl,
        fun e he => ⟨_, List.mem_singleton.mp he⟩⟩
  | panic m =>
    exact ⟨[], by simp only [handleProvisioningPhase, World.CreateCluster, hd], by simp⟩
  | diverge =>
    exact ⟨[], by simp only [handleProvisioningPhase, World.CreateCluster, hd], by simp⟩

/-- The events of the dispatch: `CreateCluster` is invoked only by the handler of
phase Provisioning, on the cluster dispatched on; the only update written is the
removal of the finalizer. -/
theorem dispatch_events {σ : Type} (senv : StoreEnv) (prov : Provider σ)
    (c : Cluster) (w : World σ) :
    ∃ evs, (dispatch senv prov c w).1.trace = w.trace ++ evs
      ∧ (∀ c', Event.CreateCluster c' ∈ evs →
          c' = c ∧ dispatch senv prov c w = handleProvisioningPhase senv prov c w)
      ∧ (∀ obj, Event.Update obj ∈ evs → obj = withoutFinalizer c) := by
  unfold dispatch
  split
  · obtain ⟨evs, h1, h2⟩ := handleDeletion_events senv prov c w
    refine ⟨evs, h1, fun c' hc => ?_, fun obj ho => ?_⟩
    · rcases h2 _ hc with h | h <;> cases h
    · rcases h2 _ ho with h | h
      · cases h
      · injection h
  · split
    · obtain ⟨evs, h1, h2⟩ := handlePendingPhase_events senv c w
      refine ⟨evs, h1, fun c' hc => ?_, fun obj ho => ?_⟩
      · obtain ⟨o, h⟩ := h2 _ hc; cases h
      · obtain ⟨o, h⟩ := h2 _ ho; cases h
    · split
      · obtain ⟨evs, h1, h2⟩ := handleProvisioningPhase_events senv prov c w
        refine ⟨_, h1, fun c' hc => ?_, fun obj ho => ?_⟩
        · rcases List.mem_cons.mp hc with h | h
          · injection h with h; exact ⟨h, rfl⟩
          · obtain ⟨o, h⟩ := h2 _ h; cases h
        · rcases List.mem_cons.mp ho with h | h
          · cases h
          · obtain ⟨o, h⟩ := h2 _ h; cases h
      · split
        · obtain ⟨evs, h1, h2⟩ := handleRunningPhase_events senv prov c w
          refine ⟨evs, h1, fun c' hc => ?_, fun obj ho => ?_⟩
          · rcases h2 _ hc with h | ⟨o, h⟩ <;> cases h
          · rcases h2 _ ho with h | ⟨o, h⟩ <;> cases h
        · split
          · exact ⟨[], by simp [handleFailedPhase], by simp, by simp⟩
          · exact ⟨[], by simp, by simp, by simp⟩

theorem containsString_removeString (l : List String) (s : String) :
    containsString (removeString l s) s = false := by
  induction l with
  | nil => rfl
  | cons a l ih =>
    by_cases h : a = s
    · simp [removeString, h, ih]
    · simp [removeString, containsString, h, ih]

theorem withFinalizer_token (c : Cluster) :
    containsString (withFinalizer c).ObjectMeta.Finalizers clusterFinalizer = true := by
  unfold withFinalizer
  split
  · assumption
  · simp only
    generalize c.ObjectMeta.Finalizers = l
    induction l with
    | nil => simp [containsString]
    | cons a l ih =>
      by_cases h : a = clusterFinalizer
      · simp [containsString, h]
      · simpa [containsString, h] using ih

theorem withFinalizer_congr (c c' : Cluster) (h : c'.ObjectMeta = c.ObjectMeta) :
    (withFinalizer c').ObjectMeta = (withFinalizer c).ObjectMeta := by
  unfold withFinalizer
  rw [h]
  split <;> simp [h]

/-- The part of `Reconcile` that adds the finalizer either fails on its write,
before any provider operation, or reaches the dispatch with the cluster that
carries the finalizer and is the persisted object. -/
theorem ensureFinalizer_reaches {σ : Type} (senv : StoreEnv) (prov : Provider σ)
    (c : Cluster) (w : World σ) (hfind : w.store.find c.key = some c) :
    (∃ e pre, (ensureFinalizer senv prov c w).2 = .err e
        ∧ (ensureFinalizer senv prov c w).1.trace = w.trace ++ pre
        ∧ pre.all Event.isWrite = true
        ∧ (∀ obj, Event.Update obj ∈ pre →
            containsString c.ObjectMeta.Finalizers clusterFinalizer = false))
      ∨ (∃ w1 pre, ensureFinalizer senv prov c w = dispatch senv prov (withFinalizer c) w1
        ∧ w1.trace = w.trace ++ pre ∧ pre.all Event.isWrite = true
        ∧ w1.provider = w.provider
        ∧ w1.store.find c.key = some (withFinalizer c)
        ∧ (∀ obj, Event.Update obj ∈ pre →
            containsString c.ObjectMeta.Finalizers clusterFinalizer = false)
        ∧ (containsString c.ObjectMeta.Finalizers clusterFinalizer = false →
            ∃ k, senv.storeFault k (.Update c.key) = none)) := by
  by_cases htok : containsString c.ObjectMeta.Finalizers clusterFinalizer = true
  · right
    have hwf : withFinalizer c = c := by simp [withFinalizer, htok]
    exact ⟨w, [], by rw [hwf]; exact ensureFinalizer_present senv prov c w htok, by simp,
      rfl, rfl, by rw [hwf]; exact hfind, by simp, fun h => by rw [htok] at h; cases h⟩
  · have htok' : containsString c.ObjectMeta.Finalizers clusterFinalizer = false := by
      simpa using htok
    cases hf : senv.storeFault w.store.clock (.Update c.key) with
    | some e =>
      left
      have hk : Cluster.key { c with ObjectMeta := { c.ObjectMeta with
          Finalizers := c.ObjectMeta.Finalizers ++ [clusterFinalizer] } } = c.key := rfl
      have : ensureFinalizer senv prov c w =
          ({ w with store := w.store.tick
                    trace := w.trace ++ [.Update { c with ObjectMeta := { c.ObjectMeta with
                      Finalizers := c.ObjectMeta.Finalizers ++ [clusterFinalizer] } }] },
            .err e) := by
        simp [ensureFinalizer, htok', World.Update, Store.Update, hk, hf]
      rw [this]
      exact ⟨e, [_], rfl, rfl, rfl, fun _ _ => htok'⟩
    | none =>
      right
      obtain ⟨w1, h1, h2, h3, h4⟩ := ensureFinalizer_ok senv prov c w hf hfind
      simp only [htok', Bool.false_eq_true, if_false] at h4
      exact ⟨w1, _, h1, h4, rfl, h2, h3, fun _ _ => htok', fun _ => ⟨_, hf⟩⟩

/-- After the read, `Reconcile` either fails on one of its two initial writes,
before any provider operation, or reaches the dispatch with a cluster that carries
the finalizer and is the persisted object. -/
theorem initPhase_reaches {σ : Type} (senv : StoreEnv) (prov : Provider σ)
    (c : Cluster) (w : World σ) (hfind : w.store.find c.key = some c) :
    (∃ e pre, (initPhase senv prov c w).2 = .err e
        ∧ (initPhase senv prov c w).1.trace = w.trace ++ pre
        ∧ pre.all Event.isWrite = true
        ∧ (∀ obj, Event.Update obj ∈ pre →
            containsString c.ObjectMeta.Finalizers clusterFinalizer = false))
      ∨ (∃ c1 w1 pre, initPhase senv prov c w = dispatch senv prov c1 w1
        ∧ w1.trace = w.trace ++ pre ∧ pre.all Event.isWrite = true
        ∧ w1.provider = w.provider
        ∧ w1.store.find c.key = some c1
        ∧ c1.ObjectMeta = (withFinalizer c).ObjectMeta
        ∧ (∀ obj, Event.Update obj ∈ pre →
            containsString c.ObjectMeta.Finalizers clusterFinalizer = false)
        ∧ (containsString c.ObjectMeta.Finalizers clusterFinalizer = false →
            ∃ k, senv.storeFault k (.Update c.key) = none)) := by
  by_cases hphase : c.Status.Phase = ""
  · cases hf : senv.storeFault w.store.clock
        (.StatusUpdate (Cluster.key { c with Status := withPhase c.Status ClusterPhasePending }))
      with
    | some e =>
      left
      have : initPhase senv prov c w =
          ({ w with store := w.store.tick
                    trace := w.trace ++ [.StatusUpdate
                      { c with Status := withPhase c.Status ClusterPhasePending }] }, .err e) := by
        simp only [withPhase] at hf ⊢
        simp [initPhase, hphase, World.StatusUpdate, Store.StatusUpdate, hf]
      rw [this]
      exact ⟨e, [_], rfl, rfl, rfl, fun obj ho => by simp at ho⟩
    | none =>
      have hu := World.StatusUpdate_accepted senv w
        { c with Status := withPhase c.Status ClusterPhasePending } c hf hfind
      have hinit : initPhase senv prov c w = ensureFinalizer senv prov
          { c with Status := withPhase c.Status ClusterPhasePending }
          { w with
            store := (w.store.put { c with Status := withPhase c.Status ClusterPhasePending }).tick
            trace := w.trace ++ [.StatusUpdate
              { c with Status := withPhase c.Status ClusterPhasePending }] } := by
        simp only [withPhase] at hu ⊢
        simp only [initPhase, hphase, hu, if_true]
      have hfind1 : (w.store.put
          { c with Status := withPhase c.Status ClusterPhasePending }).tick.find c.key
          = some { c with Status := withPhase c.Status ClusterPhasePending } :=
        Store.find_put _ _ c _ hfind rfl
      rw [hinit]
      rcases ensureFinalizer_reaches senv prov
          { c with Status := withPhase c.Status ClusterPhasePending }
          { w with
            store := (w.store.put { c with Status := withPhase c.Status ClusterPhasePending }).tick
            trace := w.trace ++ [.StatusUpdate
              { c with Status := withPhase c.Status ClusterPhasePending }] } hfind1
        with ⟨e, pre, h1, h2, h3, h4⟩ | ⟨w1, pre, h1, h2, h3, h4, h5, h6, h7⟩
      · left
        refine ⟨e, Event.StatusUpdate
          { c with Status := withPhase c.Status ClusterPhasePending } :: pre, h1, ?_, ?_, ?_⟩
        · rw [h2]; simp
        · simpa [Event.isWrite] using h3
        · intro obj ho
          rcases List.mem_cons.mp ho with h | h
          · cases h
          · exact h4 obj h
      · right
        refine ⟨_, w1, Event.StatusUpdate
          { c with Status := withPhase c.Status ClusterPhasePending } :: pre, h1, ?_, ?_, h4, h5,
          withFinalizer_congr c _ rfl, ?_, h7⟩
        · rw [h2]; simp
        · simpa [Event.isWrite] using h3
        · intro obj ho
          rcases List.mem_cons.mp ho with h | h
          · cases h
          · exact h6 obj h
  · rw [initPhase_set senv prov c w hphase]
    rcases ensureFinalizer_reaches senv prov c w hfind
      with ⟨e, pre, h1, h2, h3, h4⟩ | ⟨w1, pre, h1, h2, h3, h4, h5, h6, h7⟩
    · exact Or.inl ⟨e, pre, h1, h2, h3, h4⟩
    · exact Or.inr ⟨_, w1, pre, h1, h2, h3, h4, h5, rfl, h6, h7⟩

theorem isWrite_not_provider (e : Event) (h : e.isWrite = true) : e.isProviderCall = false := by
  cases e <;> simp_all [Event.isWrite, Event.isProviderCall]

/-- What `Reconcile` has done when it returns: nothing but reads; or nothing but
writes, ending in a failed one; or its initial writes followed by the dispatch on
the persisted cluster, which then carries the finalizer. -/
theorem Reconcile_reaches {σ : Type} (senv : StoreEnv) (prov : Provider σ)
    (req : NamespacedName) (w : World σ) :
    (Reconcile senv prov req w).1.trace = w.trace
      ∧ (w.store.find req = none ∨ senv.storeFault w.store.clock (.Get req) ≠ none)
    ∨ (∃ c0 e pre, w.store.find req = some c0
        ∧ (Reconcile senv prov req w).2 = .err e
        ∧ (Reconcile senv prov req w).1.trace = w.trace ++ pre
        ∧ pre.all Event.isWrite = true
        ∧ (∀ obj, Event.Update obj ∈ pre →
            containsString c0.ObjectMeta.Finalizers clusterFinalizer = false))
    ∨ (∃ c0 c1 w1 pre, w.store.find req = some c0
        ∧ Reconcile senv prov req w = dispatch senv prov c1 w1
        ∧ w1.trace = w.trace ++ pre ∧ pre.all Event.isWrite = true
        ∧ w1.provider = w.provider
        ∧ w1.store.find req = some c1
        ∧ c1.ObjectMeta = (withFinalizer c0).ObjectMeta
        ∧ (∀ obj, Event.Update obj ∈ pre →
            containsString c0.ObjectMeta.Finalizers clusterFinalizer = false)
        ∧ (containsString c0.ObjectMeta.Finalizers clusterFinalizer = false →
            ∃ k, senv.storeFault k (.Update req) = none)) := by
  cases hf : senv.storeFault w.store.clock (.Get req) with
  | some e =>
    left
    refine ⟨?_, Or.inr (by simp)⟩
    simp only [Reconcile, World.Get, Store.Get, hf]
    split <;> rfl
  | none =>
    cases hfind : w.store.find req with
    | none =>
      left
      refine ⟨?_, Or.inl rfl⟩
      simp [Reconcile, World.Get, Store.Get, hf, hfind, IsNotFound]
    | some c0 =>
      right
      have hkey := Store.find_key _ _ _ hfind
      rw [Reconcile_found senv prov req w c0 hf hfind]
      have hfind' : ({ w with store := w.store.tick } : World σ).store.find c0.key = some c0 := by
        rw [hkey]; exact hfind
      rcases initPhase_reaches senv prov c0 { w with store := w.store.tick } hfind'
        with ⟨e, pre, h1, h2, h3, h4⟩ | ⟨c1, w1, pre, h1, h2, h3, h4, h5, h6, h7, h8⟩
      · exact Or.inl ⟨c0, e, pre, rfl, h1, h2, h3, h4⟩
      · rw [hkey] at h5 h8
        exact Or.inr ⟨c0, c1, w1, pre, rfl, h1, h2, h3, h4, h5, h6, h7, h8⟩

/-- Claim C22. In every invocation of `Reconcile`: when the provider's
`CreateCluster` is invoked, on a cluster `c`, the invocation has until then done
nothing but store writes, `c` is the persisted object and carries the finalizer
token, and the invocation is from there on the handler of phase Provisioning,
which starts with this call. If the persisted cluster lacks the token and the
store refuses every update, the invocation returns an error and invokes no
provider method. If the persisted cluster carries the token, no update the
invocation writes contains the token: the only one is its removal. -/
theorem Reconcile_finalizer_first {σ : Type} (senv : StoreEnv) (prov : Provider σ)
    (req : NamespacedName) (w : World σ) :
    (∀ c, Event.CreateCluster c ∈ newEvents w (Reconcile senv prov req w).1 →
        ∃ (w1 : World σ) (pre : List Event),
          Reconcile senv prov req w = handleProvisioningPhase senv prov c w1
            ∧ w1.trace = w.trace ++ pre ∧ pre.all Event.isWrite = true
            ∧ w1.provider = w.provider
            ∧ w1.store.find req = some c
            ∧ containsString c.ObjectMeta.Finalizers clusterFinalizer = true)
      ∧ (∀ c0, w.store.find req = some c0 →
          containsString c0.ObjectMeta.Finalizers clusterFinalizer = false →
          senv.storeFault w.store.clock (.Get req) = none →
          (∀ k, senv.storeFault k (.Update req) ≠ none) →
          (∃ e, (Reconcile senv prov req w).2 = .err e)
            ∧ ∀ ev ∈ newEvents w (Reconcile senv prov req w).1, ev.isProviderCall = false)
      ∧ (∀ c0, w.store.find req = some c0 →
          containsString c0.ObjectMeta.Finalizers clusterFinalizer = true →
          ∀ obj, Event.Update obj ∈ newEvents w (Reconcile senv prov req w).1 →
            containsString obj.ObjectMeta.Finalizers clusterFinalizer = false) := by
  rcases Reconcile_reaches senv prov req w with
    ⟨ht, hno⟩ | ⟨c0, e, pre, hfind, herr, ht, hw, hu⟩
      | ⟨c0, c1, w1, pre, hfind, hR, ht, hw, hp, hf1, hmeta, hu, hk⟩
  · have hnew : newEvents w (Reconcile senv prov req w).1 = [] := by
      simp [newEvents, ht]
    rw [hnew]
    refine ⟨fun c hc => by simp at hc, fun c0 hfind _ hget _ => ?_, fun _ _ _ obj ho => by
      simp at ho⟩
    rcases hno with h | h
    · rw [h] at hfind; cases hfind
    · exact absurd hget h
  · have hnew : newEvents w (Reconcile senv prov req w).1 = pre := by
      simp [newEvents, ht]
    rw [hnew]
    refine ⟨fun c hc => ?_, fun _ _ _ _ _ => ⟨⟨e, herr⟩, fun ev hev => ?_⟩,
      fun c0' hfind' htok obj ho => ?_⟩
    · have := List.all_eq_true.mp hw _ hc
      simp [Event.isWrite] at this
    · exact isWrite_not_provider ev (List.all_eq_true.mp hw _ hev)
    · rw [hfind] at hfind'
      cases hfind'
      rw [hu obj ho] at htok
      cases htok
  · obtain ⟨evs, he1, he2, he3⟩ := dispatch_events senv prov c1 w1
    have hnew : newEvents w (Reconcile senv prov req w).1 = pre ++ evs := by
      rw [hR]
      simp [newEvents, he1, ht]
    rw [hnew]
    have htok1 : containsString c1.ObjectMeta.Finalizers clusterFinalizer = true := by
      rw [hmeta]; exact withFinalizer_token c0
    refine ⟨fun c hc => ?_, fun c0' hfind' htok _ hall => ?_, fun c0' hfind' htok obj ho => ?_⟩
    · rcases List.mem_append.mp hc with h | h
      · have := List.all_eq_true.mp hw _ h
        simp [Event.isWrite] at this
      · obtain ⟨e1, e2⟩ := he2 c h
        subst e1
        exact ⟨w1, pre, by rw [hR, e2], ht, hw, hp, hf1, htok1⟩
    · rw [hfind] at hfind'
      cases hfind'
      obtain ⟨k, hk'⟩ := hk htok
      exact absurd hk' (hall k)
    · rw [hfind] at hfind'
      cases hfind'
      rcases List.mem_append.mp ho with h | h
      · rw [hu obj h] at htok
        cases htok
      · rw [he3 obj h]
        exact containsString_removeString _ _

/-- The test cluster persisted in phase Provisioning without the finalizer, with
the mock provider: with a store that accepts the writes, `CreateCluster` is
invoked on the cluster with the finalizer, after the update that persisted it;
with a store that refuses updates, the invocation fails on the update and the
only event is that write. -/
theorem Reconcile_finalizer_first_witness :
    (∃ (w1 : World Unit) (pre : List Event),
        Reconcile quietStore (mockProvider {}) testKey
            (worldOf (testClusterWith [] none "Provisioning") ())
          = handleProvisioningPhase quietStore (mockProvider {})
              (testClusterWith [clusterFinalizer] none "Provisioning") w1
        ∧ w1.trace = (worldOf (testClusterWith [] none "Provisioning") ()).trace ++ pre
        ∧ pre.all Event.isWrite = true
        ∧ w1.provider = (worldOf (testClusterWith [] none "Provisioning") ()).provider
        ∧ w1.store.find testKey = some (testClusterWith [clusterFinalizer] none "Provisioning")
        ∧ containsString
            (testClusterWith [clusterFinalizer] none "Provisioning").ObjectMeta.Finalizers
            clusterFinalizer = true)
      ∧ ((∃ e, (Reconcile updateRefusedStore (mockProvider {}) testKey
            (worldOf (testClusterWith [] none "Provisioning") ())).2 = .err e)
        ∧ ∀ ev ∈ newEvents (worldOf (testClusterWith [] none "Provisioning") ())
            (Reconcile updateRefusedStore (mockProvider {}) testKey
              (worldOf (testClusterWith [] none "Provisioning") ())).1,
            ev.isProviderCall = false) :=
  ⟨(Reconcile_finalizer_first quietStore (mockProvider {}) testKey
      (worldOf (testClusterWith [] none "Provisioning") ())).1
      (testClusterWith [clusterFinalizer] none "Provisioning") (by decide),
    (Reconcile_finalizer_first updateRefusedStore (mockProvider {}) testKey
      (worldOf (testClusterWith [] none "Provisioning") ())).2.1
      (testClusterWith [] none "Provisioning") (by decide) (by decide) rfl
      (fun _ => by simp [updateRefusedStore])⟩

/-! ## A running cluster whose containers no longer match the spec -/

theorem classify_pending (cs : List Container) (spec : ClusterSpec)
    (hne : cs ≠ []) (hall : ∀ x ∈ cs, x.State = "running")
    (hdev : (runningWithRole "control-plane" cs : Int) ≠ spec.ControlPlane.Count ∨
      (runningWithRole "worker" cs : Int) ≠ spec.Workers.Count) :
    (classify cs spec).Phase = ClusterPhasePending := by
  have hany : cs.any (fun c => c.State != "running") = false := by
    rw [Bool.eq_false_iff]
    intro h
    obtain ⟨x, hx, hs⟩ := List.any_eq_true.mp h
    simp [hall x hx] at hs
  have hcount : ¬ ((runningWithRole "control-plane" cs : Int) = spec.ControlPlane.Count
      ∧ (runningWithRole "worker" cs : Int) = spec.Workers.Count) := by
    intro h
    rcases hdev with hd | hd
    · exact hd h.1
    · exact hd h.2
  simp [classify, hne, hany, hcount, ClusterPhasePending]

/-- One invocation of `Reconcile` on a cluster persisted in phase Running, without
a deletion marker, every store call and the listing succeeding: the status the
Docker provider computes is persisted, and the daemon has served one listing. -/
theorem Reconcile_running_step (senv : StoreEnv) (env : Env) (p : DockerProvider)
    (req : NamespacedName) (w : World Runtime) (c : Cluster)
    (hstore : ∀ n call, senv.storeFault n call = none)
    (hlist : ∀ n, env.dockerFault n (.ContainerList true (getClusterFilters c)) = none)
    (hfind : w.store.find req = some c)
    (hphase : c.Status.Phase = ClusterPhaseRunning)
    (hdel : IsZero c.ObjectMeta.DeletionTimestamp = true)
    (hlen : (clusterContainers c w.provider).length < 2147483648) :
    ∃ W : World Runtime,
      Reconcile senv (dockerProvider env p) req w = (W, .ok { RequeueAfter := 30 })
        ∧ W.store.find req = some { withFinalizer c with
            Status := classify (clusterContainers c w.provider) c.Spec }
        ∧ W.provider = w.provider.serve (.ContainerList true (getClusterFilters c)) := by
  have hkey := Store.find_key _ _ _ hfind
  have hne : c.Status.Phase ≠ "" := by rw [hphase]; decide
  rw [Reconcile_found senv _ req w c (hstore _ _) hfind, initPhase_set _ _ _ _ hne]
  obtain ⟨w1, hw1, hprov, hfind1, -⟩ := ensureFinalizer_ok senv (dockerProvider env p) c
    { w with store := w.store.tick } (hstore _ _) (by rw [hkey]; exact hfind)
  simp only at hprov
  have hpp : (withFinalizer c).Status.Phase = ClusterPhaseRunning := by
    rw [withFinalizer_status, hphase]
  have hdel1 : IsZero (withFinalizer c).ObjectMeta.DeletionTimestamp = true := by
    rw [withFinalizer_deletion]; exact hdel
  rw [hw1, dispatch_running _ _ _ _ hdel1 hpp]
  have hk1 : (withFinalizer c).key = req := by rw [withFinalizer_key, hkey]
  rw [hkey, ← hk1] at hfind1
  have hfilters : getClusterFilters (withFinalizer c) = getClusterFilters c := by
    simp [getClusterFilters, withFinalizer_name]
  have hconts : clusterContainers (withFinalizer c) w1.provider
      = clusterContainers c w.provider := by
    simp [clusterContainers, withFinalizer_name, hprov]
  have hget : GetClusterStatus env (withFinalizer c) w1.provider
      = (w1.provider.serve (.ContainerList true (getClusterFilters c)),
          .ok (classify (clusterContainers c w.provider) c.Spec)) := by
    have := GetClusterStatus_of_list env (withFinalizer c) w1.provider
      (by rw [hfilters]; exact hlist _) (by rw [hconts]; exact hlen)
    rw [hconts, withFinalizer_spec, hfilters] at this
    exact this
  rw [handleRunningPhase_ok senv (dockerProvider env p) (withFinalizer c) (withFinalizer c)
    w1 _ _ (hstore _ _) hfind1 hget]
  refine ⟨_, rfl, ?_, by simp only [hprov]⟩
  have hput := Store.find_put w1.store _ _
    { withFinalizer c with Status := classify (clusterContainers c w.provider) c.Spec }
    hfind1 rfl
  simp only [Store.find_tick]
  rw [← hk1]
  exact hput

theorem dispatch_pending {σ : Type} (senv : StoreEnv) (prov : Provider σ) (c : Cluster)
    (w : World σ) (hdel : IsZero c.ObjectMeta.DeletionTimestamp = true)
    (hphase : c.Status.Phase = ClusterPhasePending) :
    dispatch senv prov c w = handlePendingPhase senv c w := by
  simp [dispatch, hdel, hphase]

/-- One invocation of `Reconcile` on a cluster persisted in phase Pending with the
finalizer and without a deletion marker, every store call succeeding: phase
Provisioning is persisted, no provider method is invoked. -/
theorem Reconcile_pending_step {σ : Type} (senv : StoreEnv) (prov : Provider σ)
    (req : NamespacedName) (w : World σ) (c : Cluster)
    (hstore : ∀ n call, senv.storeFault n call = none)
    (hfind : w.store.find req = some c)
    (hphase : c.Status.Phase = ClusterPhasePending)
    (hdel : IsZero c.ObjectMeta.DeletionTimestamp = true)
    (htok : containsString c.ObjectMeta.Finalizers clusterFinalizer = true) :
    ∃ W : World σ,
      Reconcile senv prov req w = (W, .ok { Requeue := true })
        ∧ W.store.find req
          = some { c with Status := withPhase c.Status ClusterPhaseProvisioning }
        ∧ W.provider = w.provider := by
  have hkey := Store.find_key _ _ _ hfind
  have hne : c.Status.Phase ≠ "" := by rw [hphase]; decide
  rw [Reconcile_found senv _ req w c (hstore _ _) hfind, initPhase_set _ _ _ _ hne,
    ensureFinalizer_present _ _ _ _ htok, dispatch_pending _ _ _ _ hdel hphase]
  have hu := World.StatusUpdate_accepted senv ({ w with store := w.store.tick } : World σ)
    { c with Status := withPhase c.Status ClusterPhaseProvisioning } c (hstore _ _)
    (by rw [show Cluster.key { c with Status := withPhase c.Status ClusterPhaseProvisioning }
      = req from hkey]; exact hfind)
  simp only [withPhase] at hu ⊢
  simp only [handlePendingPhase, hu]
  refine ⟨_, rfl, ?_, rfl⟩
  exact Store.find_put _ _ c _ (by rw [Store.find_tick]; exact hfind) hkey

/-- One invocation of `Reconcile` on a cluster persisted in phase Provisioning with
the finalizer and without a deletion marker, while the daemon holds a container
of the cluster, every store call and the listing succeeding: `CreateCluster`
returns `ErrClusterExists`, phase Failed is persisted and the error is returned;
the daemon has served one listing. -/
theorem Reconcile_provisioning_exists (senv : StoreEnv) (env : Env) (p : DockerProvider)
    (req : NamespacedName) (w : World Runtime) (c : Cluster)
    (hstore : ∀ n call, senv.storeFault n call = none)
    (hlist : ∀ n, env.dockerFault n (.ContainerList true (getClusterFilters c)) = none)
    (hfind : w.store.find req = some c)
    (hphase : c.Status.Phase = ClusterPhaseProvisioning)
    (hdel : IsZero c.ObjectMeta.DeletionTimestamp = true)
    (htok : containsString c.ObjectMeta.Finalizers clusterFinalizer = true)
    (hex : HasCluster c.ObjectMeta.Name w.provider.containers) :
    ∃ W : World Runtime,
      Reconcile senv (dockerProvider env p) req w = (W, .err ErrClusterExists)
        ∧ W.store.find req = some { c with Status := failedStatus c.Status ErrClusterExists }
        ∧ W.provider = w.provider.serve (.ContainerList true (getClusterFilters c)) := by
  have hkey := Store.find_key _ _ _ hfind
  have hne : c.Status.Phase ≠ "" := by rw [hphase]; decide
  rw [Reconcile_found senv _ req w c (hstore _ _) hfind, initPhase_set _ _ _ _ hne,
    ensureFinalizer_present _ _ _ _ htok, dispatch_provisioning _ _ _ _ hdel hphase]
  have hcreate : (dockerProvider env p).CreateCluster c
      ({ w with store := w.store.tick } : World Runtime).provider
      = (w.provider.serve (.ContainerList true (getClusterFilters c)), .err ErrClusterExists) :=
    CreateCluster_of_hasCluster env p c w.provider (hlist _) hex
  rw [handleProvisioningPhase_err senv (dockerProvider env p) c c
    { w with store := w.store.tick } _ _ (hstore _ _)
    (by rw [hkey]; exact hfind) hcreate]
  refine ⟨_, rfl, ?_, rfl⟩
  simp only [Store.find_tick]
  exact Store.find_put _ _ c _ (by rw [Store.find_tick]; exact hfind) hkey

theorem dispatch_no_UpdateCluster {σ : Type} (senv : StoreEnv) (prov : Provider σ)
    (c : Cluster) (w : World σ) :
    ∃ evs, (dispatch senv prov c w).1.trace = w.trace ++ evs
      ∧ ∀ ev ∈ evs, ∀ x, ev ≠ Event.UpdateCluster x := by
  unfold dispatch
  split
  · obtain ⟨evs, h1, h2⟩ := handleDeletion_events senv prov c w
    refine ⟨evs, h1, fun ev hev x hx => ?_⟩
    rcases h2 _ hev with h | h <;> rw [h] at hx <;> cases hx
  · split
    · obtain ⟨evs, h1, h2⟩ := handlePendingPhase_events senv c w
      refine ⟨evs, h1, fun ev hev x hx => ?_⟩
      obtain ⟨o, h⟩ := h2 _ hev
      rw [h] at hx; cases hx
    · split
      · obtain ⟨evs, h1, h2⟩ := handleProvisioningPhase_events senv prov c w
        refine ⟨_, h1, fun ev hev x hx => ?_⟩
        rcases List.mem_cons.mp hev with h | h
        · rw [h] at hx; cases hx
        · obtain ⟨o, h⟩ := h2 _ h
          rw [h] at hx; cases hx
      · split
        · obtain ⟨evs, h1, h2⟩ := handleRunningPhase_events senv prov c w
          refine ⟨evs, h1, fun ev hev x hx => ?_⟩
          rcases h2 _ hev with h | ⟨o, h⟩ <;> rw [h] at hx <;> cases hx
        · split
          · exact ⟨[], by simp [handleFailedPhase], by simp⟩
          · exact ⟨[], by simp, by simp⟩

/-- No invocation of `Reconcile` invokes the provider's `UpdateCluster`. -/
theorem Reconcile_no_UpdateCluster {σ : Type} (senv : StoreEnv) (prov : Provider σ)
    (req : NamespacedName) (w : World σ) :
    ∃ evs, (Reconcile senv prov req w).1.trace = w.trace ++ evs
      ∧ ∀ ev ∈ evs, ∀ x, ev ≠ Event.UpdateCluster x := by
  rcases Reconcile_reaches senv prov req w with
    ⟨ht, -⟩ | ⟨c0, e, pre, -, -, ht, hw, -⟩ | ⟨c0, c1, w1, pre, -, hR, ht, hw, -⟩
  · exact ⟨[], by simp [ht], by simp⟩
  · refine ⟨pre, ht, fun ev hev x hx => ?_⟩
    have := List.all_eq_true.mp hw _ hev
    rw [hx] at this
    simp [Event.isWrite] at this
  · obtain ⟨evs, h1, h2⟩ := dispatch_no_UpdateCluster senv prov c1 w1
    refine ⟨pre ++ evs, by rw [hR, h1, ht, List.append_assoc], fun ev hev x hx => ?_⟩
    rcases List.mem_append.mp hev with h | h
    · have := List.all_eq_true.mp hw _ h
      rw [hx] at this
      simp [Event.isWrite] at this
    · exact h2 ev h x hx

theorem reconciled_no_UpdateCluster {σ : Type} (senv : StoreEnv) (prov : Provider σ)
    (req : NamespacedName) (n : Nat) (w : World σ) :
    ∃ evs, (reconciled senv prov req n w).trace = w.trace ++ evs
      ∧ ∀ ev ∈ evs, ∀ x, ev ≠ Event.UpdateCluster x := by
  induction n with
  | zero => exact ⟨[], by simp [reconciled], by simp⟩
  | succ n ih =>
    obtain ⟨evs, h1, h2⟩ := ih
    obtain ⟨evs', h3, h4⟩ := Reconcile_no_UpdateCluster senv prov req
      (reconciled senv prov req n w)
    refine ⟨evs ++ evs', by simp only [reconciled]; rw [h3, h1, List.append_assoc],
      fun ev hev x hx => ?_⟩
    rcases List.mem_append.mp hev with h | h
    · exact h2 ev h x hx
    · exact h4 ev h x hx

/-- Claim C29, amended. With the Docker provider, every call to the store and to
the daemon succeeding: for a cluster persisted in phase Running, without a
deletion marker, whose labelled containers (fewer than 2^31) are not empty and
all run but whose running control-plane or worker count differs from the spec,
three successive invocations of `Reconcile` persist the phases Pending,
Provisioning and Failed in turn, and the third returns `ErrClusterExists`. All
the daemon is asked for in the three invocations are two listings by label:
containers, networks and created-resource count are as before. None of the
invocations invokes the provider's `UpdateCluster`. -/
theorem Reconcile_drift (senv : StoreEnv) (env : Env) (p : DockerProvider)
    (req : NamespacedName) (w : World Runtime) (c : Cluster)
    (hstore : ∀ n call, senv.storeFault n call = none)
    (hdocker : ∀ n call, env.dockerFault n call = none)
    (hfind : w.store.find req = some c)
    (hphase : c.Status.Phase = ClusterPhaseRunning)
    (hdel : IsZero c.ObjectMeta.DeletionTimestamp = true)
    (hne : clusterContainers c w.provider ≠ [])
    (hall : ∀ x ∈ clusterContainers c w.provider, x.State = "running")
    (hlen : (clusterContainers c w.provider).length < 2147483648)
    (hdev : (runningWithRole "control-plane" (clusterContainers c w.provider) : Int)
        ≠ c.Spec.ControlPlane.Count ∨
      (runningWithRole "worker" (clusterContainers c w.provider) : Int)
        ≠ c.Spec.Workers.Count) :
    (∃ c1, (reconciled senv (dockerProvider env p) req 1 w).store.find req = some c1
        ∧ c1.Status.Phase = ClusterPhasePending)
      ∧ (∃ c2, (reconciled senv (dockerProvider env p) req 2 w).store.find req = some c2
        ∧ c2.Status.Phase = ClusterPhaseProvisioning)
      ∧ (∃ c3, (reconciled senv (dockerProvider env p) req 3 w).store.find req = some c3
        ∧ c3.Status.Phase = ClusterPhaseFailed)
      ∧ (Reconcile senv (dockerProvider env p) req
          (reconciled senv (dockerProvider env p) req 2 w)).2 = .err ErrClusterExists
      ∧ (reconciled senv (dockerProvider env p) req 3 w).provider
        = { w.provider with
            clock := w.provider.clock + 2
            calls := w.provider.calls ++ [.ContainerList true (getClusterFilters c),
                                          .ContainerList true (getClusterFilters c)] }
      ∧ ∀ ev ∈ newEvents w (reconciled senv (dockerProvider env p) req 3 w),
          ∀ x, ev ≠ Event.UpdateCluster x := by
  obtain ⟨W1, hR1, hf1, hp1⟩ := Reconcile_running_step senv env p req w c hstore
    (fun n => hdocker n _) hfind hphase hdel hlen
  have hph1 := classify_pending _ c.Spec hne hall hdev
  have hdel1 : IsZero (withFinalizer c).ObjectMeta.DeletionTimestamp = true := by
    rw [withFinalizer_deletion]; exact hdel
  obtain ⟨W2, hR2, hf2, hp2⟩ := Reconcile_pending_step senv (dockerProvider env p) req W1
    { withFinalizer c with Status := classify (clusterContainers c w.provider) c.Spec }
    hstore hf1 hph1 hdel1 (withFinalizer_token c)
  have hfilters : getClusterFilters
      { withFinalizer c with
        Status := withPhase (classify (clusterContainers c w.provider) c.Spec)
          ClusterPhaseProvisioning } = getClusterFilters c := by
    simp [getClusterFilters, withFinalizer_name]
  have hex : HasCluster c.ObjectMeta.Name W2.provider.containers := by
    rw [hp2, hp1]
    exact (HasCluster_iff_clusterContainers c w.provider).mpr hne
  obtain ⟨W3, hR3, hf3, hp3⟩ := Reconcile_provisioning_exists senv env p req W2
    { withFinalizer c with
      Status := withPhase (classify (clusterContainers c w.provider) c.Spec)
        ClusterPhaseProvisioning }
    hstore (fun n => hdocker n _) hf2 rfl hdel1 (withFinalizer_token c)
    (by simpa [withFinalizer_name] using hex)
  have h1 : reconciled senv (dockerProvider env p) req 1 w = W1 := by
    simp [reconciled, hR1]
  have h2 : reconciled senv (dockerProvider env p) req 2 w = W2 := by
    simp [reconciled, hR1, hR2]
  have h3 : reconciled senv (dockerProvider env p) req 3 w = W3 := by
    simp [reconciled, hR1, hR2, hR3]
  refine ⟨⟨_, by rw [h1]; exact hf1, hph1⟩, ⟨_, by rw [h2]; exact hf2, rfl⟩,
    ⟨_, by rw [h3]; exact hf3, rfl⟩, by rw [h2, hR3], ?_, ?_⟩
  · rw [h3, hp3, hp2, hp1, hfilters]
    simp [Runtime.serve]
  · obtain ⟨evs, ht, hno⟩ := reconciled_no_UpdateCluster senv (dockerProvider env p) req 3 w
    have : newEvents w (reconciled senv (dockerProvider env p) req 3 w) = evs := by
      simp [newEvents, ht]
    rw [this]
    exact hno

/-- The test cluster persisted in phase Running, on a daemon from which the
container of its second worker has been removed. -/
theorem Reconcile_drift_witness :
    (∃ c1, (reconciled quietStore (dockerProvider quietEnv mainProvider) testKey 1
          (worldOf (testClusterWith [clusterFinalizer] none "Running")
            degradedRuntime)).store.find testKey = some c1
        ∧ c1.Status.Phase = ClusterPhasePending)
      ∧ (Reconcile quietStore (dockerProvider quietEnv mainProvider) testKey
          (reconciled quietStore (dockerProvider quietEnv mainProvider) testKey 2
            (worldOf (testClusterWith [clusterFinalizer] none "Running")
              degradedRuntime))).2 = .err ErrClusterExists
      ∧ (reconciled quietStore (dockerProvider quietEnv mainProvider) testKey 3
          (worldOf (testClusterWith [clusterFinalizer] none "Running")
            degradedRuntime)).store.objects.map (fun o => (o.Status.Phase, o.Status.Message))
        = [("Failed", "Failed to create cluster: cluster already exists")] :=
  ⟨(Reconcile_drift quietStore quietEnv mainProvider testKey
      (worldOf (testClusterWith [clusterFinalizer] none "Running") degradedRuntime)
      (testClusterWith [clusterFinalizer] none "Running") (fun _ _ => rfl) (fun _ _ => rfl)
      (by decide) (by decide) (by decide) (by decide) (by decide) (by decide) (by decide)).1,
    (Reconcile_drift quietStore quietEnv mainProvider testKey
      (worldOf (testClusterWith [clusterFinalizer] none "Running") degradedRuntime)
      (testClusterWith [clusterFinalizer] none "Running") (fun _ _ => rfl) (fun _ _ => rfl)
      (by decide) (by decide) (by decide) (by decide) (by decide) (by decide)
      (by decide)).2.2.2.1,
    by decide⟩

/-- Claim C29 refuted as stated. The cluster is persisted in phase Running with a
deletion marker, the token and the finalizer of another controller; its
containers, one control-plane node and one worker where the spec asks for two,
all run. The first invocation of `Reconcile` takes the deletion path: the
provider's `DeleteCluster` stops and removes both containers, and the object,
which stays persisted for the other finalizer, is still in phase Running. -/
theorem Reconcile_drift_deleting :
    (clusterContainers deletingCluster
        degradedRuntime).map (fun x => x.State) = ["running", "running"]
      ∧ (reconciled quietStore (dockerProvider quietEnv mainProvider) testKey 1
          (worldOf deletingCluster
            degradedRuntime)).provider.containers = []
      ∧ (reconciled quietStore (dockerProvider quietEnv mainProvider) testKey 1
          (worldOf deletingCluster
            degradedRuntime)).store.objects.map (fun o => o.Status.Phase) = ["Running"]
      ∧ (reconciled quietStore (dockerProvider quietEnv mainProvider) testKey 1
          (worldOf deletingCluster
            degradedRuntime)).trace.map Event.isProviderCall = [true, false] := by
  decide

/-! ## Merging provider configs -/

/-- A fresh array made for a slice and filled from it holds the elements of the
slice; the arrays that were there are as before. -/
theorem make_copy (h : Heap) (src : Slice) (hsrc : ∀ a, src = some a → a < h.arrays.length) :
    (h.make (h.len src)).1.copy (h.make (h.len src)).2 src
      = { arrays := h.arrays ++ [h.read src] } := by
  have hread : ∀ x : List Int, ({ arrays := h.arrays ++ [x] } : Heap).read src = h.read src := by
    intro x
    cases src with
    | none => rfl
    | some a =>
      have := hsrc a rfl
      simp [Heap.read, List.getD_eq_getElem?_getD, List.getElem?_append_left this]
  have hnew : ∀ x : List Int,
      ({ arrays := h.arrays ++ [x] } : Heap).read (some h.arrays.length) = x := by
    intro x
    simp [Heap.read, List.getD_eq_getElem?_getD]
  simp only [Heap.make, Heap.copy, Heap.len, hread, hnew, List.length_replicate, Nat.min_self,
    List.take_length, List.drop_length, List.append_nil]
  congr 1
  simp

theorem read_extend (h : Heap) (ext : List (List Int)) (s : Slice)
    (hs : ∀ a, s = some a → a < h.arrays.length) :
    ({ arrays := h.arrays ++ ext } : Heap).read s = h.read s := by
  cases s with
  | none => rfl
  | some a =>
    have := hs a rfl
    simp [Heap.read, List.getD_eq_getElem?_getD, List.getElem?_append_left this]

theorem read_fresh (h : Heap) (x : List Int) :
    ({ arrays := h.arrays ++ [x] } : Heap).read (some h.arrays.length) = x := by
  simp [Heap.read, List.getD_eq_getElem?_getD]

/-- What `DeepCopy` returns: the heap with at most one more array, and a struct
that stands for the same config and whose slice, unless nil, is the new array. -/
theorem DeepCopy_spec (h : Heap) (d : DockerProviderConfigMem) (hd : d.Valid h) :
    ∃ ext, (DeepCopy h d).1 = { arrays := h.arrays ++ ext }
      ∧ (DeepCopy h d).2.value (DeepCopy h d).1 = d.value h
      ∧ (∀ a, (DeepCopy h d).2.Spec.Network.ExposedPorts = some a →
          h.arrays.length ≤ a ∧ a < (DeepCopy h d).1.arrays.length) := by
  unfold DeepCopy
  cases hp : d.Spec.Network.ExposedPorts with
  | none =>
    refine ⟨[], by simp, by simp, ?_⟩
    intro a ha
    simp [hp] at ha
  | some a0 =>
    have hmc := make_copy h (some a0) (fun a ha => hd a (by rw [hp, ha]))
    simp only [ne_eq, reduceCtorEq, not_false_eq_true, if_true]
    have hm2 : (h.make (h.len (some a0))).2 = some h.arrays.length := rfl
    rw [hm2] at hmc ⊢
    simp only [hmc]
    refine ⟨[h.read (some a0)], rfl, ?_, ?_⟩
    · simp [DockerProviderConfigMem.value, NetworkConfigMem.value,
        DockerProviderConfigMem.setNetwork, read_fresh, hp]
    · intro a ha
      simp only [DockerProviderConfigMem.setNetwork, Option.some.injEq] at ha
      subst ha
      simp

/-- Claim C25. For two configs in memory whose slices refer to arrays of the heap:
`MergeWith` returns a config that stands for the merge the specification
describes, each field from `other` when that is set and from `d` otherwise,
metadata and IPv6 flag from `d`; the configs `d` and `other` stand for the same
values afterwards, no array that was in the heap has been written, and the slice
of the result, unless nil, is an array that was not in the heap before. -/
theorem MergeWith_spec (h : Heap) (d other : DockerProviderConfigMem)
    (hd : d.Valid h) (ho : other.Valid h) :
    (MergeWith h d other).2.value (MergeWith h d other).1
        = mergedConfig (d.value h) (other.value h)
      ∧ d.value (MergeWith h d other).1 = d.value h
      ∧ other.value (MergeWith h d other).1 = other.value h
      ∧ (∃ ext, (MergeWith h d other).1.arrays = h.arrays ++ ext)
      ∧ (∀ a, (MergeWith h d other).2.Spec.Network.ExposedPorts = some a →
          h.arrays.length ≤ a) := by
  obtain ⟨ext, hH1, hval, hfresh⟩ := DeepCopy_spec h d hd
  rcases hDC : DeepCopy h d with ⟨H1, r1⟩
  rw [hDC] at hH1 hval hfresh
  simp only at hH1 hval hfresh
  subst hH1
  have hoR : ({ arrays := h.arrays ++ ext } : Heap).read other.Spec.Network.ExposedPorts
      = h.read other.Spec.Network.ExposedPorts := read_extend h ext _ ho
  have hmc := make_copy { arrays := h.arrays ++ ext } other.Spec.Network.ExposedPorts
    (fun a ha => by
      have := ho a ha
      simp only [List.length_append]
      omega)
  have hm2 : (({ arrays := h.arrays ++ ext } : Heap).make
      (({ arrays := h.arrays ++ ext } : Heap).len other.Spec.Network.ExposedPorts)).2
      = some (h.arrays ++ ext).length := rfl
  rw [hm2] at hmc
  have hval0 : d.value { arrays := h.arrays ++ ext } = d.value h := by
    simp [DockerProviderConfigMem.value, NetworkConfigMem.value, read_extend h ext _ hd]
  have read0 : other.value { arrays := h.arrays ++ ext } = other.value h := by
    simp [DockerProviderConfigMem.value, NetworkConfigMem.value, hoR]
  have hr1 : r1.value { arrays := h.arrays ++ ext } = d.value h := hval
  simp only [DockerProviderConfigMem.value, NetworkConfigMem.value,
    DockerProviderConfig.mk.injEq, DockerProviderConfigSpec.mk.injEq,
    NetworkConfig.mk.injEq] at hr1
  obtain ⟨hmeta, ⟨hcidr, hmask, hports, hv6, hdns⟩, hlim⟩ := hr1
  have hstep : ∀ H2 p, mergeExposedPorts { arrays := h.arrays ++ ext } other
        (mergeSubnetMask other (mergeCIDR other r1)) = (H2, p) →
      (mergeStorage other (mergeMemory other (mergeCPU other
          (mergeDNSNameserver other p)))).value H2
        = mergedConfig (d.value h) (other.value h)
      ∧ d.value H2 = d.value h ∧ other.value H2 = other.value h
      ∧ (∃ ext2, H2.arrays = h.arrays ++ ext2)
      ∧ (∀ a, (mergeStorage other (mergeMemory other (mergeCPU other
          (mergeDNSNameserver other p)))).Spec.Network.ExposedPorts = some a →
          h.arrays.length ≤ a) := by
    intro H2 p hp
    unfold mergeExposedPorts at hp
    by_cases hlen : ({ arrays := h.arrays ++ ext } : Heap).len
        other.Spec.Network.ExposedPorts > 0
    · simp only [hlen, if_true, hm2, hmc, Prod.mk.injEq] at hp
      obtain ⟨hH2, hp⟩ := hp
      subst hH2
      subst hp
      have hne : h.read other.Spec.Network.ExposedPorts ≠ [] := by
        intro hnil
        simp [Heap.len, hoR, hnil] at hlen
      have hnew : ∀ x : List Int, ({ arrays := h.arrays ++ (ext ++ [x]) } : Heap).read
          (some (h.arrays.length + ext.length)) = x := by
        intro x
        have := read_fresh { arrays := h.arrays ++ ext } x
        simpa [List.append_assoc, List.length_append] using this
      refine ⟨?_, ?_, ?_, ⟨ext ++ [_], (List.append_assoc _ _ _)⟩, ?_⟩
      · by_cases c1 : other.Spec.Network.CIDR = "" <;>
        by_cases c2 : other.Spec.Network.SubnetMask = 0 <;>
        by_cases c3 : other.Spec.Network.DNSNameserver = "" <;>
        by_cases c4 : other.Spec.ResourceLimits.CPU.Default = "" <;>
        by_cases c5 : other.Spec.ResourceLimits.Memory.Default = "" <;>
        by_cases c6 : other.Spec.ResourceLimits.Storage.Default = "" <;>
        simp [mergeCIDR, mergeSubnetMask, mergeDNSNameserver, mergeCPU, mergeMemory,
          mergeStorage, DockerProviderConfigMem.setNetwork,
          DockerProviderConfigMem.setResourceLimits, DockerProviderConfigMem.value,
          NetworkConfigMem.value, mergedConfig, c1, c2, c3, c4, c5, c6, hnew, hoR, hne,
          hmeta, hcidr, hmask, hv6, hdns, hlim]
      · have := read_extend h (ext ++ [({ arrays := h.arrays ++ ext } : Heap).read
          other.Spec.Network.ExposedPorts]) _ hd
        simp only [DockerProviderConfigMem.value, NetworkConfigMem.value, this,
          List.append_assoc]
      · have := read_extend h (ext ++ [({ arrays := h.arrays ++ ext } : Heap).read
          other.Spec.Network.ExposedPorts]) _ ho
        simp only [DockerProviderConfigMem.value, NetworkConfigMem.value, this,
          List.append_assoc]
      · intro a
        by_cases c3 : other.Spec.Network.DNSNameserver = "" <;>
        by_cases c4 : other.Spec.ResourceLimits.CPU.Default = "" <;>
        by_cases c5 : other.Spec.ResourceLimits.Memory.Default = "" <;>
        by_cases c6 : other.Spec.ResourceLimits.Storage.Default = "" <;>
        simp only [mergeDNSNameserver, mergeCPU, mergeMemory,
          mergeStorage, DockerProviderConfigMem.setNetwork,
          DockerProviderConfigMem.setResourceLimits, c3, c4, c5, c6, ne_eq, not_true_eq_false,
          not_false_eq_true, if_true, if_false, Option.some.injEq, List.length_append] <;>
        omega
    · simp only [hlen, if_false, Prod.mk.injEq] at hp
      obtain ⟨hH2, hp⟩ := hp
      subst hH2
      subst hp
      have hnil : h.read other.Spec.Network.ExposedPorts = [] := by
        have : ¬ (h.read other.Spec.Network.ExposedPorts).length > 0 := by
          simpa [Heap.len, hoR] using hlen
        exact List.eq_nil_of_length_eq_zero (by omega)
      refine ⟨?_, hval0, read0, ⟨ext, rfl⟩, ?_⟩
      · by_cases c1 : other.Spec.Network.CIDR = "" <;>
        by_cases c2 : other.Spec.Network.SubnetMask = 0 <;>
        by_cases c3 : other.Spec.Network.DNSNameserver = "" <;>
        by_cases c4 : other.Spec.ResourceLimits.CPU.Default = "" <;>
        by_cases c5 : other.Spec.ResourceLimits.Memory.Default = "" <;>
        by_cases c6 : other.Spec.ResourceLimits.Storage.Default = "" <;>
        simp [mergeCIDR, mergeSubnetMask, mergeDNSNameserver, mergeCPU, mergeMemory,
          mergeStorage, DockerProviderConfigMem.setNetwork,
          DockerProviderConfigMem.setResourceLimits, DockerProviderConfigMem.value,
          NetworkConfigMem.value, mergedConfig, c1, c2, c3, c4, c5, c6, hnil,
          hmeta, hcidr, hmask, hports, hv6, hdns, hlim]
      · intro a
        by_cases c1 : other.Spec.Network.CIDR = "" <;>
        by_cases c2 : other.Spec.Network.SubnetMask = 0 <;>
        by_cases c3 : other.Spec.Network.DNSNameserver = "" <;>
        by_cases c4 : other.Spec.ResourceLimits.CPU.Default = "" <;>
        by_cases c5 : other.Spec.ResourceLimits.Memory.Default = "" <;>
        by_cases c6 : other.Spec.ResourceLimits.Storage.Default = "" <;>
        simp only [mergeCIDR, mergeSubnetMask, mergeDNSNameserver, mergeCPU, mergeMemory,
          mergeStorage, DockerProviderConfigMem.setNetwork,
          DockerProviderConfigMem.setResourceLimits, c1, c2, c3, c4, c5, c6, ne_eq,
          not_true_eq_false, not_false_eq_true, if_true, if_false] <;>
        exact fun ha => (hfresh a ha).1
  unfold MergeWith
  rw [hDC]
  rcases hME : mergeExposedPorts { arrays := h.arrays ++ ext } other
    (mergeSubnetMask other (mergeCIDR other r1)) with ⟨H2, p⟩
  have := hstep H2 p hME
  simp only [hME]
  exact this

/-- The merge of the test: the defaults merged with `test-docker-config` have the
CIDR `172.20.0.0/16` and the three ports 80, 443 and 6443, in an array of their
own. -/
theorem MergeWith_spec_witness :
    ((MergeWith testHeap defaultConfigMem testConfigMem).2.value
        (MergeWith testHeap defaultConfigMem testConfigMem).1
        = mergedConfig (defaultConfigMem.value testHeap) (testConfigMem.value testHeap)
      ∧ defaultConfigMem.value (MergeWith testHeap defaultConfigMem testConfigMem).1
        = defaultConfigMem.value testHeap
      ∧ testConfigMem.value (MergeWith testHeap defaultConfigMem testConfigMem).1
        = testConfigMem.value testHeap
      ∧ (∃ ext, (MergeWith testHeap defaultConfigMem testConfigMem).1.arrays
          = testHeap.arrays ++ ext)
      ∧ (∀ a, (MergeWith testHeap defaultConfigMem testConfigMem).2.Spec.Network.ExposedPorts
          = some a → testHeap.arrays.length ≤ a))
      ∧ ((MergeWith testHeap defaultConfigMem testConfigMem).2.value
          (MergeWith testHeap defaultConfigMem testConfigMem).1).Spec.Network.CIDR
        = "172.20.0.0/16"
      ∧ ((MergeWith testHeap defaultConfigMem testConfigMem).2.value
          (MergeWith testHeap defaultConfigMem testConfigMem).1).Spec.Network.ExposedPorts
        = [80, 443, 6443]
      ∧ (MergeWith testHeap defaultConfigMem testConfigMem).2.Spec.Network.ExposedPorts
        = some 1 :=
  ⟨MergeWith_spec testHeap defaultConfigMem testConfigMem (by decide) (by decide),
    by decide, by decide, by decide⟩

/-- Claim C15 at a failing input. The name filter of the daemon reports every
container whose name contains the pattern. The test cluster has ten running
workers, those of index 0 and 2 to 10, the worker of index 1 having been removed
out of band, and its spec asks for one worker. Every call succeeds, identifiers
and names are unique. `UpdateCluster` returns nil; in the iteration for index 1,
whose worker is absent, the listing by the name of worker 1 reports the worker of
index 10, and `UpdateCluster` stops and removes it instead of skipping the
index. -/
theorem UpdateCluster_scale_down_wrong_worker :
    WellFormed gapRuntime.containers
      ∧ runningWithRole "worker" (clusterContainers (resizedCluster 1 1) gapRuntime) = 10
      ∧ gapRuntime.containers.map (fun x => x.Names)
        = [["/cluster-test-docker-cluster-control-plane-0"],
           ["/cluster-test-docker-cluster-worker-0"],
           ["/cluster-test-docker-cluster-worker-2"],
           ["/cluster-test-docker-cluster-worker-3"],
           ["/cluster-test-docker-cluster-worker-4"],
           ["/cluster-test-docker-cluster-worker-5"],
           ["/cluster-test-docker-cluster-worker-6"],
           ["/cluster-test-docker-cluster-worker-7"],
           ["/cluster-test-docker-cluster-worker-8"],
           ["/cluster-test-docker-cluster-worker-9"],
           ["/cluster-test-docker-cluster-worker-10"]]
      ∧ (UpdateCluster partialMatchEnv (resizedCluster 1 1) gapRuntime).2 = .ok ()
      ∧ (gapRuntime.containers.filter
            (fun x => x.isNamed "cluster-test-docker-cluster-worker-10")).map (fun x => x.ID)
          = ["5f2d8c1a9b3e12"]
      ∧ removalCalls (resizedCluster 1 1) gapRuntime.containers 1
          = [.ContainerList true (.name "cluster-test-docker-cluster-worker-1")]
      ∧ ((UpdateCluster partialMatchEnv (resizedCluster 1 1) gapRuntime).1.calls.drop
            (gapRuntime.calls.length + 27))
          = [.ContainerList true (.name "cluster-test-docker-cluster-worker-1"),
             .ContainerStop "5f2d8c1a9b3e12", .ContainerRemove "5f2d8c1a9b3e12"]
      ∧ (UpdateCluster partialMatchEnv (resizedCluster 1 1) gapRuntime).1.containers.map
          (fun x => x.Names)
        = [["/cluster-test-docker-cluster-control-plane-0"],
           ["/cluster-test-docker-cluster-worker-0"]] := by
  decide

end MiniK8s
